import Mathlib

/-!
# QMStats: a shallow embedding of the reporting and write paths

The definitions below follow `backend/routes/admin.js` (the hive query builder
`queryHiveData` and the export routes) and `backend/routes/stats.js` (the
helpers `hasOverlap`, `canEditStat`, `computeProcessedTotals` and the
`POST /`, `PUT /:id`, `DELETE /:id` handlers).

Conventions of the embedding:

* JavaScript strings are lists of characters (`Str`).
* JavaScript numbers that hold integers are `Int` / `Nat`, exact (no rounding:
  the model is the one of integers below `2^53`).
* The relational store is a record of tables, each table a list of rows in
  storage order; a query is a function of the store.
* Calendar dates are day numbers and times of day are numbers of seconds, so
  that the comparisons of the store are `<` and `≤` on `Nat`; instants
  (`created_at`, `Date.now()`) are milliseconds as `Int`.
-/

namespace QMStats

/-! ## JavaScript primitives -/

/-- A string value: the list of its characters. -/
abbrev Str := List Char

/-- The characters `String.prototype.trim` and `parseInt` skip: ECMAScript
`WhiteSpace` and `LineTerminator`. -/
def isWhiteSpace (c : Char) : Bool :=
  c.toNat == 0x09 || c.toNat == 0x0A || c.toNat == 0x0B || c.toNat == 0x0C ||
  c.toNat == 0x0D || c.toNat == 0x20 || c.toNat == 0xA0 || c.toNat == 0x1680 ||
  (0x2000 ≤ c.toNat && c.toNat ≤ 0x200A) || c.toNat == 0x2028 || c.toNat == 0x2029 ||
  c.toNat == 0x202F || c.toNat == 0x205F || c.toNat == 0x3000 || c.toNat == 0xFEFF

/-- The model of `s.trim()`: white space removed at both ends. -/
def trim (s : Str) : Str :=
  ((s.dropWhile isWhiteSpace).reverse.dropWhile isWhiteSpace).reverse

/-- The model of `s.toLowerCase()` and of SQL `LOWER(s)`: the letters `A`..`Z`
are mapped to `a`..`z`, every other character is kept. -/
def toLowerCase (s : Str) : Str := s.map Char.toLower

/-- A decimal digit's value. -/
def digitValue (c : Char) : Nat := c.toNat - 48

/-- The integer written by a list of decimal digits, most significant first. -/
def digitsValue (ds : Str) : Nat := ds.foldl (fun acc c => 10 * acc + digitValue c) 0

/-- The model of `parseInt(s, 10)` on a string: leading white space is
skipped, one sign is read, then the longest run of decimal digits; `none` is
`NaN` (no digit found). -/
def parseIntStr (s : Str) : Option Int :=
  let t := s.dropWhile isWhiteSpace
  let neg := t.head? == some '-'
  let body := if t.head? == some '-' || t.head? == some '+' then t.tail else t
  let ds := body.takeWhile Char.isDigit
  if ds.isEmpty then none
  else some (if neg then -(digitsValue ds : Int) else (digitsValue ds : Int))

/-- A value of the query object handed to `queryHiveData`: a key may be
absent (`undefined`), hold a string (every key of `req.query`) or hold a
number (the export routes overwrite `page` and `pageSize` with `1` and
`5000`). -/
inductive QVal where
  | undefined
  | str (s : Str)
  | num (n : Int)
deriving DecidableEq, Repr

/-- The model of `parseInt(v, 10)` on a query value that was given: a string
is parsed, an integer number is returned as it is (its decimal rendering
parses back to itself). -/
def parseInt (v : QVal) : Option Int :=
  match v with
  | .undefined => none
  | .str s => parseIntStr s
  | .num n => some n

/-- The model of `x || d` on the result of `parseInt`: `NaN` and `0` are
falsy. -/
def orDefault (x : Option Int) (d : Int) : Int :=
  match x with
  | none => d
  | some n => if n = 0 then d else n

/-- The destructuring default `key = d`: the default applies only to
`undefined`. -/
def withDefault (v : QVal) (d : Int) : QVal :=
  match v with
  | .undefined => .num d
  | w => w

/-- The value of `pageNum` in `queryHiveData`:
`Math.max(1, parseInt(page, 10) || 1)` with `page = 1` by default. -/
def pageNum (page : QVal) : Int :=
  max 1 (orDefault (parseInt (withDefault page 1)) 1)

/-- The value of `pageSz` in `queryHiveData`:
`Math.min(200, Math.max(1, parseInt(pageSize, 10) || 50))` with
`pageSize = 50` by default. -/
def pageSz (pageSize : QVal) : Int :=
  min 200 (max 1 (orDefault (parseInt (withDefault pageSize 50)) 50))

/-! ## The store -/

/-- A row of `stats`. -/
structure StatRow where
  id : Nat
  user_id : Nat
  date : Nat
  start_time : Nat
  end_time : Nat
  created_at : Int
  updated_at : Int
deriving DecidableEq, Repr

/-- A row of `users` (the password hash plays no part and is left out). -/
structure UserRow where
  id : Nat
  email : Str
  first_name : Str
  surname : Str
  team_leader_user_id : Option Nat
deriving DecidableEq, Repr

/-- A row of `user_team_leader`. -/
structure TeamLeaderRow where
  user_id : Nat
  leader_user_id : Nat
deriving DecidableEq, Repr

/-- A row of `mail_openings`. -/
structure MailOpeningRow where
  stat_id : Nat
  user_id : Nat
  first_name : Str
  surname : Str
  total_envelopes : Nat
  file_creation : Nat
  urgent_file_creation : Nat
  attachment : Nat
  urgent_attachment : Nat
  rejects : Nat
  wrong_mail : Nat
  withdraw_letter : Nat
deriving DecidableEq, Repr

/-- A row of `file_creations`; the checklist columns hold `0` or `1`. -/
structure FileCreationRow where
  stat_id : Nat
  user_id : Nat
  first_name : Str
  surname : Str
  category : Str
  urgency : Str
  group_index : Option Nat
  row_index : Nat
  value : Int
  natp : Nat
  rtd : Nat
  coi : Nat
  none : Nat
deriving DecidableEq, Repr

/-- A row of `attachments`. -/
structure AttachmentRow where
  stat_id : Nat
  user_id : Nat
  first_name : Str
  surname : Str
  category : Option Str
  urgency : Str
  row_index : Nat
  value : Int
  natp : Nat
  rtd : Nat
  coi : Nat
  none : Nat
deriving DecidableEq, Repr

/-- A row of `rejects`; `id` is the key the store assigns on insertion. -/
structure RejectRow where
  id : Nat
  stat_id : Nat
  user_id : Nat
  first_name : Str
  surname : Str
  row_index : Nat
  value : Int
  natp : Nat
  rtd : Nat
  coi : Nat
  none : Nat
deriving DecidableEq, Repr

/-- A row of `reject_reasons`; `id` is the key the store assigns on
insertion. -/
structure RejectReasonRow where
  id : Nat
  reject_id : Nat
  value : Int
  first_name : Str
  surname : Str
  reason : Str
deriving DecidableEq, Repr

/-- A row of `processed_mail`. -/
structure ProcessedMailRow where
  stat_id : Nat
  file_creation_total : Nat
  attachments_total : Nat
  rejects_total : Nat
  total_processed : Nat
  natp_total : Nat
  rtd_total : Nat
  coi_total : Nat
  tl_count : Int
  date : Nat
  start_time : Nat
  end_time : Nat
  updated_at : Int
deriving DecidableEq, Repr

/-- A row of `user_group`. -/
structure UserGroupRow where
  id : Nat
  manager_id : Nat
deriving DecidableEq, Repr

/-- A row of `group_members`. -/
structure GroupMemberRow where
  group_id : Nat
  user_id : Nat
deriving DecidableEq, Repr

/-- A row of `group_invites`; `status` is the text the column holds. -/
structure GroupInviteRow where
  id : Nat
  group_id : Nat
  user_id : Nat
  status : Str
deriving DecidableEq, Repr

/-- The state of the store: every table the route files read or write, and
the next keys the store will assign to inserted `rejects` and `reject_reasons`
rows (`insertId`). -/
structure Db where
  stats : List StatRow
  users : List UserRow
  user_team_leader : List TeamLeaderRow
  mail_openings : List MailOpeningRow
  file_creations : List FileCreationRow
  attachments : List AttachmentRow
  rejects : List RejectRow
  reject_reasons : List RejectReasonRow
  processed_mail : List ProcessedMailRow
  user_group : List UserGroupRow
  group_members : List GroupMemberRow
  reject_seq : Nat
  reason_seq : Nat
  group_invites : List GroupInviteRow := []
deriving DecidableEq, Repr

/-! ## SQL `LIKE` -/

/-- The model of `subject LIKE pattern` with the default escape character:
`%` matches any run of characters, `_` matches one character, a backslash
makes the next pattern character literal (a backslash that ends the pattern
is itself literal), every other character matches itself. Characters are
compared exactly: both sides are lower-cased by the query before the
comparison. -/
def sqlLike : Str → Str → Bool
  | [], s => s.isEmpty
  | c :: p, s =>
    if c = '%' then s.tails.any (fun t => sqlLike p t)
    else if c = '_' then
      match s with
      | [] => false
      | _ :: t => sqlLike p t
    else if c = '\\' then
      match p with
      | [] =>
        match s with
        | [] => false
        | d :: t => d == c && t.isEmpty
      | e :: q =>
        match s with
        | [] => false
        | d :: t => d == e && sqlLike q t
    else
      match s with
      | [] => false
      | d :: t => d == c && sqlLike p t

/-- The lift of `LIKE` to a nullable subject: `NULL LIKE p` is not true. -/
def sqlLikeNull (subject : Option Str) (pattern : Str) : Bool :=
  match subject with
  | none => false
  | some s => sqlLike pattern s

/-! ## The hive query builder (`queryHiveData`) -/

/-- The query object `q` of `queryHiveData`, key by key (`search` is the key
`q`, `dateFrom` and `dateTo` are the keys `from` and `to`). A filter key is
absent or holds a string. -/
structure HiveQuery where
  search : Option Str
  dateFrom : Option Str
  dateTo : Option Str
  clientEmail : Option Str
  leaderEmail : Option Str
  page : QVal
  pageSize : QVal
  includeDetails : Option Str
deriving DecidableEq, Repr

/-- The truthiness of a filter value: `undefined` and the empty string are
falsy, every other string is truthy. -/
def truthy (v : Option Str) : Bool :=
  match v with
  | some (_ :: _) => true
  | _ => false

/-- The string held by a filter key (the empty string when absent). -/
def strOf (v : Option Str) : Str := v.getD []

/-- The truthiness of `search && search.trim()`: the key holds a string that
is not empty after trimming. -/
def nonBlank (v : Option Str) : Bool := truthy v && !(trim (strOf v)).isEmpty

/-- The five condition texts `queryHiveData` can push on `where`:
`s.date >= ?`, `s.date <= ?`, `LOWER(u.email) LIKE ?`,
`LOWER(lu.email) LIKE ?` and the six-column `OR` of `LIKE ?`. -/
inductive Cond where
  | dateGe
  | dateLe
  | userEmailLike
  | leaderEmailLike
  | searchLike
deriving DecidableEq, Repr

/-- The number of `?` placeholders of a condition text. -/
def Cond.arity : Cond → Nat
  | .searchLike => 6
  | _ => 1

/-- The pattern `%${f.toLowerCase()}%`. -/
def likePattern (f : Str) : Str := '%' :: (toLowerCase f ++ ['%'])

/-- The arrays `where` and `params` after the five `if` blocks of
`queryHiveData`, built in the order of the source. -/
def buildWhere (qy : HiveQuery) : List Cond × List Str :=
  let w0 : List Cond × List Str := ([], [])
  let w1 := if truthy qy.dateFrom then (w0.1 ++ [Cond.dateGe], w0.2 ++ [strOf qy.dateFrom]) else w0
  let w2 := if truthy qy.dateTo then (w1.1 ++ [Cond.dateLe], w1.2 ++ [strOf qy.dateTo]) else w1
  let w3 := if truthy qy.clientEmail
    then (w2.1 ++ [Cond.userEmailLike], w2.2 ++ [likePattern (strOf qy.clientEmail)]) else w2
  let w4 := if truthy qy.leaderEmail
    then (w3.1 ++ [Cond.leaderEmailLike], w3.2 ++ [likePattern (strOf qy.leaderEmail)]) else w3
  let w5 := if nonBlank qy.search
    then (w4.1 ++ [Cond.searchLike], w4.2 ++ List.replicate 6 (likePattern (strOf qy.search)))
    else w4
  w5

/-- The statement `sql` before `ORDER BY`: the fixed `SELECT ... FROM ... JOIN`
text followed by ` WHERE c1 AND c2 ...` when `where` is not empty
(`whereClause = none` is the statement without a `WHERE` clause), with its
positional parameters. -/
structure HiveSql where
  whereClause : Option (List Cond)
  params : List Str
deriving DecidableEq, Repr

/-- The statement built by `queryHiveData`: the `WHERE` clause is added only
`if (where.length)`. -/
def buildSql (qy : HiveQuery) : HiveSql :=
  let w := buildWhere qy
  { whereClause := if w.1.isEmpty then none else some w.1, params := w.2 }

/-- A row of the join
`stats s JOIN users u LEFT JOIN user_team_leader utl LEFT JOIN users lu
LEFT JOIN mail_openings mo`: the columns of `lu` and `mo` are `NULL` (`none`)
when the left join found no partner. -/
structure HiveRow where
  s : StatRow
  u : UserRow
  lu : Option UserRow
  mo : Option MailOpeningRow
deriving DecidableEq, Repr

/-- The rows a `LEFT JOIN` pairs with one left row, given the matching right
rows: all of them, or one `NULL` row when there is none. -/
def leftJoin {α : Type} (matching : List α) : List (Option α) :=
  match matching with
  | [] => [none]
  | _ => matching.map some

/-- The rows `JOIN users u ON u.id = s.user_id` pairs with a stat. -/
def joinOwner (db : Db) (s : StatRow) : List UserRow :=
  db.users.filter fun u => u.id == s.user_id

/-- The rows `LEFT JOIN user_team_leader utl ON utl.user_id = s.user_id`
pairs with a stat. -/
def joinUtl (db : Db) (s : StatRow) : List (Option TeamLeaderRow) :=
  leftJoin (db.user_team_leader.filter fun t => t.user_id == s.user_id)

/-- The rows `LEFT JOIN users lu ON lu.id = utl.leader_user_id` pairs with a
row of the previous join (`utl.leader_user_id` is `NULL` when `utl` is). -/
def joinLeader (db : Db) (utl : Option TeamLeaderRow) : List (Option UserRow) :=
  match utl with
  | none => [none]
  | some t => leftJoin (db.users.filter fun l => l.id == t.leader_user_id)

/-- The rows `LEFT JOIN mail_openings mo ON mo.stat_id = s.id` pairs with a
stat. -/
def joinMail (db : Db) (s : StatRow) : List (Option MailOpeningRow) :=
  leftJoin (db.mail_openings.filter fun m => m.stat_id == s.id)

/-- The joined rows that stem from one stat. -/
def hiveJoinOf (db : Db) (s : StatRow) : List HiveRow :=
  (joinOwner db s).flatMap fun u =>
  (joinUtl db s).flatMap fun utl =>
  (joinLeader db utl).flatMap fun lu =>
  (joinMail db s).map fun mo =>
  { s := s, u := u, lu := lu, mo := mo }

/-- The rows of the `FROM` clause of the hive statement, in storage order. -/
def hiveJoin (db : Db) : List HiveRow :=
  db.stats.flatMap (hiveJoinOf db)

/-- The truth of one condition on a joined row, its placeholders bound to
`ps`. `dateOf` is the store's reading of a date parameter as a day number.
A comparison with `NULL` is not true. -/
def evalCond (dateOf : Str → Nat) (c : Cond) (ps : List Str) (r : HiveRow) : Bool :=
  match c, ps with
  | .dateGe, [p] => decide (dateOf p ≤ r.s.date)
  | .dateLe, [p] => decide (r.s.date ≤ dateOf p)
  | .userEmailLike, [p] => sqlLike p (toLowerCase r.u.email)
  | .leaderEmailLike, [p] => sqlLikeNull (r.lu.map fun l => toLowerCase l.email) p
  | .searchLike, [p1, p2, p3, p4, p5, p6] =>
    sqlLike p1 (toLowerCase r.u.first_name) || sqlLike p2 (toLowerCase r.u.surname) ||
    sqlLike p3 (toLowerCase r.u.email) ||
    sqlLikeNull (r.lu.map fun l => toLowerCase l.first_name) p4 ||
    sqlLikeNull (r.lu.map fun l => toLowerCase l.surname) p5 ||
    sqlLikeNull (r.lu.map fun l => toLowerCase l.email) p6
  | _, _ => false

/-- The truth of `c1 AND c2 AND ...` on a joined row: the conditions take
their placeholders from `params` from left to right. -/
def evalWhere (dateOf : Str → Nat) : List Cond → List Str → HiveRow → Bool
  | [], _, _ => true
  | c :: cs, ps, r =>
    evalCond dateOf c (ps.take c.arity) r && evalWhere dateOf cs (ps.drop c.arity) r

/-- The rows the statement selects before `ORDER BY` and `LIMIT`. -/
def selectRows (dateOf : Str → Nat) (db : Db) (sql : HiveSql) : List HiveRow :=
  match sql.whereClause with
  | none => hiveJoin db
  | some cs => (hiveJoin db).filter fun r => evalWhere dateOf cs sql.params r

/-- The relation `ORDER BY s.date DESC, s.start_time DESC, s.id DESC`: `a` is
placed no later than `b`. -/
def hiveOrder (a b : HiveRow) : Prop :=
  b.s.date < a.s.date ∨
  (b.s.date = a.s.date ∧
    (b.s.start_time < a.s.start_time ∨ (b.s.start_time = a.s.start_time ∧ b.s.id ≤ a.s.id)))

instance : DecidableRel hiveOrder := fun a b => by unfold hiveOrder; infer_instance

/-- The rows of `sql + " ORDER BY ..."`. The sort is a function of the
selected rows; the statement leaves the order of rows with equal keys to the
store, and there are none when the ids of the selected stats are distinct. -/
def orderedRows (dateOf : Str → Nat) (db : Db) (sql : HiveSql) : List HiveRow :=
  (selectRows dateOf db sql).insertionSort hiveOrder

/-- The rows of `sql + " ORDER BY ... LIMIT ? OFFSET ?"`. -/
def limitOffset {α : Type} (rows : List α) (limit offset : Int) : List α :=
  (rows.drop offset.toNat).take limit.toNat

/-- The shaped `user` and `teamLeader` objects. -/
structure Person where
  id : Nat
  name : Str
  email : Str
deriving DecidableEq, Repr

/-- The shaped `mailOpening` object. -/
structure MailOpeningShape where
  totalEnvelopes : Nat
  fileCreation : Nat
  urgentFileCreation : Nat
  attachment : Nat
  urgentAttachment : Nat
  rejects : Nat
  wrongMail : Nat
  withdrawLetter : Nat
deriving DecidableEq, Repr

/-- The shaped `counts.checklist` object. -/
structure Checklist where
  NATP : Nat
  RTD : Nat
  COI : Nat
  NONE : Nat
deriving DecidableEq, Repr

/-- The shaped `counts` object (`fileCreation.individual.regular` is
`fcIndividualRegular`, and so on). -/
structure Counts where
  fcIndividualRegular : Nat
  fcIndividualUrgent : Nat
  fcFamilyRegular : Nat
  fcFamilyUrgent : Nat
  attachmentsRegular : Nat
  attachmentsUrgent : Nat
  rejects : Nat
  checklist : Checklist
deriving DecidableEq, Repr

/-- An element of `fileCreationRows` after detail expansion. -/
structure FcDetail where
  category : Str
  urgency : Str
  groupIndex : Option Nat
  rowIndex : Nat
  value : Int
  natp : Bool
  rtd : Bool
  coi : Bool
  none : Bool
deriving DecidableEq, Repr

/-- An element of `attachmentsRows` after detail expansion. -/
structure AttDetail where
  category : Option Str
  urgency : Str
  rowIndex : Nat
  value : Int
  natp : Bool
  rtd : Bool
  coi : Bool
  none : Bool
deriving DecidableEq, Repr

/-- An element of `rejectRows` after detail expansion. -/
structure RejDetail where
  rowIndex : Nat
  value : Int
  natp : Bool
  rtd : Bool
  coi : Bool
  none : Bool
  reasons : List Str
deriving DecidableEq, Repr

/-- An element of `stats` in the result of `queryHiveData`; the three row
lists are absent (`none`) unless details were attached. -/
structure HiveStat where
  id : Nat
  date : Nat
  start_time : Nat
  end_time : Nat
  created_at : Int
  updated_at : Int
  user : Person
  teamLeader : Option Person
  mailOpening : MailOpeningShape
  counts : Counts
  fileCreationRows : Option (List FcDetail)
  attachmentsRows : Option (List AttDetail)
  rejectRows : Option (List RejDetail)
deriving DecidableEq, Repr

/-- The model of the template `${first} ${surname}` followed by `.trim()`. -/
def fullName (first surname : Str) : Str := trim (first ++ ' ' :: surname)

/-- The correlated subquery
`SELECT COUNT(*) FROM file_creations fc WHERE fc.stat_id=s.id AND
fc.category=? AND fc.urgency=? AND fc.value>0`. -/
def fcCount (db : Db) (statId : Nat) (category urgency : Str) : Nat :=
  (db.file_creations.filter fun fc =>
    fc.stat_id == statId && fc.category == category && fc.urgency == urgency &&
      decide (0 < fc.value)).length

/-- The correlated subquery
`SELECT COUNT(*) FROM attachments a WHERE a.stat_id=s.id AND a.urgency=? AND
a.value>0`. -/
def attCount (db : Db) (statId : Nat) (urgency : Str) : Nat :=
  (db.attachments.filter fun a =>
    a.stat_id == statId && a.urgency == urgency && decide (0 < a.value)).length

/-- The correlated subquery
`SELECT COUNT(*) FROM rejects rj WHERE rj.stat_id=s.id AND rj.value>0`. -/
def rejCount (db : Db) (statId : Nat) : Nat :=
  (db.rejects.filter fun rj => rj.stat_id == statId && decide (0 < rj.value)).length

/-- The sum of the three `IFNULL((SELECT SUM(flag) FROM t WHERE stat_id=s.id),0)`
terms, the flag column given by its projection on each table. -/
def chkSum (db : Db) (statId : Nat) (fcFlag : FileCreationRow → Nat)
    (attFlag : AttachmentRow → Nat) (rejFlag : RejectRow → Nat) : Nat :=
  ((db.file_creations.filter fun r => r.stat_id == statId).map fcFlag).sum +
  ((db.attachments.filter fun r => r.stat_id == statId).map attFlag).sum +
  ((db.rejects.filter fun r => r.stat_id == statId).map rejFlag).sum

/-- The derived count columns of the `SELECT` list for one stat. -/
def countsOf (db : Db) (statId : Nat) : Counts :=
  { fcIndividualRegular := fcCount db statId "individual".toList "regular".toList
    fcIndividualUrgent := fcCount db statId "individual".toList "urgent".toList
    fcFamilyRegular := fcCount db statId "family".toList "regular".toList
    fcFamilyUrgent := fcCount db statId "family".toList "urgent".toList
    attachmentsRegular := attCount db statId "regular".toList
    attachmentsUrgent := attCount db statId "urgent".toList
    rejects := rejCount db statId
    checklist :=
      { NATP := chkSum db statId (fun r => r.natp) (fun r => r.natp) (fun r => r.natp)
        RTD := chkSum db statId (fun r => r.rtd) (fun r => r.rtd) (fun r => r.rtd)
        COI := chkSum db statId (fun r => r.coi) (fun r => r.coi) (fun r => r.coi)
        NONE := chkSum db statId (fun r => r.none) (fun r => r.none) (fun r => r.none) } }

/-- The shaped `mailOpening` of a joined row: every counter `|| 0`. -/
def shapeMail (mo : Option MailOpeningRow) : MailOpeningShape :=
  match mo with
  | none =>
    { totalEnvelopes := 0, fileCreation := 0, urgentFileCreation := 0, attachment := 0,
      urgentAttachment := 0, rejects := 0, wrongMail := 0, withdrawLetter := 0 }
  | some m =>
    { totalEnvelopes := m.total_envelopes, fileCreation := m.file_creation,
      urgentFileCreation := m.urgent_file_creation, attachment := m.attachment,
      urgentAttachment := m.urgent_attachment, rejects := m.rejects,
      wrongMail := m.wrong_mail, withdrawLetter := m.withdraw_letter }

/-- The shaped `teamLeader`: `null` when `r.leader_id` is falsy. -/
def shapeLeader (lu : Option UserRow) : Option Person :=
  match lu with
  | none => none
  | some l =>
    if l.id = 0 then none
    else some { id := l.id, name := fullName l.first_name l.surname, email := l.email }

/-- The callback of `rows.map` in `queryHiveData`: one result row shaped into
a stat object. -/
def shape (db : Db) (r : HiveRow) : HiveStat :=
  { id := r.s.id
    date := r.s.date
    start_time := r.s.start_time
    end_time := r.s.end_time
    created_at := r.s.created_at
    updated_at := r.s.updated_at
    user := { id := r.s.user_id, name := fullName r.u.first_name r.u.surname, email := r.u.email }
    teamLeader := shapeLeader r.lu
    mailOpening := shapeMail r.mo
    counts := countsOf db r.s.id
    fileCreationRows := none
    attachmentsRows := none
    rejectRows := none }

/-- The order of two strings in an `ORDER BY`: lexicographic on character
codes. -/
def strCmp : Str → Str → Ordering
  | [], [] => .eq
  | [], _ :: _ => .lt
  | _ :: _, [] => .gt
  | a :: as, b :: bs =>
    if a.toNat < b.toNat then .lt
    else if b.toNat < a.toNat then .gt
    else strCmp as bs

/-- The order of two nullable integers in an ascending `ORDER BY`: `NULL`
sorts first. -/
def optNatCmp : Option Nat → Option Nat → Ordering
  | none, none => .eq
  | none, some _ => .lt
  | some _, none => .gt
  | some a, some b => compare a b

/-- The relation `ORDER BY stat_id, category, urgency, group_index, row_index`
on `file_creations`. -/
def fcOrder (a b : FileCreationRow) : Prop :=
  ((compare a.stat_id b.stat_id).then ((strCmp a.category b.category).then
    ((strCmp a.urgency b.urgency).then ((optNatCmp a.group_index b.group_index).then
      (compare a.row_index b.row_index))))) ≠ .gt

instance : DecidableRel fcOrder := fun a b => by unfold fcOrder; infer_instance

/-- The relation `ORDER BY stat_id, urgency, row_index` on `attachments`. -/
def attOrder (a b : AttachmentRow) : Prop :=
  ((compare a.stat_id b.stat_id).then ((strCmp a.urgency b.urgency).then
    (compare a.row_index b.row_index))) ≠ .gt

instance : DecidableRel attOrder := fun a b => by unfold attOrder; infer_instance

/-- The relation `ORDER BY stat_id, row_index` on `rejects`. -/
def rejOrder (a b : RejectRow) : Prop :=
  ((compare a.stat_id b.stat_id).then (compare a.row_index b.row_index)) ≠ .gt

instance : DecidableRel rejOrder := fun a b => by unfold rejOrder; infer_instance

/-- The relation `ORDER BY reject_id, id` on `reject_reasons`. -/
def reasonOrder (a b : RejectReasonRow) : Prop :=
  ((compare a.reject_id b.reject_id).then (compare a.id b.id)) ≠ .gt

instance : DecidableRel reasonOrder := fun a b => by unfold reasonOrder; infer_instance

/-- The model of `!!x` on a checklist column. -/
def toBool (x : Nat) : Bool := x != 0

/-- The optional block of `queryHiveData`: the child rows of the page are
fetched in bulk (`WHERE stat_id IN (ids)`), the reasons of the fetched reject
rows are fetched in bulk (`WHERE reject_id IN (rejIds)`), both are grouped in
maps and each stat receives its three lists (`|| []`). -/
def attachDetails (db : Db) (stats : List HiveStat) : List HiveStat :=
  let ids := stats.map fun s => s.id
  let fcs := (db.file_creations.filter fun r => ids.contains r.stat_id).insertionSort fcOrder
  let atts := (db.attachments.filter fun r => ids.contains r.stat_id).insertionSort attOrder
  let rjs := (db.rejects.filter fun r => ids.contains r.stat_id).insertionSort rejOrder
  let rejIds := rjs.map fun r => r.id
  let rrs := (db.reject_reasons.filter fun r => rejIds.contains r.reject_id).insertionSort
    reasonOrder
  let reasonsOf := fun (rejectId : Nat) =>
    (rrs.filter fun rr => rr.reject_id == rejectId).map fun rr => rr.reason
  stats.map fun s =>
    { s with
      fileCreationRows := some ((fcs.filter fun r => r.stat_id == s.id).map fun r =>
        { category := r.category, urgency := r.urgency, groupIndex := r.group_index,
          rowIndex := r.row_index, value := r.value, natp := toBool r.natp,
          rtd := toBool r.rtd, coi := toBool r.coi, none := toBool r.none })
      attachmentsRows := some ((atts.filter fun r => r.stat_id == s.id).map fun r =>
        { category := r.category, urgency := r.urgency, rowIndex := r.row_index,
          value := r.value, natp := toBool r.natp, rtd := toBool r.rtd,
          coi := toBool r.coi, none := toBool r.none })
      rejectRows := some ((rjs.filter fun r => r.stat_id == s.id).map fun r =>
        { rowIndex := r.row_index, value := r.value, natp := toBool r.natp,
          rtd := toBool r.rtd, coi := toBool r.coi, none := toBool r.none,
          reasons := reasonsOf r.id }) }

/-- The object `queryHiveData` resolves to. -/
structure HiveResult where
  page : Int
  pageSize : Int
  total : Nat
  stats : List HiveStat
deriving DecidableEq, Repr

/-- The model of `queryHiveData(q)`: the statement is built, counted
(`SELECT COUNT(*) FROM (sql) t`), run with `LIMIT pageSz OFFSET offset`, the
rows are shaped and, when `includeDetails === "1"` and the page is not empty,
the details are attached. -/
def queryHiveData (dateOf : Str → Nat) (db : Db) (qy : HiveQuery) : HiveResult :=
  let sql := buildSql qy
  let pn := pageNum qy.page
  let ps := pageSz qy.pageSize
  let offset := (pn - 1) * ps
  let c := (orderedRows dateOf db sql).length
  let rows := limitOffset (orderedRows dateOf db sql) ps offset
  let stats := rows.map (shape db)
  let stats :=
    if qy.includeDetails = some "1".toList ∧ stats ≠ [] then attachDetails db stats else stats
  { page := pn, pageSize := ps, total := c, stats := stats }

/-! ## The export routes (summary view) -/

/-- The query object the two export routes hand to `queryHiveData`:
`{ ...req.query, page: 1, pageSize: 5000, includeDetails: needsDetails ? "1" :
req.query.includeDetails || "0" }`. -/
def exportQuery (needsDetails : Bool) (rq : HiveQuery) : HiveQuery :=
  { rq with
    page := .num 1
    pageSize := .num 5000
    includeDetails :=
      if needsDetails then some "1".toList
      else if truthy rq.includeDetails then rq.includeDetails else some "0".toList }

/-- A data row of the summary view: the values behind the cells `client`,
`email`, `date`, `time`, `fc`, `att`, `rej`, `check` and `leader` (the cells
`time`, `fc`, `att` and `check` join these values with `–` and `/`). -/
structure SummaryRow where
  client : Str
  email : Str
  date : Nat
  time : Nat × Nat
  fc : Nat × Nat × Nat × Nat
  att : Nat × Nat
  rej : Nat
  check : Nat × Nat × Nat × Nat
  leader : Str
deriving DecidableEq, Repr

/-- The row built from one stat by the `summary` branch of both exports. -/
def summaryRow (s : HiveStat) : SummaryRow :=
  { client := s.user.name
    email := s.user.email
    date := s.date
    time := (s.start_time, s.end_time)
    fc := (s.counts.fcIndividualRegular, s.counts.fcIndividualUrgent,
      s.counts.fcFamilyRegular, s.counts.fcFamilyUrgent)
    att := (s.counts.attachmentsRegular, s.counts.attachmentsUrgent)
    rej := s.counts.rejects
    check := (s.counts.checklist.NATP, s.counts.checklist.RTD, s.counts.checklist.COI,
      s.counts.checklist.NONE)
    leader := match s.teamLeader with
      | some l => l.email
      | none => [] }

/-- The data rows `GET /hive-stats/export/excel` adds to the sheet for
`view = "summary"`: `stats.forEach((s) => ws.addRow(...))`. -/
def excelSummaryRows (dateOf : Str → Nat) (db : Db) (rq : HiveQuery) : List SummaryRow :=
  (queryHiveData dateOf db (exportQuery false rq)).stats.map summaryRow

/-- The data rows `GET /hive-stats/export/pdf` draws for `view = "summary"`:
`rows = stats.map(...)`, each drawn once by `drawTableRows`. -/
def pdfSummaryRows (dateOf : Str → Nat) (db : Db) (rq : HiveQuery) : List SummaryRow :=
  (queryHiveData dateOf db (exportQuery false rq)).stats.map summaryRow

/-- The model of `s.split(/\s+/)` by a scan from left to right: the string is
cut at every maximal run of white space; `inSep` tells that the character
before was white space. The head of the result is the piece being read. -/
def splitWsFrom (inSep : Bool) : Str → List Str
  | [] => [[]]
  | c :: cs =>
    if isWhiteSpace c then
      if inSep then splitWsFrom true cs else [] :: splitWsFrom true cs
    else
      match splitWsFrom false cs with
      | t :: ts => (c :: t) :: ts
      | [] => [[c]]

/-- The model of `parts.join(" ")`. -/
def joinSpace (parts : List Str) : Str := List.intercalate [' '] parts

/-- The function `split` of the Excel export:
`p = String(n || "").trim().split(/\s+/)`, then
`{ first: p[0] || "", surname: p.slice(1).join(" ") }`. -/
def split (n : Str) : Str × Str :=
  let p := splitWsFrom false (trim n)
  (p.headD [], joinSpace p.tail)

/-- The function `splitName` of the PDF export, written like `split`. -/
def splitName (full : Str) : Str × Str :=
  let parts := splitWsFrom false (trim full)
  (parts.headD [], joinSpace parts.tail)

/-! ## The write path (`stats.js`) -/

/-- The model of `hasOverlap(userId, date, startTime, endTime, excludeId)`:
the `SELECT 1 FROM stats WHERE user_id = ? AND date = ? AND start_time < ? AND
end_time > ? [AND id != ?] LIMIT 1` returns a row. -/
def hasOverlap (db : Db) (userId date startTime endTime : Nat) (excludeId : Option Nat) : Bool :=
  decide (0 < ((db.stats.filter fun s =>
    s.user_id == userId && s.date == date && decide (s.start_time < endTime) &&
      decide (startTime < s.end_time) &&
      (match excludeId with
        | some x => s.id != x
        | none => true)).take 1).length)

/-- The model of `canEditStat(userId, statId)` at the instant `now`
(`Date.now()`, in milliseconds). -/
def canEditStat (db : Db) (now : Int) (userId statId : Nat) : Bool :=
  match db.stats.filter fun s => s.id == statId && s.user_id == userId with
  | [] => false
  | r :: _ => decide (now - r.created_at < 48 * 3600 * 1000)

/-- The model of `isManagerOfUser(managerId, ownerUserId)`. -/
def isManagerOfUser (db : Db) (managerId ownerUserId : Nat) : Bool :=
  db.user_group.any fun ug =>
    ug.manager_id == managerId &&
      db.group_members.any fun gm => gm.group_id == ug.id && gm.user_id == ownerUserId

/-- The `checks` object of a payload row; a key that is `undefined` is
`false`, its destructuring default. -/
structure Checks where
  natp : Bool
  rtd : Bool
  coi : Bool
  none : Bool
deriving DecidableEq, Repr

/-- A row of `fileCreationRows`, `attachmentsRows` or `rejectRows` in a request
body. `checks` is absent (`none`) when the row has no such object; `flat` holds
the keys `natp`, `rtd`, `coi`, `none` of the row itself; `reasons` is read by
the reject loop only (`reasons = []` by default). -/
structure PayloadRow where
  category : Str
  urgency : Str
  groupIndex : Option Nat
  rowIndex : Nat
  value : Int
  checks : Option Checks
  flat : Checks
  reasons : List Str
deriving DecidableEq, Repr

/-- The keys of a `mailOpening` object; an absent key takes its default `0`. -/
structure MailOpeningBody where
  totalEnvelopes : Option Nat
  fileCreation : Option Nat
  urgentFileCreation : Option Nat
  attachment : Option Nat
  urgentAttachment : Option Nat
  rejects : Option Nat
  wrongMail : Option Nat
  withdrawLetter : Option Nat
deriving DecidableEq, Repr

/-- The value of `req.body.mailOpening`: not an object (`typeof` is not
`"object"`: absent, a number, a string), `null`, or an object. -/
inductive MailOpeningVal where
  | notObject
  | null
  | obj (m : MailOpeningBody)
deriving DecidableEq, Repr

/-- The request body of `POST /` and `PUT /:id`. `date`, `startTime` and
`endTime` are `none` when falsy (absent or empty); `tlCount` is
`Number(req.body.processed?.tlCount) || 0`. -/
structure StatBody where
  id : Option Nat
  date : Option Nat
  startTime : Option Nat
  endTime : Option Nat
  mailOpening : MailOpeningVal
  fileCreationRows : List PayloadRow
  attachmentsRows : List PayloadRow
  rejectRows : List PayloadRow
  tlCount : Int
deriving DecidableEq, Repr

/-- The authenticated principal `req.user`. -/
structure ReqUser where
  id : Nat
  firstName : Str
  surname : Str
deriving DecidableEq, Repr

/-- The totals `computeProcessedTotals` returns. -/
structure ProcessedTotals where
  file_creation_total : Nat
  attachments_total : Nat
  rejects_total : Nat
  total_processed : Nat
  natp_total : Nat
  rtd_total : Nat
  coi_total : Nat
  tl_count : Int
deriving DecidableEq, Repr

/-- The predicate `isValid` of `computeProcessedTotals`: `Number(r?.value) > 0`. -/
def isValid (r : PayloadRow) : Bool := decide (0 < r.value)

/-- The object `r.checks || r` of `tally`. -/
def checksOrRow (r : PayloadRow) : Checks := r.checks.getD r.flat

/-- The function `tally(k)` of `computeProcessedTotals`, the key given by its
projection. -/
def tally (all : List PayloadRow) (k : Checks → Bool) : Nat :=
  all.foldl (fun acc r => acc + (if k (checksOrRow r) then 1 else 0)) 0

/-- The model of `computeProcessedTotals`. -/
def computeProcessedTotals (fileCreationRows attachmentsRows rejectRows : List PayloadRow)
    (tlCount : Int) : ProcessedTotals :=
  let file_creation_total := (fileCreationRows.filter isValid).length
  let attachments_total := (attachmentsRows.filter isValid).length
  let rejects_total := (rejectRows.filter isValid).length
  let all := fileCreationRows ++ attachmentsRows ++ rejectRows
  { file_creation_total := file_creation_total
    attachments_total := attachments_total
    rejects_total := rejects_total
    total_processed := file_creation_total + attachments_total + rejects_total
    natp_total := tally all (fun c => c.natp)
    rtd_total := tally all (fun c => c.rtd)
    coi_total := tally all (fun c => c.coi)
    tl_count := tlCount }

/-- The body of a response: `{ success: true }` or `{ error: msg }`. -/
inductive Body where
  | success
  | error (msg : String)
deriving DecidableEq, Repr

/-- An HTTP response. -/
structure Response where
  status : Nat
  body : Body
deriving DecidableEq, Repr

/-- The value a boolean parameter takes in a checklist column. -/
def bit (b : Bool) : Nat := if b then 1 else 0

/-- The loop `for (const r of fileCreationRows)`: each row is destructured
and inserted. The result is `false` with the rows inserted so far when a row
has no `checks` object (the destructuring throws). -/
def insertFileCreations (u : ReqUser) (id : Nat) : List PayloadRow → Db → Bool × Db
  | [], db => (true, db)
  | r :: rs, db =>
    match r.checks with
    | none => (false, db)
    | some c =>
      insertFileCreations u id rs
        { db with
          file_creations := db.file_creations ++
            [{ stat_id := id, user_id := u.id, first_name := u.firstName, surname := u.surname,
               category := r.category, urgency := r.urgency, group_index := r.groupIndex,
               row_index := r.rowIndex, value := r.value, natp := bit c.natp,
               rtd := bit c.rtd, coi := bit c.coi, none := bit c.none }] }

/-- The loop `for (const r of attachmentsRows)`. -/
def insertAttachments (u : ReqUser) (id : Nat) : List PayloadRow → Db → Bool × Db
  | [], db => (true, db)
  | r :: rs, db =>
    match r.checks with
    | none => (false, db)
    | some c =>
      insertAttachments u id rs
        { db with
          attachments := db.attachments ++
            [{ stat_id := id, user_id := u.id, first_name := u.firstName, surname := u.surname,
               category := some r.category, urgency := r.urgency, row_index := r.rowIndex,
               value := r.value, natp := bit c.natp, rtd := bit c.rtd, coi := bit c.coi,
               none := bit c.none }] }

/-- The inner loop `for (const reason of reasons)`: one `reject_reasons` row
per reason, keyed by the store. -/
def insertReasons (u : ReqUser) (rejectId : Nat) (value : Int) : List Str → Db → Db
  | [], db => db
  | reason :: rest, db =>
    insertReasons u rejectId value rest
      { db with
        reject_reasons := db.reject_reasons ++
          [{ id := db.reason_seq, reject_id := rejectId, value := value,
             first_name := u.firstName, surname := u.surname, reason := reason }]
        reason_seq := db.reason_seq + 1 }

/-- The loop `for (const r of rejectRows)`: the reject row is inserted, its key
`insertId` is read back, then its reasons are inserted. -/
def insertRejects (u : ReqUser) (id : Nat) : List PayloadRow → Db → Bool × Db
  | [], db => (true, db)
  | r :: rs, db =>
    match r.checks with
    | none => (false, db)
    | some c =>
      let rejectId := db.reject_seq
      let db1 : Db :=
        { db with
          rejects := db.rejects ++
            [{ id := rejectId, stat_id := id, user_id := u.id, first_name := u.firstName,
               surname := u.surname, row_index := r.rowIndex, value := r.value,
               natp := bit c.natp, rtd := bit c.rtd, coi := bit c.coi, none := bit c.none }]
          reject_seq := db.reject_seq + 1 }
      insertRejects u id rs (insertReasons u rejectId r.value r.reasons db1)

/-- The statement `INSERT INTO processed_mail ... ON DUPLICATE KEY UPDATE ...`:
the row keyed by `stat_id` is replaced, or added when there is none. -/
def upsertProcessed (now : Int) (id date startTime endTime : Nat) (t : ProcessedTotals)
    (db : Db) : Db :=
  let row : ProcessedMailRow :=
    { stat_id := id, file_creation_total := t.file_creation_total,
      attachments_total := t.attachments_total, rejects_total := t.rejects_total,
      total_processed := t.total_processed, natp_total := t.natp_total,
      rtd_total := t.rtd_total, coi_total := t.coi_total, tl_count := t.tl_count,
      date := date, start_time := startTime, end_time := endTime, updated_at := now }
  if db.processed_mail.any (fun p => p.stat_id == id) then
    { db with
      processed_mail := db.processed_mail.map fun p => if p.stat_id = id then row else p }
  else
    { db with processed_mail := db.processed_mail ++ [row] }

/-- The `mail_openings` row written for a stat from a `mailOpening` object. -/
def mailRow (u : ReqUser) (id : Nat) (m : MailOpeningBody) : MailOpeningRow :=
  { stat_id := id, user_id := u.id, first_name := u.firstName, surname := u.surname,
    total_envelopes := m.totalEnvelopes.getD 0, file_creation := m.fileCreation.getD 0,
    urgent_file_creation := m.urgentFileCreation.getD 0, attachment := m.attachment.getD 0,
    urgent_attachment := m.urgentAttachment.getD 0, rejects := m.rejects.getD 0,
    wrong_mail := m.wrongMail.getD 0, withdraw_letter := m.withdrawLetter.getD 0 }

/-- The tail shared by `POST /` and `PUT /:id` once the child tables of the
stat are ready to be filled: the three insert loops, then the processed-mail
upsert. A loop that throws ends the request in the `catch` block (status
500) with what was written so far kept, the writes not being wrapped in a
transaction. -/
def writeChildren (now : Int) (u : ReqUser) (id date startTime endTime : Nat) (b : StatBody)
    (failMsg : String) (db : Db) : Response × Db :=
  match insertFileCreations u id b.fileCreationRows db with
  | (false, db1) => ({ status := 500, body := .error failMsg }, db1)
  | (true, db1) =>
    match insertAttachments u id b.attachmentsRows db1 with
    | (false, db2) => ({ status := 500, body := .error failMsg }, db2)
    | (true, db2) =>
      match insertRejects u id b.rejectRows db2 with
      | (false, db3) => ({ status := 500, body := .error failMsg }, db3)
      | (true, db3) =>
        ({ status := 200, body := .success },
          upsertProcessed now id date startTime endTime
            (computeProcessedTotals b.fileCreationRows b.attachmentsRows b.rejectRows b.tlCount)
            db3)

/-- Modelled from the spec: the declaration of the table `stats` is not among
the sources. `id` is the key of the table ("caller-supplied numeric, must be
globally unique"), so that `INSERT INTO stats (id, user_id, date, start_time,
end_time)` fails with `ER_DUP_ENTRY` (`none`) when the id is in use, and
`created_at`, `updated_at` take the instant of the insertion. -/
def insertStat (now : Int) (db : Db) (id userId date startTime endTime : Nat) : Option Db :=
  if db.stats.any (fun s => s.id == id) then none
  else
    some
      { db with
        stats := db.stats ++
          [{ id := id, user_id := userId, date := date, start_time := startTime,
             end_time := endTime, created_at := now, updated_at := now }] }

/-- The model of `router.post("/")` for the user `u` at the instant `now`: the
validation (400), the overlap check (409), the insertion of the stat (409 on
`ER_DUP_ENTRY`), the mail opening (the destructuring of `null` throws: 500),
then the child rows and the processed-mail aggregate. -/
def postStat (now : Int) (u : ReqUser) (b : StatBody) (db : Db) : Response × Db :=
  match b.id, b.date, b.startTime, b.endTime with
  | some id, some date, some startTime, some endTime =>
    if id = 0 ∨ b.mailOpening = .notObject then
      ({ status := 400, body := .error "Timestamp and mailOpening required." }, db)
    else if hasOverlap db u.id date startTime endTime none then
      ({ status := 409, body := .error "Time overlaps existing stat." }, db)
    else
      match insertStat now db id u.id date startTime endTime with
      | none => ({ status := 409, body := .error "Duplicate stat." }, db)
      | some db1 =>
        match b.mailOpening with
        | .obj m =>
          writeChildren now u id date startTime endTime b "Could not create stat."
            { db1 with mail_openings := db1.mail_openings ++ [mailRow u id m] }
        | _ => ({ status := 500, body := .error "Could not create stat." }, db1)
  | _, _, _, _ => ({ status := 400, body := .error "Timestamp and mailOpening required." }, db)

/-- The model of `router.put("/:id")` for the user `u` at the instant `now`. -/
def putStat (now : Int) (u : ReqUser) (id : Nat) (b : StatBody) (db : Db) : Response × Db :=
  if !canEditStat db now u.id id then
    ({ status := 403, body := .error "Editing window has passed (48 hours)." }, db)
  else
    match b.date, b.startTime, b.endTime with
    | some date, some startTime, some endTime =>
      if b.mailOpening = .notObject then
        ({ status := 400, body := .error "Timestamp and mailOpening required." }, db)
      else if (db.stats.filter fun s => s.id == id && s.user_id == u.id).isEmpty then
        ({ status := 404, body := .error "Stat not found." }, db)
      else if hasOverlap db u.id date startTime endTime (some id) then
        ({ status := 409, body := .error "Time overlaps another stat." }, db)
      else
        let db1 : Db :=
          { db with
            stats := db.stats.map fun s =>
              if s.id = id ∧ s.user_id = u.id then
                { s with date := date, start_time := startTime, end_time := endTime }
              else s }
        match b.mailOpening with
        | .obj m =>
          let db2 : Db :=
            { db1 with
              mail_openings := db1.mail_openings.map fun mo =>
                if mo.stat_id = id then mailRow u id m else mo }
          let db3 : Db :=
            { db2 with file_creations := db2.file_creations.filter fun r => r.stat_id != id }
          match insertFileCreations u id b.fileCreationRows db3 with
          | (false, db4) => ({ status := 500, body := .error "Could not update stat." }, db4)
          | (true, db4) =>
            let db5 : Db :=
              { db4 with attachments := db4.attachments.filter fun r => r.stat_id != id }
            match insertAttachments u id b.attachmentsRows db5 with
            | (false, db6) => ({ status := 500, body := .error "Could not update stat." }, db6)
            | (true, db6) =>
              let db7 : Db :=
                { db6 with
                  reject_reasons := db6.reject_reasons.filter fun rr =>
                    !(db6.rejects.any fun r => r.id == rr.reject_id && r.stat_id == id) }
              let db8 : Db :=
                { db7 with rejects := db7.rejects.filter fun r => r.stat_id != id }
              match insertRejects u id b.rejectRows db8 with
              | (false, db9) => ({ status := 500, body := .error "Could not update stat." }, db9)
              | (true, db9) =>
                ({ status := 200, body := .success },
                  upsertProcessed now id date startTime endTime
                    (computeProcessedTotals b.fileCreationRows b.attachmentsRows b.rejectRows
                      b.tlCount) db9)
        | _ => ({ status := 500, body := .error "Could not update stat." }, db1)
    | _, _, _ => ({ status := 400, body := .error "Timestamp and mailOpening required." }, db)

/-- The model of `router.delete("/:id")` for the user `u` at the instant
`now`: the statement `DELETE FROM stats WHERE id = ? AND user_id = ?` is the
only write of the handler. -/
def deleteStat (now : Int) (u : ReqUser) (id : Nat) (db : Db) : Response × Db :=
  if !canEditStat db now u.id id then
    ({ status := 403, body := .error "Deletion window has passed (48 hours)." }, db)
  else
    ({ status := 200, body := .success },
      { db with stats := db.stats.filter fun s => !(s.id == id && s.user_id == u.id) })

/-! ## Single-stat reads (`stats.js`) -/

/-- A checklist value as it stands on a row object: absent, a number (the
driver returns the checklist columns of the store as the numbers `0` and `1`;
the detail expansion of `admin.js` converts them with `!!`), or a boolean. -/
inductive FlagVal where
  | undefined
  | num (n : Nat)
  | bool (b : Bool)
deriving DecidableEq, Repr

/-- The model of `v === true`. -/
def FlagVal.strictTrue (v : FlagVal) : Bool :=
  match v with
  | .bool true => true
  | _ => false

/-- The truthiness of a checklist value. -/
def FlagVal.truthy (v : FlagVal) : Bool :=
  match v with
  | .undefined => false
  | .num n => n != 0
  | .bool b => b

/-- A child row object as `fetchFullStat` and `GET /:id` return it and as
`buildStatPDFBuffer` reads it. A key the query does not select is absent
(`none`): reject rows have no `category` and no `urgency`, only file-creation
rows have `groupIndex`, only reject rows have `reasons`; fetched rows have no
`checks` object. -/
structure StatDetailRow where
  category : Option Str
  urgency : Option Str
  groupIndex : Option Nat
  rowIndex : Nat
  value : Int
  natp : FlagVal
  rtd : FlagVal
  coi : FlagVal
  none : FlagVal
  checks : Option Checks
  reasons : Option (List Str)
deriving DecidableEq, Repr

/-- The row object of `SELECT category, urgency, group_index AS groupIndex,
row_index AS rowIndex, value, natp, rtd, coi, none FROM file_creations`. -/
def fetchedFc (r : FileCreationRow) : StatDetailRow :=
  { category := some r.category, urgency := some r.urgency, groupIndex := r.group_index,
    rowIndex := r.row_index, value := r.value, natp := .num r.natp, rtd := .num r.rtd,
    coi := .num r.coi, none := .num r.none, checks := none, reasons := none }

/-- The row object of `SELECT category, urgency, row_index AS rowIndex, value,
natp, rtd, coi, none FROM attachments`. -/
def fetchedAtt (r : AttachmentRow) : StatDetailRow :=
  { category := r.category, urgency := some r.urgency, groupIndex := none,
    rowIndex := r.row_index, value := r.value, natp := .num r.natp, rtd := .num r.rtd,
    coi := .num r.coi, none := .num r.none, checks := none, reasons := none }

/-- The reasons attached to a fetched reject row:
`SELECT reason FROM reject_reasons WHERE reject_id = ?`, in storage order. -/
def reasonsOfReject (db : Db) (rejectId : Nat) : List Str :=
  (db.reject_reasons.filter fun rr => rr.reject_id == rejectId).map fun rr => rr.reason

/-- The row object of `SELECT id AS rejectId, row_index AS rowIndex, value,
natp, rtd, coi, none FROM rejects` once the loop has set `reasons` and deleted
`rejectId`. -/
def fetchedRej (db : Db) (r : RejectRow) : StatDetailRow :=
  { category := none, urgency := none, groupIndex := none, rowIndex := r.row_index,
    value := r.value, natp := .num r.natp, rtd := .num r.rtd, coi := .num r.coi,
    none := .num r.none, checks := none, reasons := some (reasonsOfReject db r.id) }

/-- The three child lists of a stat as both single-stat reads fetch them:
`WHERE stat_id = ?` without `ORDER BY`, that is in storage order. -/
def fetchFcRows (db : Db) (statId : Nat) : List StatDetailRow :=
  (db.file_creations.filter fun r => r.stat_id == statId).map fetchedFc

/-- The attachment rows of a stat, in storage order. -/
def fetchAttRows (db : Db) (statId : Nat) : List StatDetailRow :=
  (db.attachments.filter fun r => r.stat_id == statId).map fetchedAtt

/-- The reject rows of a stat with their reasons, in storage order. -/
def fetchRejRows (db : Db) (statId : Nat) : List StatDetailRow :=
  (db.rejects.filter fun r => r.stat_id == statId).map (fetchedRej db)

/-- The object `fetchFullStat` resolves to: the stat row with the columns of
its mail opening (`NULL` when there is none) and the three child lists. -/
structure FullStat where
  head : StatRow
  mail : Option MailOpeningRow
  fileCreationRows : List StatDetailRow
  attachmentsRows : List StatDetailRow
  rejectRows : List StatDetailRow
deriving DecidableEq, Repr

/-- The model of `fetchFullStat(statId)`: `null` (`none`) when no stat has
the id. -/
def fetchFullStat (db : Db) (statId : Nat) : Option FullStat :=
  match db.stats.find? fun s => s.id == statId with
  | none => none
  | some s =>
    some
      { head := s
        mail := db.mail_openings.find? fun m => m.stat_id == s.id
        fileCreationRows := fetchFcRows db statId
        attachmentsRows := fetchAttRows db statId
        rejectRows := fetchRejRows db statId }

/-- The predicate `isValidRow` of `buildStatPDFBuffer`: `Number(r.value) > 0`. -/
def isValidRow (r : StatDetailRow) : Bool := decide (0 < r.value)

/-- A file-creation subtotal of `buildStatPDFBuffer`: the rows with
`r.category === category && r.urgency === urgency && isValidRow(r)`. -/
def pdfFcCount (rows : List StatDetailRow) (category urgency : Str) : Nat :=
  (rows.filter fun r =>
    r.category == some category && r.urgency == some urgency && isValidRow r).length

/-- An attachment subtotal of `buildStatPDFBuffer`: the rows with
`r.urgency === urgency && isValidRow(r)`. -/
def pdfAttCount (rows : List StatDetailRow) (urgency : Str) : Nat :=
  (rows.filter fun r => r.urgency == some urgency && isValidRow r).length

/-- The function `tally(k)` of `buildStatPDFBuffer`, the key given by its two
projections: the rows with
`r[k] === true || (r.checks && r.checks[k] === true)`. -/
def pdfTally (allCheckRows : List StatDetailRow) (flat : StatDetailRow → FlagVal)
    (nested : Checks → Bool) : Nat :=
  (allCheckRows.filter fun r =>
    (flat r).strictTrue ||
      (match r.checks with
        | some c => nested c
        | none => false)).length

/-- The subtotals and checklist totals `buildStatPDFBuffer` computes before it
draws the document (the "Summary" boxes and the "Checklist Totals" table). -/
structure PdfTotals where
  fcIndReg : Nat
  fcIndUrg : Nat
  fcFamReg : Nat
  fcFamUrg : Nat
  fcTotal : Nat
  atReg : Nat
  atUrg : Nat
  atTotal : Nat
  rjTotal : Nat
  chkNATP : Nat
  chkRTD : Nat
  chkCOI : Nat
  chkNONE : Nat
deriving DecidableEq, Repr

/-- The subtotals and checklist totals of `buildStatPDFBuffer(stat, _)`. -/
def pdfTotals (stat : FullStat) : PdfTotals :=
  let fcIndReg := pdfFcCount stat.fileCreationRows "individual".toList "regular".toList
  let fcIndUrg := pdfFcCount stat.fileCreationRows "individual".toList "urgent".toList
  let fcFamReg := pdfFcCount stat.fileCreationRows "family".toList "regular".toList
  let fcFamUrg := pdfFcCount stat.fileCreationRows "family".toList "urgent".toList
  let atReg := pdfAttCount stat.attachmentsRows "regular".toList
  let atUrg := pdfAttCount stat.attachmentsRows "urgent".toList
  let allCheckRows := stat.fileCreationRows ++ stat.attachmentsRows ++ stat.rejectRows
  { fcIndReg := fcIndReg
    fcIndUrg := fcIndUrg
    fcFamReg := fcFamReg
    fcFamUrg := fcFamUrg
    fcTotal := fcIndReg + fcIndUrg + fcFamReg + fcFamUrg
    atReg := atReg
    atUrg := atUrg
    atTotal := atReg + atUrg
    rjTotal := (stat.rejectRows.filter isValidRow).length
    chkNATP := pdfTally allCheckRows (fun r => r.natp) (fun c => c.natp)
    chkRTD := pdfTally allCheckRows (fun r => r.rtd) (fun c => c.rtd)
    chkCOI := pdfTally allCheckRows (fun r => r.coi) (fun c => c.coi)
    chkNONE := pdfTally allCheckRows (fun r => r.none) (fun c => c.none) }

/-- The result of `assertCanView`: `{ ok: false, status, error }` or
`{ ok: true, ownerId, readOnly }` (`readOnly` absent is `false`). -/
inductive ViewResult where
  | denied (status : Nat) (error : String)
  | allowed (ownerId : Nat) (readOnly : Bool)
deriving DecidableEq, Repr

/-- The model of `getStatOwner(statId)`: the owner of the first stat with the
id, `null` (`none`) when there is none. -/
def getStatOwner (db : Db) (statId : Nat) : Option Nat :=
  (db.stats.find? fun s => s.id == statId).map fun s => s.user_id

/-- The model of `assertCanView(userId, statId)`. -/
def assertCanView (db : Db) (userId statId : Nat) : ViewResult :=
  match getStatOwner db statId with
  | none => .denied 404 "Stat not found."
  | some ownerId =>
    if ownerId = userId then .allowed ownerId false
    else if isManagerOfUser db userId ownerId then .allowed ownerId true
    else .denied 403 "Not allowed to view this stat."

/-- The `stat` object of the response of `GET /:id` (`mail` holds the columns
behind `mailOpening`, `NULL` when the stat has no mail opening). -/
structure StatView where
  id : Nat
  date : Nat
  start_time : Nat
  end_time : Nat
  mail : Option MailOpeningRow
  fileCreationRows : List StatDetailRow
  attachmentsRows : List StatDetailRow
  rejectRows : List StatDetailRow
  created_at : Int
  updated_at : Int
  readOnly : Bool
deriving DecidableEq, Repr

/-- The response of `GET /:id`: an error status with its message, or the
`stat` object. -/
inductive GetStatResult where
  | error (status : Nat) (msg : String)
  | ok (stat : StatView)
deriving DecidableEq, Repr

/-- The model of `router.get("/:id")` for the user `u` at the instant `now`. -/
def getStat (now : Int) (u : ReqUser) (id : Nat) (db : Db) : GetStatResult :=
  match assertCanView db u.id id with
  | .denied status error => .error status error
  | .allowed _ permReadOnly =>
    match db.stats.find? fun s => s.id == id with
    | none => .error 404 "Stat not found."
    | some r =>
      .ok
        { id := r.id
          date := r.date
          start_time := r.start_time
          end_time := r.end_time
          mail := db.mail_openings.find? fun m => m.stat_id == r.id
          fileCreationRows := fetchFcRows db id
          attachmentsRows := fetchAttRows db id
          rejectRows := fetchRejRows db id
          created_at := r.created_at
          updated_at := r.updated_at
          readOnly := permReadOnly || !canEditStat db now u.id id }

/-! ## Team leader and sending (`users.js`, `stats.js`) -/

/-- The object `getUserIdentity` and `getTeamLeaderFor` resolve to. -/
structure Identity where
  id : Nat
  email : Str
  fullName : Str
deriving DecidableEq, Repr

/-- The model of `getUserIdentity(userId)`. -/
def getUserIdentity (db : Db) (userId : Nat) : Option Identity :=
  (db.users.find? fun u => u.id == userId).map fun u =>
    { id := u.id, email := u.email, fullName := fullName u.first_name u.surname }

/-- The model of `getTeamLeaderFor(userId)`: the first row of
`user_team_leader utl JOIN users u ON u.id = utl.leader_user_id WHERE
utl.user_id = ? LIMIT 1`, `null` (`none`) when the join is empty. -/
def getTeamLeaderFor (db : Db) (userId : Nat) : Option Identity :=
  (((db.user_team_leader.filter fun t => t.user_id == userId).flatMap fun t =>
    db.users.filter fun u => u.id == t.leader_user_id).head?).map fun u =>
    { id := u.id, email := u.email, fullName := fullName u.first_name u.surname }

/-- The model of `router.put("/team-leader")` of `users.js` for the user `u`;
`leaderUserId` is `none` when the body has no such key. -/
def putTeamLeader (u : ReqUser) (leaderUserId : Option Nat) (db : Db) : Response × Db :=
  match leaderUserId with
  | none => ({ status := 400, body := .error "leaderUserId is required" }, db)
  | some l =>
    if l = 0 then ({ status := 400, body := .error "leaderUserId is required" }, db)
    else if l = u.id then ({ status := 400, body := .error "You cannot select yourself." }, db)
    else if (db.users.filter fun x => x.id == l).isEmpty then
      ({ status := 404, body := .error "Leader not found" }, db)
    else
      ({ status := 200, body := .success },
        { db with
          users := db.users.map fun x =>
            if x.id = u.id then { x with team_leader_user_id := some l } else x })

/-- The outcome of `POST /:id/send`: an error response, no mail having been
handed to the transport, or the mail handed to the transport with its
recipient (`to: leader.email`). -/
inductive SendResult where
  | error (status : Nat) (msg : String)
  | sent (recipient : Str)
deriving DecidableEq, Repr

/-- The model of `router.post("/:id/send")` for the user `u`, up to the call of
`transporter.sendMail`. -/
def sendStat (u : ReqUser) (id : Nat) (db : Db) : SendResult :=
  match getStatOwner db id with
  | none => .error 404 "Stat not found."
  | some ownerId =>
    if ownerId ≠ u.id then .error 403 "Only the owner can send."
    else
      match fetchFullStat db id with
      | none => .error 404 "Stat not found."
      | some _ =>
        match getUserIdentity db u.id with
        | none => .error 500 "Owner identity missing."
        | some _ =>
          match getTeamLeaderFor db u.id with
          | none => .error 404 "No Team Leader configured for this user."
          | some leader => .sent leader.email

/-! ## The data-entry forms (`FileCreation.jsx`, `Attachments.jsx`, `Rejects.jsx`) -/

/-- The keys of a checklist; the three forms call `updateChecklist` with a
key of `["natp", "rtd", "coi", "none"]`. -/
inductive ChecklistKey where
  | natp
  | rtd
  | coi
  | none
deriving DecidableEq, Repr

/-- The model of `updateChecklist(checks, key)`, the same function in the
three forms: the flag of the key is negated; setting `none` clears the other
three and setting one of the other three clears `none`. -/
def updateChecklist (checks : Checks) (key : ChecklistKey) : Checks :=
  match key with
  | .none =>
    let c := { checks with none := !checks.none }
    if c.none then { c with natp := false, rtd := false, coi := false } else c
  | .natp =>
    let c := { checks with natp := !checks.natp }
    if c.natp then { c with none := false } else c
  | .rtd =>
    let c := { checks with rtd := !checks.rtd }
    if c.rtd then { c with none := false } else c
  | .coi =>
    let c := { checks with coi := !checks.coi }
    if c.coi then { c with none := false } else c

/-! ## The file-creation form (`FileCreation.jsx`) -/

/-- The `checks` object of a form entry; a key may be absent (`undefined`). -/
structure FormChecks where
  natp : FlagVal
  rtd : FlagVal
  coi : FlagVal
  none : FlagVal
deriving DecidableEq, Repr

/-- An entry of the form: the text of the input and its checklist. -/
structure FormEntry where
  value : Str
  checks : FormChecks
deriving DecidableEq, Repr

/-- The constant `INITIAL_CHECKS`. -/
def INITIAL_CHECKS : FormChecks :=
  { natp := .bool false, rtd := .bool false, coi := .bool false, none := .bool false }

/-- The object `blank` of the prefill effect, also the entry of a new row. -/
def blankEntry : FormEntry := { value := [], checks := INITIAL_CHECKS }

/-- The model of `{ ...r.checks }`: the keys of the `checks` object of the row,
and no key at all when the row has no such object. -/
def spreadChecks (checks : Option Checks) : FormChecks :=
  match checks with
  | some c => { natp := .bool c.natp, rtd := .bool c.rtd, coi := .bool c.coi, none := .bool c.none }
  | none => { natp := .undefined, rtd := .undefined, coi := .undefined, none := .undefined }

/-- The object `entry` the prefill effect builds from a row of `initialData`:
`{ value: String(r.value), checks: { ...r.checks } }`. -/
def prefillEntry (r : StatDetailRow) : FormEntry :=
  { value := (toString r.value).toList, checks := spreadChecks r.checks }

/-- The model of the assignment `arr[i] = x` on an array that may have holes
(`none`): an index past the end extends the array with holes. -/
def sparseSet {α : Type} (arr : List (Option α)) (i : Nat) (x : α) : List (Option α) :=
  if i < arr.length then arr.set i (some x)
  else arr ++ List.replicate (i - arr.length) none ++ [some x]

/-- The order in which `Object.entries` lists the keys of a bucket: the group
indexes in ascending order, then the key `"null"` of a row without group
index. -/
def bucketKeyBefore (a b : Option Nat) : Bool :=
  match a, b with
  | some x, some y => x < y
  | some _, none => true
  | none, _ => false

/-- The model of `bucket[gi] = bucket[gi] || []; bucket[gi][r.rowIndex] =
entry` on a bucket given by its entries in the order of `Object.entries`. -/
def bucketPut (bucket : List (Option Nat × List (Option FormEntry))) (gi : Option Nat)
    (i : Nat) (entry : FormEntry) : List (Option Nat × List (Option FormEntry)) :=
  match bucket with
  | [] => [(gi, sparseSet [] i entry)]
  | (k, arr) :: rest =>
    if k = gi then (k, sparseSet arr i entry) :: rest
    else if bucketKeyBefore gi k then (gi, sparseSet [] i entry) :: (k, arr) :: rest
    else (k, arr) :: bucketPut rest gi i entry

/-- The four temporary containers of the prefill effect. -/
structure PrefillTmp where
  tmpIndReg : List (Option FormEntry)
  tmpIndUrg : List (Option FormEntry)
  tmpFamReg : List (Option Nat × List (Option FormEntry))
  tmpFamUrg : List (Option Nat × List (Option FormEntry))
deriving DecidableEq, Repr

/-- The body of `initialData.forEach((r) => ...)` in the prefill effect. -/
def prefillRow (tmp : PrefillTmp) (r : StatDetailRow) : PrefillTmp :=
  let entry := prefillEntry r
  if r.category = some "individual".toList then
    if r.urgency = some "regular".toList then
      { tmp with tmpIndReg := sparseSet tmp.tmpIndReg r.rowIndex entry }
    else { tmp with tmpIndUrg := sparseSet tmp.tmpIndUrg r.rowIndex entry }
  else if r.urgency = some "regular".toList then
    { tmp with tmpFamReg := bucketPut tmp.tmpFamReg r.groupIndex r.rowIndex entry }
  else { tmp with tmpFamUrg := bucketPut tmp.tmpFamUrg r.groupIndex r.rowIndex entry }

/-- The state of the form: the two columns of individual entries and the two
lists of family groups, each group given by its `entries`. -/
structure FileCreationForm where
  indReg : List (Option FormEntry)
  indUrg : List (Option FormEntry)
  famRegGroups : List (List (Option FormEntry))
  famUrgGroups : List (List (Option FormEntry))
deriving DecidableEq, Repr

/-- The state the component starts with. -/
def initialForm : FileCreationForm :=
  { indReg := [some blankEntry], indUrg := [some blankEntry], famRegGroups := [],
    famUrgGroups := [] }

/-- The state of the form after the prefill effect has run on `initialData`;
the effect returns at once on an empty list. `map((e) => e || blank)` leaves
the holes of an array as they are and every entry is an object, so it returns
the array it is given. -/
def prefill (initialData : List StatDetailRow) : FileCreationForm :=
  if initialData.isEmpty then initialForm
  else
    let tmp := initialData.foldl prefillRow
      { tmpIndReg := [], tmpIndUrg := [], tmpFamReg := [], tmpFamUrg := [] }
    { indReg := if tmp.tmpIndReg.isEmpty then [some blankEntry] else tmp.tmpIndReg
      indUrg := if tmp.tmpIndUrg.isEmpty then [some blankEntry] else tmp.tmpIndUrg
      famRegGroups := tmp.tmpFamReg.map fun g => g.2
      famUrgGroups := tmp.tmpFamUrg.map fun g => g.2 }

/-- A row as `getRows` returns it. -/
structure SheetRow where
  category : Str
  urgency : Str
  groupIndex : Option Nat
  rowIndex : Nat
  value : Int
  checks : FormChecks
deriving DecidableEq, Repr

/-- The rows one `forEach((it, i) => rows.push(...))` of `getRows` pushes for
a list of entries; `forEach` skips the holes. -/
def entryRows (category urgency : Str) (groupIndex : Option Nat)
    (entries : List (Option FormEntry)) : List SheetRow :=
  entries.enum.filterMap fun p =>
    p.2.map fun it =>
      { category := category, urgency := urgency, groupIndex := groupIndex, rowIndex := p.1,
        value := orDefault (parseIntStr it.value) 0, checks := it.checks }

/-- The model of `getRows()` of the file-creation form: the rows of the four
buckets with `value = parseInt(it.value, 10) || 0`, those with `value > 0`
kept. -/
def getRows (form : FileCreationForm) : List SheetRow :=
  let rows :=
    entryRows "individual".toList "regular".toList none form.indReg ++
    entryRows "individual".toList "urgent".toList none form.indUrg ++
    (form.famRegGroups.enum.flatMap fun g =>
      entryRows "family".toList "regular".toList (some g.1) g.2) ++
    (form.famUrgGroups.enum.flatMap fun g =>
      entryRows "family".toList "urgent".toList (some g.1) g.2)
  rows.filter fun r => decide (0 < r.value)

/-! ## The mail-opening counters of the single-stat PDF (`stats.js`) -/

/-- The columns of `mail_openings` in the row `head` of `fetchFullStat`, under
the names its select list gives them (`mo.file_creation AS mo_fileCreation`,
`mo.urgent_file_creation AS mo_urgent_fileCreation`, `mo.rejects AS
mo_rejects`, the others under their column names); every value is `NULL`
(`none`) when the stat has no mail opening. -/
def headMailColumns (mail : Option MailOpeningRow) : List (String × Option Nat) :=
  [("total_envelopes", mail.map fun m => m.total_envelopes),
   ("mo_fileCreation", mail.map fun m => m.file_creation),
   ("mo_urgent_fileCreation", mail.map fun m => m.urgent_file_creation),
   ("attachment", mail.map fun m => m.attachment),
   ("urgent_attachment", mail.map fun m => m.urgent_attachment),
   ("mo_rejects", mail.map fun m => m.rejects),
   ("wrong_mail", mail.map fun m => m.wrong_mail),
   ("withdraw_letter", mail.map fun m => m.withdraw_letter)]

/-- The model of `head[key] ?? 0`: the value under the key, `0` when the key
is absent (`undefined`) or its value is `NULL`. -/
def orZero (head : List (String × Option Nat)) (key : String) : Nat :=
  match head.lookup key with
  | some (some v) => v
  | _ => 0

/-- The object `mailOpen` of `buildStatPDFBuffer`, drawn as the eight counters
of the "Mail Opening" summary. -/
structure PdfMailOpen where
  totalEnvelopes : Nat
  fileCreation : Nat
  urgentFileCreation : Nat
  attachment : Nat
  urgentAttachment : Nat
  rejects : Nat
  wrongMail : Nat
  withdrawLetter : Nat
deriving DecidableEq, Repr

/-- The model of the object `mailOpen` of `buildStatPDFBuffer(stat, _)`: each
counter reads one key of `head`. -/
def pdfMailOpen (stat : FullStat) : PdfMailOpen :=
  let head := headMailColumns stat.mail
  { totalEnvelopes := orZero head "total_envelopes"
    fileCreation := orZero head "mo_fileCreation"
    urgentFileCreation := orZero head "urgent_file_creation"
    attachment := orZero head "attachment"
    urgentAttachment := orZero head "urgent_attachment"
    rejects := orZero head "mo_rejects"
    wrongMail := orZero head "wrong_mail"
    withdrawLetter := orZero head "withdraw_letter" }

/-- The value `totalProcessed` of `buildStatPDFBuffer`, drawn as "Total
Processed": the sum of the seven counters other than `totalEnvelopes`. -/
def pdfTotalProcessed (stat : FullStat) : Nat :=
  let mailOpen := pdfMailOpen stat
  mailOpen.fileCreation + mailOpen.urgentFileCreation + mailOpen.attachment +
    mailOpen.urgentAttachment + mailOpen.rejects + mailOpen.wrongMail +
    mailOpen.withdrawLetter

/-! ## The reject table of the single-stat PDF (`stats.js`) -/

/-- The key `reasons` of a row of `rjRows` in `buildStatPDFBuffer`:
`Array.isArray(r.reasons) && r.reasons.length ? r.reasons : ["-"]`. -/
def rjRowReasons (r : StatDetailRow) : List Str :=
  match r.reasons with
  | some (x :: xs) => x :: xs
  | _ => ["-".toList]

/-- The value `bulletLines` of `drawRejectsDetailsTable` for a row whose
`reasons` is an array, as every row of `rjRows` is: the non-empty reasons
(`filter(Boolean)`), or `"-"` when there is none, each behind a bullet. -/
def bulletLines (rowReasons : List Str) : List Str :=
  let reasons := rowReasons.filter fun r => !r.isEmpty
  (if reasons.isEmpty then ["-".toList] else reasons).map fun r => "• ".toList ++ r

/-- The value `visibleLines` of `drawRejectsDetailsTable`:
`Math.max(minReasonLines, bulletLines.length)` with `minReasonLines = 2`. -/
def visibleLines (lines : List Str) : Nat := max 2 lines.length

/-- The height `rowH` of a row of the reject table:
`Math.max(TABLE_ROW_H, 8 + visibleLines * lineH)` with `TABLE_ROW_H = 22` and
`lineH = 14`. -/
def rejectRowHeight (lines : List Str) : Nat := max 22 (8 + visibleLines lines * 14)

/-- The text `drawRejectsDetailsTable` writes for the bullet line `ln` at
index `i`: the line itself before the last visible line, and from there on the
line followed by `… (k more)` when it is the last visible line and more lines
exist than are visible. -/
def reasonLineText (lines : List Str) (i : Nat) (ln : Str) : Str :=
  if i < visibleLines lines - 1 then ln
  else
    let remaining : Str :=
      if i = visibleLines lines - 1 ∧ lines.length > visibleLines lines then
        "… (".toList ++ (toString (lines.length - (visibleLines lines - 1))).toList ++
          " more)".toList
      else []
    ln ++ (if remaining.isEmpty then [] else " ".toList ++ remaining)

/-- The texts written into the "Reasons" cell of one row of the reject table,
one per bullet line (`bulletLines.forEach((ln, i) => ...)`). -/
def drawnReasonLines (rowReasons : List Str) : List Str :=
  let lines := bulletLines rowReasons
  lines.enum.map fun p => reasonLineText lines p.1 p.2

/-! ## Sorting the summary table (`AdminHive.jsx`) -/

/-- A value handed to `toNum` and `cmp`: `null` or `undefined`, a number (the
counts and ids of a summary row are integers), or a string. -/
inductive CellVal where
  | null
  | num (n : Int)
  | str (s : Str)
deriving DecidableEq, Repr

/-- The characters the replacement `/[^\d.-]/g` of `toNum` keeps. -/
def isNumChar (c : Char) : Bool := c.isDigit || c == '.' || c == '-'

/-- The unsigned decimal literals of `Number(s)` over the digits and `.`:
`digits`, `digits.`, `digits.digits` and `.digits`; `none` is `NaN`. -/
def unsignedDecimal (s : Str) : Option ℚ :=
  let whole := s.takeWhile Char.isDigit
  match s.dropWhile Char.isDigit with
  | [] => if whole.isEmpty then none else some (digitsValue whole)
  | c :: frac =>
    if c == '.' && frac.all Char.isDigit && !(whole.isEmpty && frac.isEmpty) then
      some (digitsValue whole + (digitsValue frac : ℚ) / 10 ^ frac.length)
    else none

/-- The model of `Number(s)` for a string `s` of digits, `.` and `-`, the only
strings `toNum` converts: `0` for the empty string, an optional minus sign
before an unsigned decimal literal, and `NaN` (`none`) for anything else. -/
def jsNumber (s : Str) : Option ℚ :=
  match s with
  | [] => some 0
  | c :: t => if c == '-' then (unsignedDecimal t).map fun q => -q else unsignedDecimal (c :: t)

/-- The model of `toNum(v)`: `0` for `null`, a number itself, and for a string
the number of what is left of it once every character other than a digit, `.`
and `-` is removed, `0` when that is `NaN`. -/
def toNum (v : CellVal) : ℚ :=
  match v with
  | .null => 0
  | .num n => n
  | .str s => (jsNumber (s.filter isNumChar)).getD 0

/-- The test `typeof v === "number" || /^[\d .-]+$/.test(String(v))` of `cmp`
(`String(null)` is `"null"`). -/
def looksNumeric (v : CellVal) : Bool :=
  match v with
  | .null => false
  | .num _ => true
  | .str s => !s.isEmpty && s.all fun c => c.isDigit || c == ' ' || c == '.' || c == '-'

/-- The model of `String(v ?? "")`. -/
def cellText (v : CellVal) : Str :=
  match v with
  | .null => []
  | .num n => (toString n).toList
  | .str s => s

/-- The model of `cmp(a, b)`; the collation `localeCompare(_, undefined,
{ sensitivity: "base", numeric: true })` of the runtime is a parameter. -/
def cmp (localeCompare : Str → Str → ℚ) (a b : CellVal) : ℚ :=
  if looksNumeric a || looksNumeric b then toNum a - toNum b
  else localeCompare (cellText a) (cellText b)

/-- The model of `Array.prototype.sort(compareFn)`: a stable sort that puts `a`
before `b` when `compareFn(a, b) <= 0`. -/
def jsSort {α β : Type} [LE β] [Zero β] [∀ x y : β, Decidable (x ≤ y)]
    (compareFn : α → α → β) (l : List α) : List α :=
  l.insertionSort fun a b => compareFn a b ≤ 0

/-- A row of `summaryRows`, with the keys the sort reads. -/
structure HiveSummaryRow where
  id : Int
  client : Str
  email : Str
  date : Str
  start_time : Str
  fcTotal : Int
  attTotal : Int
  rej : Int
  checklistStr : Str
  teamLeader : Str
deriving DecidableEq, Repr

/-- The value the `switch (k)` of `sortedSummary` takes from a row. -/
def sortCell (k : Str) (a : HiveSummaryRow) : CellVal :=
  if k = "client".toList then .str a.client
  else if k = "email".toList then .str a.email
  else if k = "date".toList then .str a.date
  else if k = "teamLeader".toList then .str a.teamLeader
  else if k = "time".toList then .str a.start_time
  else if k = "fc".toList then .num a.fcTotal
  else if k = "att".toList then .num a.attTotal
  else if k = "rej".toList then .num a.rej
  else if k = "check".toList then .str a.checklistStr
  else .num a.id

/-- The model of `sortedSummary` for the sort state `{ key, dir }`. -/
def sortedSummary (localeCompare : Str → Str → ℚ) (summaryRows : List HiveSummaryRow)
    (key dir : Str) : List HiveSummaryRow :=
  jsSort
    (fun a b =>
      let c := cmp localeCompare (sortCell key a) (sortCell key b)
      if dir = "asc".toList then c else -c)
    summaryRows

/-! ## Group invitations (`groups.js`) -/

/-- The statement `UPDATE group_invites SET status=? WHERE id=? AND
user_id=?`. -/
def updateInviteStatus (status : Str) (inviteId userId : Nat)
    (invites : List GroupInviteRow) : List GroupInviteRow :=
  invites.map fun i =>
    if i.id == inviteId && i.user_id == userId then { i with status := status } else i

/-- The model of `router.post("/invite/respond")` for the requester `userId`
and the body `{ inviteId, status }`: the update, and for the status
`accepted` the row `SELECT group_id FROM group_invites WHERE id=?` finds first
is read and `(group_id, userId)` is inserted into `group_members`; reading
`invite[0].group_id` throws when the select is empty, which the `catch`
answers with 500 after the update. -/
def respondInvite (userId inviteId : Nat) (status : Str) (db : Db) : Response × Db :=
  let db1 := { db with
    group_invites := updateInviteStatus status inviteId userId db.group_invites }
  if status = "accepted".toList then
    match db1.group_invites.find? fun i => i.id == inviteId with
    | none => ({ status := 500, body := .error "Could not update invitation" }, db1)
    | some invite =>
      ({ status := 200, body := .success },
        { db1 with
          group_members := db1.group_members ++
            [{ group_id := invite.group_id, user_id := userId }] })
  else ({ status := 200, body := .success }, db1)

/-! ## Column widths of the hive PDF (`admin.js`) -/

/-- A declared column of a table of the hive PDF; of its keys only `width`
enters `scaleColumns`. Numbers are exact rationals. -/
structure PdfColumn where
  key : Str
  width : ℚ
deriving DecidableEq, Repr

/-- The model of `scaleColumns(cols)` for the printable width `tableWidth`:
unchanged when the declared widths sum to 0 or to within 1 of `tableWidth`;
otherwise every column gets `Math.max(40, Math.floor(c.width * ratio))` and the
last one `Math.max(40, tableWidth - current)`, where `current` is the sum of
the new widths of the columns before it. -/
def scaleColumns (tableWidth : ℚ) (cols : List PdfColumn) : List PdfColumn :=
  let base := (cols.map fun c => c.width).sum
  if base = 0 ∨ abs (base - tableWidth) < 1 then cols
  else
    let ratio := tableWidth / base
    cols.enum.map fun p =>
      let w : ℚ := max 40 (⌊p.2.width * ratio⌋ : ℚ)
      if p.1 = cols.length - 1 then
        let current := ((cols.take p.1).map fun cc => max (40 : ℚ) ⌊cc.width * ratio⌋).sum
        { p.2 with width := max 40 (tableWidth - current) }
      else { p.2 with width := w }

/-! ## The top reject reasons of the single-stat PDF (`stats.js`) -/

/-- The model of `reasonMap.set(key, (reasonMap.get(key) || 0) + 1)` on a
`Map` given by its entries in insertion order: the count of an existing key is
raised in place, a new key is appended with count 1. -/
def bumpReason (m : List (Str × Nat)) (key : Str) : List (Str × Nat) :=
  match m with
  | [] => [(key, 1)]
  | (k, n) :: rest => if k = key then (k, n + 1) :: rest else (k, n) :: bumpReason rest key

/-- The body of the loop `for (const reason of r.reasons)`: the key is
`String(reason || "").trim()`, and an empty key is skipped. -/
def countReason (m : List (Str × Nat)) (reason : Str) : List (Str × Nat) :=
  let key := trim reason
  if key.isEmpty then m else bumpReason m key

/-- The entries of `reasonMap` of `buildStatPDFBuffer` after the loop over
`rejectRows`; a row whose `reasons` is not an array is skipped. -/
def reasonMap (rejectRows : List StatDetailRow) : List (Str × Nat) :=
  rejectRows.foldl
    (fun m r =>
      match r.reasons with
      | some reasons => reasons.foldl countReason m
      | none => m)
    []

/-- The rows `reasonRows` of `buildStatPDFBuffer`, drawn as the table "Top
Reject Reasons": the entries of `reasonMap` sorted with the compare function
`(a, b) => b[1] - a[1]`, as pairs `(reason, count)`. -/
def pdfReasonRows (rejectRows : List StatDetailRow) : List (Str × Nat) :=
  jsSort (fun a b => (b.2 : Int) - (a.2 : Int)) (reasonMap rejectRows)

/-! ## Registration (`auth.js`) -/

/-- The body of `POST /register`, key by key; a key is absent or holds a
string. -/
structure RegisterBody where
  email : Option Str
  password : Option Str
  firstName : Option Str
  surname : Option Str
deriving DecidableEq, Repr

/-- The model of `router.post("/register")`: a body with a falsy `email`,
`password`, `firstName` or `surname` is answered 400, an email that is already
registered 409, and otherwise the row is inserted; `newId` is the key the store
assigns to it. The hash of the password is not part of `UserRow`. -/
def registerUser (newId : Nat) (body : RegisterBody) (db : Db) : Response × Db :=
  if !truthy body.email || !truthy body.password || !truthy body.firstName ||
      !truthy body.surname then
    ({ status := 400, body := .error "All fields are required." }, db)
  else if (db.users.filter fun u => u.email == strOf body.email).length > 0 then
    ({ status := 409, body := .error "Email already registered." }, db)
  else
    ({ status := 200, body := .success },
      { db with
        users := db.users ++
          [{ id := newId, email := strOf body.email, first_name := strOf body.firstName,
             surname := strOf body.surname, team_leader_user_id := none }] })

/-! ## Definitions used to state the properties -/

/-- A store without rows. -/
def emptyDb : Db :=
  { stats := [], users := [], user_team_leader := [], mail_openings := [],
    file_creations := [], attachments := [], rejects := [], reject_reasons := [],
    processed_mail := [], user_group := [], group_members := [],
    reject_seq := 1, reason_seq := 1 }

/-- A query object without any key. -/
def noQuery : HiveQuery :=
  { search := none, dateFrom := none, dateTo := none, clientEmail := none,
    leaderEmail := none, page := .undefined, pageSize := .undefined, includeDetails := none }

/-- The six-column disjunction of the free-text condition, all six
placeholders bound to the same pattern. -/
def searchMatches (r : HiveRow) (p : Str) : Bool :=
  sqlLike p (toLowerCase r.u.first_name) || sqlLike p (toLowerCase r.u.surname) ||
  sqlLike p (toLowerCase r.u.email) ||
  sqlLikeNull (r.lu.map fun l => toLowerCase l.first_name) p ||
  sqlLikeNull (r.lu.map fun l => toLowerCase l.surname) p ||
  sqlLikeNull (r.lu.map fun l => toLowerCase l.email) p

/-- The filter predicate of a query on a stat joined with its owner and team
leader: the conjunction, over the filters that are supplied, of the date
bounds, the two email patterns and the free-text disjunction. -/
def rowMatches (dateOf : Str → Nat) (qy : HiveQuery) (r : HiveRow) : Bool :=
  (!truthy qy.dateFrom || decide (dateOf (strOf qy.dateFrom) ≤ r.s.date)) &&
  (!truthy qy.dateTo || decide (r.s.date ≤ dateOf (strOf qy.dateTo))) &&
  (!truthy qy.clientEmail ||
    sqlLike (likePattern (strOf qy.clientEmail)) (toLowerCase r.u.email)) &&
  (!truthy qy.leaderEmail ||
    sqlLikeNull (r.lu.map fun l => toLowerCase l.email) (likePattern (strOf qy.leaderEmail))) &&
  (!nonBlank qy.search || searchMatches r (likePattern (strOf qy.search)))

/-- The well-formed date parameters: the shape `YYYY-MM-DD`. -/
def wellFormedDate (s : Str) : Bool :=
  match s with
  | [y1, y2, y3, y4, d1, m1, m2, d2, a, b] =>
    y1.isDigit && y2.isDigit && y3.isDigit && y4.isDigit && d1 == '-' &&
      m1.isDigit && m2.isDigit && d2 == '-' && a.isDigit && b.isDigit
  | _ => false

/-- The query object whose only key is `clientEmail`. -/
def onlyClientEmail (f : Str) : HiveQuery := { noQuery with clientEmail := some f }

/-- The query object whose only key is `leaderEmail`. -/
def onlyLeaderEmail (f : Str) : HiveQuery := { noQuery with leaderEmail := some f }

/-- A joined row passes the filters of a query when it is selected by the
statement built for the query. -/
def passes (dateOf : Str → Nat) (qy : HiveQuery) (r : HiveRow) : Bool :=
  match (buildSql qy).whereClause with
  | none => true
  | some cs => evalWhere dateOf cs (buildSql qy).params r

/-- The characters with a special meaning in a `LIKE` pattern. -/
def isLikeSpecial (c : Char) : Bool := c == '%' || c == '_' || c == '\\'

/-- A sample joined row: stat 1 of user 7 (`Ann Lee`, `Ann.Lee@x.org`), no
team leader, no mail opening. -/
def sampleRow : HiveRow :=
  { s := { id := 1, user_id := 7, date := 100, start_time := 32400, end_time := 36000,
           created_at := 0, updated_at := 0 }
    u := { id := 7, email := "Ann.Lee@x.org".toList, first_name := "Ann".toList,
           surname := "Lee".toList, team_leader_user_id := none }
    lu := none
    mo := none }

/-- Modelled from the spec: the table declarations are not among the sources.
These are the keys and the reference of the schema the statement of
`queryHiveData` relies on: a stat has a unique `id` and an owner ("owning user
reference"), a user has a unique `id` and at most one team leader ("optional"
team leader), and a stat has at most one mail opening ("1:1 with Stat"). -/
structure StoreKeys (db : Db) : Prop where
  stats_key : (db.stats.map fun s => s.id).Nodup
  users_key : (db.users.map fun u => u.id).Nodup
  stats_owner : ∀ s ∈ db.stats, ∃ u ∈ db.users, u.id = s.user_id
  team_leader_key : (db.user_team_leader.map fun t => t.user_id).Nodup
  mail_key : (db.mail_openings.map fun m => m.stat_id).Nodup

/-- The owner of a stat: the user whose `id` is the stat's `user_id`. -/
def ownerOf (db : Db) (s : StatRow) : Option UserRow :=
  db.users.find? fun u => u.id == s.user_id

/-- The team leader of a stat's owner, looked up through
`user_team_leader`. -/
def leaderOf (db : Db) (s : StatRow) : Option UserRow :=
  (db.user_team_leader.find? fun t => t.user_id == s.user_id).bind fun t =>
    db.users.find? fun l => l.id == t.leader_user_id

/-- The mail opening of a stat. -/
def mailOf (db : Db) (s : StatRow) : Option MailOpeningRow :=
  db.mail_openings.find? fun m => m.stat_id == s.id

/-- A stat together with its owner, team leader and mail opening (`none` for
a stat without owner). -/
def joinedRow (db : Db) (s : StatRow) : Option HiveRow :=
  (ownerOf db s).map fun u => { s := s, u := u, lu := leaderOf db s, mo := mailOf db s }

/-- The filter predicate of a query on a stat row: the predicate `rowMatches`
on the stat, its owner and its owner's team leader. -/
def statMatches (dateOf : Str → Nat) (db : Db) (qy : HiveQuery) (s : StatRow) : Bool :=
  match joinedRow db s with
  | none => false
  | some r => rowMatches dateOf qy r

/-- The number of pages of a result: `ceil(total / pageSize)`. -/
def totalPages (res : HiveResult) : Nat :=
  (res.total + res.pageSize.toNat - 1) / res.pageSize.toNat

/-- The concatenation of the `stats` of the pages `1..totalPages` of a query,
the page parameter of page `k` being `pg k`. -/
def allPages (dateOf : Str → Nat) (db : Db) (qy : HiveQuery) (pg : Nat → QVal) :
    List HiveStat :=
  (List.range (totalPages (queryHiveData dateOf db qy))).flatMap fun k =>
    (queryHiveData dateOf db { qy with page := pg (k + 1) }).stats

/-- The strict order "date descending, then start_time descending, then id
descending" on sort keys `(date, start_time, id)`: `a` comes before `b`. -/
def keyBefore (a b : Nat × Nat × Nat) : Prop :=
  b.1 < a.1 ∨ (b.1 = a.1 ∧ (b.2.1 < a.2.1 ∨ (b.2.1 = a.2.1 ∧ b.2.2 < a.2.2)))

/-- The sort key of a stat of the result. -/
def keyOf (s : HiveStat) : Nat × Nat × Nat := (s.date, s.start_time, s.id)

/-- The stat `a` comes strictly before the stat `b` in the order "date
descending, then start_time descending, then id descending". -/
def statBefore (a b : HiveStat) : Prop := keyBefore (keyOf a) (keyOf b)

/-- A sample store: users 7 (`Ann Lee`) and 8 (`Bob Ray`), user 8 the team
leader of user 7, and three stats of user 7. -/
def sampleDb : Db :=
  { emptyDb with
    users :=
      [{ id := 7, email := "Ann.Lee@x.org".toList, first_name := "Ann".toList,
         surname := "Lee".toList, team_leader_user_id := some 8 },
       { id := 8, email := "bob@x.org".toList, first_name := "Bob".toList,
         surname := "Ray".toList, team_leader_user_id := none }]
    user_team_leader := [{ user_id := 7, leader_user_id := 8 }]
    stats :=
      [{ id := 1, user_id := 7, date := 100, start_time := 32400, end_time := 36000,
         created_at := 0, updated_at := 0 },
       { id := 2, user_id := 7, date := 101, start_time := 32400, end_time := 36000,
         created_at := 86400000, updated_at := 86400000 },
       { id := 3, user_id := 7, date := 101, start_time := 36000, end_time := 39600,
         created_at := 86400000, updated_at := 86400000 }] }

/-- The sort key of a joined row. -/
def rowKey (r : HiveRow) : Nat × Nat × Nat := (r.s.date, r.s.start_time, r.s.id)

/-- A store with one user and 201 stats of that user, one per day. -/
def bigDb : Db :=
  { emptyDb with
    users :=
      [{ id := 7, email := "Ann.Lee@x.org".toList, first_name := "Ann".toList,
         surname := "Lee".toList, team_leader_user_id := none }]
    stats := (List.range 201).map fun k =>
      { id := k + 1, user_id := 7, date := k, start_time := 32400, end_time := 36000,
        created_at := 0, updated_at := 0 } }

/-- Two stats overlap: same owner, same date, and each starts before the
other ends. -/
def overlaps (a b : StatRow) : Prop :=
  a.user_id = b.user_id ∧ a.date = b.date ∧ a.start_time < b.end_time ∧
    b.start_time < a.end_time

/-- The invariant of the `stats` table: no two rows overlap. -/
def NonOverlapping (stats : List StatRow) : Prop :=
  stats.Pairwise fun a b => ¬ overlaps a b

/-- A request body for a stat of the given id, date and window, with an empty
`mailOpening` object and no child rows. -/
def plainBody (id date startTime endTime : Nat) : StatBody :=
  { id := some id, date := some date, startTime := some startTime, endTime := some endTime
    mailOpening := .obj
      { totalEnvelopes := none, fileCreation := none, urgentFileCreation := none,
        attachment := none, urgentAttachment := none, rejects := none, wrongMail := none,
        withdrawLetter := none }
    fileCreationRows := [], attachmentsRows := [], rejectRows := [], tlCount := 0 }

/-- The principal of user 7 of the sample store. -/
def ann : ReqUser := { id := 7, firstName := "Ann".toList, surname := "Lee".toList }

/-- The principal of user 8 of the sample store. -/
def bob : ReqUser := { id := 8, firstName := "Bob".toList, surname := "Ray".toList }

/-- The sample store in which user 8 also manages a group that user 7 is a
member of. -/
def managedDb : Db :=
  { sampleDb with
    user_group := [{ id := 1, manager_id := 8 }]
    group_members := [{ group_id := 1, user_id := 7 }] }

/-- A payload row of value 101 in the bucket individual/regular, with or
without its `checks` object (all flags `false` but `natp`, which is given). -/
def payloadRow (rowIndex : Nat) (checks : Option Checks) : PayloadRow :=
  { category := "individual".toList, urgency := "regular".toList, groupIndex := none,
    rowIndex := rowIndex, value := 101, checks := checks,
    flat := { natp := false, rtd := false, coi := false, none := false }, reasons := [] }

/-- A request body whose only child row is a file-creation row without a
`checks` object. -/
def noChecksBody : StatBody :=
  { plainBody 10 200 32400 36000 with fileCreationRows := [payloadRow 0 none] }

/-- A request body whose `mailOpening` is `null`. -/
def nullMailBody : StatBody :=
  { plainBody 10 200 32400 36000 with mailOpening := .null }

/-- Modelled from the spec: the table declarations are not among the sources.
This is the domain of the two classifying columns of `file_creations`:
"category ∈ {individual, family}, urgency ∈ {regular, urgent}". -/
def FcDomain (db : Db) : Prop :=
  ∀ r ∈ db.file_creations,
    (r.category = "individual".toList ∨ r.category = "family".toList) ∧
    (r.urgency = "regular".toList ∨ r.urgency = "urgent".toList)

/-- The sample store with child rows for stat 1: three file-creation rows (one
of value 0), one attachment row and one reject row with two reasons; the flag
`natp` is set on the first file-creation row and on the reject row. -/
def flagDb : Db :=
  { sampleDb with
    file_creations :=
      [{ stat_id := 1, user_id := 7, first_name := "Ann".toList, surname := "Lee".toList,
         category := "individual".toList, urgency := "regular".toList, group_index := none,
         row_index := 0, value := 101, natp := 1, rtd := 0, coi := 0, none := 0 },
       { stat_id := 1, user_id := 7, first_name := "Ann".toList, surname := "Lee".toList,
         category := "individual".toList, urgency := "urgent".toList, group_index := none,
         row_index := 0, value := 0, natp := 0, rtd := 1, coi := 0, none := 0 },
       { stat_id := 1, user_id := 7, first_name := "Ann".toList, surname := "Lee".toList,
         category := "family".toList, urgency := "regular".toList, group_index := some 0,
         row_index := 0, value := 7, natp := 0, rtd := 0, coi := 1, none := 0 }]
    attachments :=
      [{ stat_id := 1, user_id := 7, first_name := "Ann".toList, surname := "Lee".toList,
         category := some "attachment".toList, urgency := "regular".toList, row_index := 0,
         value := 55, natp := 0, rtd := 0, coi := 0, none := 1 }]
    rejects :=
      [{ id := 1, stat_id := 1, user_id := 7, first_name := "Ann".toList,
         surname := "Lee".toList, row_index := 0, value := 9, natp := 1, rtd := 0, coi := 0,
         none := 0 }]
    reject_reasons :=
      [{ id := 1, reject_id := 1, value := 9, first_name := "Ann".toList,
         surname := "Lee".toList, reason := "No signature".toList },
       { id := 2, reject_id := 1, value := 9, first_name := "Ann".toList,
         surname := "Lee".toList, reason := "Wrong form".toList }]
    reject_seq := 2
    reason_seq := 3 }

/-- Modelled from the spec: the table declarations are not among the sources.
"Deleting a Stat cascades (...) via constraint, including deleting RejectReason
rows before their parent Reject row": with a stat go the rows of
`mail_openings`, `file_creations`, `attachments`, `rejects` and
`processed_mail` that refer to it, and the reasons of its rejects. -/
def cascadeDelete (id : Nat) (db : Db) : Db :=
  { db with
    mail_openings := db.mail_openings.filter fun m => m.stat_id != id
    file_creations := db.file_creations.filter fun r => r.stat_id != id
    attachments := db.attachments.filter fun r => r.stat_id != id
    reject_reasons := db.reject_reasons.filter fun rr =>
      !(db.rejects.any fun r => r.id == rr.reject_id && r.stat_id == id)
    rejects := db.rejects.filter fun r => r.stat_id != id
    processed_mail := db.processed_mail.filter fun p => p.stat_id != id }

/-- Modelled from the spec: `DELETE /stats/:id` as a store with the cascading
constraints of `cascadeDelete` executes it: the handler `deleteStat`, whose
only statement deletes the row of `stats`, followed by the cascade when the
handler succeeded. -/
def deleteStatCascading (now : Int) (u : ReqUser) (id : Nat) (db : Db) : Response × Db :=
  match deleteStat now u id db with
  | (resp, db1) => if resp.status = 200 then (resp, cascadeDelete id db1) else (resp, db1)

/-- The sample store without any row of `user_team_leader`. -/
def soloDb : Db := { sampleDb with user_team_leader := [] }

/-- The white-space-delimited tokens of a string: the non-empty pieces
between white-space characters. -/
def tokens (s : Str) : List Str :=
  (List.splitOnP isWhiteSpace s).filter fun t => !t.isEmpty

/-- The laws of a three-way comparison that make "not greater" a total
preorder: swapping the arguments swaps the result, and "not greater" is
transitive. -/
def CmpLaws {α : Type} (cmp : α → α → Ordering) : Prop :=
  (∀ a b, cmp b a = (cmp a b).swap) ∧
  (∀ a b c, cmp a b ≠ .gt → cmp b c ≠ .gt → cmp a c ≠ .gt)

/-- The order of the file-creation rows of one stat: by category, urgency,
group index (`NULL` first) and row index. -/
def fcWithin (a b : FileCreationRow) : Prop :=
  ((strCmp a.category b.category).then ((strCmp a.urgency b.urgency).then
    ((optNatCmp a.group_index b.group_index).then (compare a.row_index b.row_index)))) ≠ .gt

instance : DecidableRel fcWithin := fun a b => by unfold fcWithin; infer_instance

/-- The order of the attachment rows of one stat: by urgency and row index. -/
def attWithin (a b : AttachmentRow) : Prop :=
  ((strCmp a.urgency b.urgency).then (compare a.row_index b.row_index)) ≠ .gt

instance : DecidableRel attWithin := fun a b => by unfold attWithin; infer_instance

/-- The order of the reject rows of one stat: by row index. -/
def rejWithin (a b : RejectRow) : Prop := a.row_index ≤ b.row_index

instance : DecidableRel rejWithin := fun a b => by unfold rejWithin; infer_instance

/-- The order of the reasons of one reject row: by the key the store assigned
on insertion. -/
def reasonWithin (a b : RejectReasonRow) : Prop := a.id ≤ b.id

instance : DecidableRel reasonWithin := fun a b => by unfold reasonWithin; infer_instance

/-- The element of `fileCreationRows` that stands for a stored row: its
category, urgency, group index, row index and value, and each checklist flag
set exactly when the stored column is not `0`. -/
def fcDetailOf (r : FileCreationRow) : FcDetail :=
  { category := r.category, urgency := r.urgency, groupIndex := r.group_index,
    rowIndex := r.row_index, value := r.value, natp := decide (r.natp ≠ 0),
    rtd := decide (r.rtd ≠ 0), coi := decide (r.coi ≠ 0), none := decide (r.none ≠ 0) }

/-- The element of `attachmentsRows` that stands for a stored row. -/
def attDetailOf (r : AttachmentRow) : AttDetail :=
  { category := r.category, urgency := r.urgency, rowIndex := r.row_index, value := r.value,
    natp := decide (r.natp ≠ 0), rtd := decide (r.rtd ≠ 0), coi := decide (r.coi ≠ 0),
    none := decide (r.none ≠ 0) }

/-- The element of `rejectRows` that stands for a stored row with the given
reasons. -/
def rejDetailOf (reasons : List Str) (r : RejectRow) : RejDetail :=
  { rowIndex := r.row_index, value := r.value, natp := decide (r.natp ≠ 0),
    rtd := decide (r.rtd ≠ 0), coi := decide (r.coi ≠ 0), none := decide (r.none ≠ 0),
    reasons := reasons }

/-- The reasons of a reject row in insertion order. -/
def reasonsInOrder (db : Db) (rejectId : Nat) : List Str :=
  ((db.reject_reasons.filter fun rr => rr.reject_id == rejectId).insertionSort
    reasonWithin).map fun rr => rr.reason

/-- Modelled from the spec: the table declarations are not among the sources.
"Every child table row is owned transitively through `stat_id`": a child row
refers to a stat of the store and a reason to a reject of the store; the keys
of `rejects` are assigned by the store, below the next key it will assign. -/
structure StoreRefs (db : Db) : Prop where
  fc_ref : ∀ r ∈ db.file_creations, ∃ s ∈ db.stats, s.id = r.stat_id
  att_ref : ∀ r ∈ db.attachments, ∃ s ∈ db.stats, s.id = r.stat_id
  rej_ref : ∀ r ∈ db.rejects, ∃ s ∈ db.stats, s.id = r.stat_id
  reason_ref : ∀ rr ∈ db.reject_reasons, ∃ r ∈ db.rejects, r.id = rr.reject_id
  reject_key : ∀ r ∈ db.rejects, r.id < db.reject_seq

/-- The checks of a payload row that has its `checks` object. -/
def storedChecks (r : PayloadRow) : Checks :=
  r.checks.getD { natp := false, rtd := false, coi := false, none := false }

/-- The row object the single-stat read returns for a submitted file-creation
row: the submitted fields, the flags as the numbers `0` and `1`. -/
def submittedFc (r : PayloadRow) : StatDetailRow :=
  { category := some r.category, urgency := some r.urgency, groupIndex := r.groupIndex,
    rowIndex := r.rowIndex, value := r.value, natp := .num (bit (storedChecks r).natp),
    rtd := .num (bit (storedChecks r).rtd), coi := .num (bit (storedChecks r).coi),
    none := .num (bit (storedChecks r).none), checks := none, reasons := none }

/-- The row object the single-stat read returns for a submitted attachment
row. -/
def submittedAtt (r : PayloadRow) : StatDetailRow :=
  { category := some r.category, urgency := some r.urgency, groupIndex := none,
    rowIndex := r.rowIndex, value := r.value, natp := .num (bit (storedChecks r).natp),
    rtd := .num (bit (storedChecks r).rtd), coi := .num (bit (storedChecks r).coi),
    none := .num (bit (storedChecks r).none), checks := none, reasons := none }

/-- The row object the single-stat read returns for a submitted reject row,
with the submitted reasons. -/
def submittedRej (r : PayloadRow) : StatDetailRow :=
  { category := none, urgency := none, groupIndex := none, rowIndex := r.rowIndex,
    value := r.value, natp := .num (bit (storedChecks r).natp),
    rtd := .num (bit (storedChecks r).rtd), coi := .num (bit (storedChecks r).coi),
    none := .num (bit (storedChecks r).none), checks := none, reasons := some r.reasons }

/-- The `file_creations` row written for a payload row. -/
def fcRowOf (u : ReqUser) (id : Nat) (r : PayloadRow) : FileCreationRow :=
  { stat_id := id, user_id := u.id, first_name := u.firstName, surname := u.surname,
    category := r.category, urgency := r.urgency, group_index := r.groupIndex,
    row_index := r.rowIndex, value := r.value, natp := bit (storedChecks r).natp,
    rtd := bit (storedChecks r).rtd, coi := bit (storedChecks r).coi,
    none := bit (storedChecks r).none }

/-- The `attachments` row written for a payload row. -/
def attRowOf (u : ReqUser) (id : Nat) (r : PayloadRow) : AttachmentRow :=
  { stat_id := id, user_id := u.id, first_name := u.firstName, surname := u.surname,
    category := some r.category, urgency := r.urgency, row_index := r.rowIndex,
    value := r.value, natp := bit (storedChecks r).natp, rtd := bit (storedChecks r).rtd,
    coi := bit (storedChecks r).coi, none := bit (storedChecks r).none }

/-- The `rejects` row written for a payload row under the key `key`. -/
def rejRowOf (u : ReqUser) (id key : Nat) (r : PayloadRow) : RejectRow :=
  { id := key, stat_id := id, user_id := u.id, first_name := u.firstName,
    surname := u.surname, row_index := r.rowIndex, value := r.value,
    natp := bit (storedChecks r).natp, rtd := bit (storedChecks r).rtd,
    coi := bit (storedChecks r).coi, none := bit (storedChecks r).none }

/-- The `rejects` rows written for a list of payload rows, keyed from `key`
on. -/
def rejRowsFrom (u : ReqUser) (id : Nat) : Nat → List PayloadRow → List RejectRow
  | _, [] => []
  | key, r :: rs => rejRowOf u id key r :: rejRowsFrom u id (key + 1) rs

/-- The `reject_reasons` rows written for the reasons of one reject row, keyed
from `key` on. -/
def reasonRows (u : ReqUser) (rejectId : Nat) (value : Int) :
    Nat → List Str → List RejectReasonRow
  | _, [] => []
  | key, reason :: rest =>
    { id := key, reject_id := rejectId, value := value, first_name := u.firstName,
      surname := u.surname, reason := reason } :: reasonRows u rejectId value (key + 1) rest

/-- The `reject_reasons` rows written for a list of payload rows, the rejects
keyed from `rejectKey` on and the reasons from `reasonKey` on. -/
def reasonRowsFrom (u : ReqUser) : Nat → Nat → List PayloadRow → List RejectReasonRow
  | _, _, [] => []
  | rejectKey, reasonKey, r :: rs =>
    reasonRows u rejectKey r.value reasonKey r.reasons ++
      reasonRowsFrom u (rejectKey + 1) (reasonKey + r.reasons.length) rs

/-- A request body for stat 10 with two file-creation rows, one attachment row
and two reject rows carrying two reasons and one reason. -/
def fullBody : StatBody :=
  { plainBody 10 200 32400 36000 with
    fileCreationRows :=
      [payloadRow 1 (some { natp := true, rtd := false, coi := false, none := false }),
       payloadRow 0 (some { natp := false, rtd := false, coi := false, none := true })]
    attachmentsRows :=
      [payloadRow 0 (some { natp := false, rtd := true, coi := false, none := false })]
    rejectRows :=
      [{ payloadRow 0 (some { natp := false, rtd := false, coi := true, none := false }) with
         reasons := ["No signature".toList, "Wrong form".toList] },
       { payloadRow 1 (some { natp := false, rtd := false, coi := false, none := true }) with
         reasons := ["Fee missing".toList] }] }

/-- The unfiltered first page with the child rows asked for. -/
def detailsQuery : HiveQuery :=
  { noQuery with includeDetails := some "1".toList }

/-- The requester manages a group of which the owner is a member. -/
def Manages (db : Db) (managerId ownerId : Nat) : Prop :=
  ∃ g ∈ db.user_group, g.manager_id = managerId ∧
    ∃ m ∈ db.group_members, m.group_id = g.id ∧ m.user_id = ownerId

instance (db : Db) (managerId ownerId : Nat) : Decidable (Manages db managerId ownerId) := by
  unfold Manages; infer_instance

/-- The stat the single-stat routes resolve an id to: the first row of `stats`
with that id (`WHERE id = ? LIMIT 1`). -/
def statOfId (db : Db) (statId : Nat) : Option StatRow :=
  db.stats.find? fun s => s.id == statId

/-- The flag of a checklist under a key. -/
def flagOf (key : ChecklistKey) (c : Checks) : Bool :=
  match key with
  | .natp => c.natp
  | .rtd => c.rtd
  | .coi => c.coi
  | .none => c.none

/-- The flag `none` is not set together with any of `natp`, `rtd`, `coi`. -/
def Exclusive (c : Checks) : Prop :=
  ¬ (c.none = true ∧ (c.natp = true ∨ c.rtd = true ∨ c.coi = true))

instance (c : Checks) : Decidable (Exclusive c) := by
  unfold Exclusive; infer_instance

/-- The sample store with a mail opening for stat 1: 20 envelopes, of which 5
file creations, 4 urgent file creations, 3 attachments, 2 urgent attachments
and 1 reject. -/
def mailDb : Db :=
  { sampleDb with
    mail_openings :=
      [{ stat_id := 1, user_id := 7, first_name := "Ann".toList, surname := "Lee".toList,
         total_envelopes := 20, file_creation := 5, urgent_file_creation := 4,
         attachment := 3, urgent_attachment := 2, rejects := 1, wrong_mail := 0,
         withdraw_letter := 0 }] }

/-- The sample store with child rows and a third reason on the reject row of
stat 1. -/
def threeReasonsDb : Db :=
  { flagDb with
    reject_reasons := flagDb.reject_reasons ++
      [{ id := 3, reject_id := 1, value := 9, first_name := "Ann".toList,
         surname := "Lee".toList, reason := "Fee missing".toList }]
    reason_seq := 4 }

/-- An ISO date `yyyy-mm-dd`: four digits, two digits and two digits, joined by
hyphens. -/
def isIsoDate (s : Str) : Bool :=
  match s with
  | [y1, y2, y3, y4, h1, m1, m2, h2, d1, d2] =>
    [y1, y2, y3, y4, m1, m2, d1, d2].all Char.isDigit && h1 == '-' && h2 == '-'
  | _ => false

/-- A summary row of the given id and date. -/
def summaryRowOn (id : Int) (date : Str) : HiveSummaryRow :=
  { id := id, client := "Ann Lee".toList, email := "ann@x.org".toList, date := date,
    start_time := "09:00".toList, fcTotal := 0, attTotal := 0, rej := 0,
    checklistStr := "0/0/0/0".toList, teamLeader := "-".toList }

/-- The invite the accepting branch reads for an id: the first row of
`group_invites` with that id. -/
def inviteOfId (db : Db) (inviteId : Nat) : Option GroupInviteRow :=
  db.group_invites.find? fun i => i.id == inviteId

/-- What a response to an invite may change of a stored invite: nothing but the
status, and the status only of an invite with the given id that belongs to the
requester, which takes the status of the request. -/
def inviteStep (userId inviteId : Nat) (status : Str) (before after : GroupInviteRow) : Prop :=
  after.id = before.id ∧ after.group_id = before.group_id ∧ after.user_id = before.user_id ∧
    (if before.id = inviteId ∧ before.user_id = userId then after.status = status
      else after.status = before.status)

/-- The sample store in which user 8 manages group 1 and user 7 has accepted
invite 1 to that group. -/
def inviteDb : Db :=
  { sampleDb with
    user_group := [{ id := 1, manager_id := 8 }]
    group_members := [{ group_id := 1, user_id := 7 }]
    group_invites := [{ id := 1, group_id := 1, user_id := 7, status := "accepted".toList }] }

/-- The sample store in which user 7 has a pending invite 1 to group 1 of
user 8. -/
def pendingDb : Db :=
  { sampleDb with
    user_group := [{ id := 1, manager_id := 8 }]
    group_invites := [{ id := 1, group_id := 1, user_id := 7, status := "pending".toList }] }

/-- The sum of the widths of a list of columns. -/
def widthSum (cols : List PdfColumn) : ℚ := (cols.map fun c => c.width).sum

/-- The width a column other than the last gets when the declared widths sum
to `base`: its share of the table width, rounded down, and at least 40. -/
def scaledWidth (tableWidth base : ℚ) (c : PdfColumn) : ℚ :=
  max 40 (⌊c.width * (tableWidth / base)⌋ : ℚ)

/-- The sum of the widths the columns other than the last get. -/
def othersWidth (tableWidth : ℚ) (cols : List PdfColumn) : ℚ :=
  (cols.dropLast.map (scaledWidth tableWidth (widthSum cols))).sum

/-- The printable width of a landscape A4 page with margins of 32 points:
841.89 - 64. -/
def a4TableWidth : ℚ := 77789 / 100

/-- Two declared columns, the first wide and the second narrow. -/
def wideNarrow : List PdfColumn :=
  [{ key := "email".toList, width := 1000 }, { key := "rej".toList, width := 10 }]

/-- Two declared columns of widths 300 and 200. -/
def twoColumns : List PdfColumn :=
  [{ key := "client".toList, width := 300 }, { key := "date".toList, width := 200 }]

/-- The trimmed, non-empty reason strings occurring in the reject rows of a
stat, with repetitions, in order of occurrence. -/
def reasonKeys (rejectRows : List StatDetailRow) : List Str :=
  ((rejectRows.flatMap fun r => r.reasons.getD []).map trim).filter fun k => !k.isEmpty

/-- The count a list of entries holds for a key, `0` when the key is not among
them. -/
def countOf (m : List (Str × Nat)) (key : Str) : Nat :=
  match m with
  | [] => 0
  | (k, n) :: rest => if k = key then n else countOf rest key

/-- The sample store with child rows and a second reject row for stat 1; the
reason `No signature` occurs three times, with surrounding blanks on one of
them, `Wrong form` once, and one reason is blank. -/
def repeatDb : Db :=
  { flagDb with
    rejects := flagDb.rejects ++
      [{ id := 2, stat_id := 1, user_id := 7, first_name := "Ann".toList,
         surname := "Lee".toList, row_index := 1, value := 12, natp := 0, rtd := 0, coi := 0,
         none := 1 }]
    reject_reasons :=
      [{ id := 1, reject_id := 1, value := 9, first_name := "Ann".toList,
         surname := "Lee".toList, reason := "Wrong form".toList },
       { id := 2, reject_id := 1, value := 9, first_name := "Ann".toList,
         surname := "Lee".toList, reason := "No signature".toList },
       { id := 3, reject_id := 2, value := 12, first_name := "Ann".toList,
         surname := "Lee".toList, reason := " No signature ".toList },
       { id := 4, reject_id := 2, value := 12, first_name := "Ann".toList,
         surname := "Lee".toList, reason := "  ".toList },
       { id := 5, reject_id := 2, value := 12, first_name := "Ann".toList,
         surname := "Lee".toList, reason := "No signature".toList }]
    reject_seq := 3
    reason_seq := 6 }

/-- What `subject LIKE pattern` means, as a relation between the pattern and
the subject: `%` stands for any run of characters, `_` for any one character,
a backslash makes the pattern character after it stand for itself (a
backslash that ends the pattern stands for itself), and every other character
stands for itself. -/
inductive LikeMatch : Str → Str → Prop where
  | done : LikeMatch [] []
  | anyRun (p run t : Str) : LikeMatch p t → LikeMatch ('%' :: p) (run ++ t)
  | anyOne (p : Str) (d : Char) (t : Str) : LikeMatch p t → LikeMatch ('_' :: p) (d :: t)
  | escaped (e : Char) (p t : Str) : LikeMatch p t → LikeMatch ('\\' :: e :: p) (e :: t)
  | lastBackslash : LikeMatch ['\\'] ['\\']
  | same (c : Char) (p t : Str) : c ≠ '%' → c ≠ '_' → c ≠ '\\' → LikeMatch p t →
      LikeMatch (c :: p) (c :: t)

/-- A filter is supplied: its key holds a string that is not empty. -/
def Supplied (v : Option Str) : Prop := ∃ f, v = some f ∧ f ≠ []

/-- The free-text filter is supplied: the key `q` holds a string with at least
one character that is not white space. -/
def SuppliedText (v : Option Str) : Prop := ∃ f, v = some f ∧ ∃ c ∈ f, isWhiteSpace c = false

/-- The pattern that asks for the lower-cased filter anywhere in the
subject. -/
def anywherePattern (f : Str) : Str := '%' :: (f.map Char.toLower ++ ['%'])

/-- The filter predicate on a stat joined with its owner and its owner's team
leader: every supplied filter holds. `from` and `to` bound the date of the
stat, both ends included; `clientEmail` is matched against the lower-cased
email of the owner and `leaderEmail` against that of the team leader, which
must exist; a non-blank `q` is matched against the lower-cased first name,
surname and email of the owner and of the team leader, one match being
enough. -/
structure RowSatisfies (dateOf : Str → Nat) (qy : HiveQuery) (r : HiveRow) : Prop where
  dateFrom : ∀ f, qy.dateFrom = some f → f ≠ [] → dateOf f ≤ r.s.date
  dateTo : ∀ f, qy.dateTo = some f → f ≠ [] → r.s.date ≤ dateOf f
  clientEmail : ∀ f, qy.clientEmail = some f → f ≠ [] →
    LikeMatch (anywherePattern f) (r.u.email.map Char.toLower)
  leaderEmail : ∀ f, qy.leaderEmail = some f → f ≠ [] →
    ∃ l, r.lu = some l ∧ LikeMatch (anywherePattern f) (l.email.map Char.toLower)
  search : ∀ f, qy.search = some f → (∃ c ∈ f, isWhiteSpace c = false) →
    LikeMatch (anywherePattern f) (r.u.first_name.map Char.toLower) ∨
    LikeMatch (anywherePattern f) (r.u.surname.map Char.toLower) ∨
    LikeMatch (anywherePattern f) (r.u.email.map Char.toLower) ∨
    (∃ l, r.lu = some l ∧ LikeMatch (anywherePattern f) (l.first_name.map Char.toLower)) ∨
    (∃ l, r.lu = some l ∧ LikeMatch (anywherePattern f) (l.surname.map Char.toLower)) ∨
    (∃ l, r.lu = some l ∧ LikeMatch (anywherePattern f) (l.email.map Char.toLower))

/-- The filter predicate on a stat row: the stat has an owner and, joined with
its owner and its owner's team leader, satisfies every supplied filter. -/
def StatSatisfies (dateOf : Str → Nat) (db : Db) (qy : HiveQuery) (s : StatRow) : Prop :=
  ∃ r, joinedRow db s = some r ∧ RowSatisfies dateOf qy r

/-- The sample store with a fourth stat, owned by user 8 (`bob@x.org`). -/
def mixedDb : Db :=
  { sampleDb with
    stats := sampleDb.stats ++
      [{ id := 4, user_id := 8, date := 102, start_time := 32400, end_time := 36000,
         created_at := 0, updated_at := 0 }] }

/-- The query with the filters `from=101` and `clientEmail=ANN`. -/
def fromAndClient : HiveQuery :=
  { noQuery with dateFrom := some "101".toList, clientEmail := some "ANN".toList }

/-- The query with the filters `from=101`, `clientEmail=ANN` and `q=lee`. -/
def threeFilters : HiveQuery :=
  { noQuery with
    dateFrom := some "101".toList, clientEmail := some "ANN".toList,
    search := some "lee".toList }

/-- The sample joined row with the stat moved to the given day. -/
def sampleRowOn (date : Nat) : HiveRow :=
  { sampleRow with s := { sampleRow.s with date := date } }

/-- The stores the modelled routes produce from the empty store. Of the
statements of the repository only the `INSERT` of `POST /register` and the
`UPDATE` of `PUT /users/team-leader` write to `users`. -/
inductive Reachable : Db → Prop where
  | empty : Reachable emptyDb
  | register (newId : Nat) (body : RegisterBody) (db : Db) :
      Reachable db → Reachable (registerUser newId body db).2
  | teamLeader (u : ReqUser) (leaderUserId : Option Nat) (db : Db) :
      Reachable db → Reachable (putTeamLeader u leaderUserId db).2
  | post (now : Int) (u : ReqUser) (b : StatBody) (db : Db) :
      Reachable db → Reachable (postStat now u b db).2
  | put (now : Int) (u : ReqUser) (id : Nat) (b : StatBody) (db : Db) :
      Reachable db → Reachable (putStat now u id b db).2
  | delete (now : Int) (u : ReqUser) (id : Nat) (db : Db) :
      Reachable db → Reachable (deleteStat now u id db).2
  | respond (userId inviteId : Nat) (status : Str) (db : Db) :
      Reachable db → Reachable (respondInvite userId inviteId status db).2

/-- Every user of the store has a first name and a surname that are not
empty. -/
def NamedUsers (db : Db) : Prop := ∀ u ∈ db.users, u.first_name ≠ [] ∧ u.surname ≠ []

/-- The body with which `Ann Lee` registers. -/
def annBody : RegisterBody :=
  { email := some "Ann.Lee@x.org".toList, password := some "secret".toList,
    firstName := some "Ann".toList, surname := some "Lee".toList }

/-- The reasons of a reject row that are not the empty string, in stored
order. -/
def shownReasons (r : StatDetailRow) : List Str :=
  (r.reasons.getD []).filter fun x => x ≠ []

/-- The reject row of stat 1 of the store with three reasons, as fetched. -/
def threeReasonsRow : StatDetailRow :=
  { category := none, urgency := none, groupIndex := none, rowIndex := 0, value := 9,
    natp := .num 1, rtd := .num 0, coi := .num 0, none := .num 0, checks := none,
    reasons := some ["No signature".toList, "Wrong form".toList, "Fee missing".toList] }

/-- A string comes strictly before another in the order of an ascending
`ORDER BY`: it is a proper beginning of the other, or at the first place where
the two differ it has the smaller character code. -/
inductive StrBefore : Str → Str → Prop where
  | shorter (b : Char) (bs : Str) : StrBefore [] (b :: bs)
  | smaller (a b : Char) (as bs : Str) : a.toNat < b.toNat → StrBefore (a :: as) (b :: bs)
  | later (a : Char) (as bs : Str) : StrBefore as bs → StrBefore (a :: as) (a :: bs)

/-- A group index comes strictly before another in an ascending `ORDER BY`:
`NULL` before every number, and numbers by size. -/
def GroupBefore (a b : Option Nat) : Prop :=
  (a = none ∧ b ≠ none) ∨ ∃ x y, a = some x ∧ b = some y ∧ x < y

/-- A file-creation row does not come after another when ordered by category,
urgency, group index and row index. -/
def FcNotAfter (a b : FileCreationRow) : Prop :=
  StrBefore a.category b.category ∨
  (a.category = b.category ∧
    (StrBefore a.urgency b.urgency ∨
    (a.urgency = b.urgency ∧
      (GroupBefore a.group_index b.group_index ∨
      (a.group_index = b.group_index ∧ a.row_index ≤ b.row_index)))))

/-- An attachment row does not come after another when ordered by urgency and
row index. -/
def AttNotAfter (a b : AttachmentRow) : Prop :=
  StrBefore a.urgency b.urgency ∨ (a.urgency = b.urgency ∧ a.row_index ≤ b.row_index)

/-! ## Pagination parameters (C3) -/

theorem pageNum_eq (page : QVal) : pageNum page = max 1 ((parseInt page).getD 1) := by
  unfold pageNum
  cases page with
  | undefined => simp [withDefault, parseInt, orDefault]
  | str s =>
    simp only [withDefault]
    cases h : parseInt (.str s) with
    | none => simp [orDefault]
    | some n =>
      simp only [orDefault, Option.getD_some]
      split
      · subst_vars; simp
      · rfl
  | num n =>
    simp only [withDefault, parseInt, orDefault, Option.getD_some]
    split
    · subst_vars; simp
    · rfl

theorem pageSz_eq (pageSize : QVal) :
    pageSz pageSize =
      match parseInt pageSize with
      | some n => if n = 0 then 50 else min 200 (max 1 n)
      | none => 50 := by
  unfold pageSz
  cases pageSize with
  | undefined => simp [withDefault, parseInt, orDefault]
  | str s =>
    simp only [withDefault]
    cases h : parseInt (.str s) with
    | none => simp [orDefault]
    | some n =>
      simp only [orDefault]
      split <;> simp
  | num n =>
    simp only [withDefault, parseInt, orDefault]
    split <;> simp

theorem pageSz_pos (pageSize : QVal) : 1 ≤ pageSz pageSize := by
  unfold pageSz; omega

/-- C3 (as stated, refuted): with `pageSize=0` the claim promises the page size
`min(200, max(1, 0)) = 1`, but `queryHiveData` returns `50`: `0 || 50` is `50`
before the clamp is applied. -/
theorem c3_pageSize_zero_is_fifty :
    parseInt (.str "0".toList) = some 0 ∧
    (queryHiveData (fun _ => 0) emptyDb { noQuery with pageSize := .str "0".toList }).pageSize
      = 50 ∧
    (queryHiveData (fun _ => 0) emptyDb { noQuery with pageSize := .str "0".toList }).pageSize
      ≠ min 200 (max 1 0) := by
  decide

/-- C3 (amended): for every store and query, `queryHiveData` returns
`page = max(1, p)` when the page parameter parses as the integer `p` and
`page = 1` when it is absent or unparseable; it returns
`pageSize = min(200, max(1, n))` when the pageSize parameter parses as an
integer `n` other than `0`, and `pageSize = 50` when it parses as `0`, is
absent or is unparseable. -/
theorem c3_page_and_pageSize (dateOf : Str → Nat) (db : Db) (qy : HiveQuery) :
    (queryHiveData dateOf db qy).page =
      (match parseInt qy.page with
        | some p => max 1 p
        | none => 1) ∧
    (queryHiveData dateOf db qy).pageSize =
      (match parseInt qy.pageSize with
        | some n => if n = 0 then 50 else min 200 (max 1 n)
        | none => 50) := by
  refine ⟨?_, ?_⟩
  · show pageNum qy.page = _
    rw [pageNum_eq]
    cases parseInt qy.page <;> simp
  · show pageSz qy.pageSize = _
    exact pageSz_eq qy.pageSize

/-! ## The `WHERE` clause (C7) -/

theorem buildWhere_conds (qy : HiveQuery) :
    (buildWhere qy).1 =
      (if truthy qy.dateFrom then [Cond.dateGe] else []) ++
      (if truthy qy.dateTo then [Cond.dateLe] else []) ++
      (if truthy qy.clientEmail then [Cond.userEmailLike] else []) ++
      (if truthy qy.leaderEmail then [Cond.leaderEmailLike] else []) ++
      (if nonBlank qy.search then [Cond.searchLike] else []) := by
  unfold buildWhere
  cases truthy qy.dateFrom <;> cases truthy qy.dateTo <;> cases truthy qy.clientEmail <;>
    cases truthy qy.leaderEmail <;> cases nonBlank qy.search <;> rfl

theorem buildWhere_params (qy : HiveQuery) :
    (buildWhere qy).2 =
      (if truthy qy.dateFrom then [strOf qy.dateFrom] else []) ++
      (if truthy qy.dateTo then [strOf qy.dateTo] else []) ++
      (if truthy qy.clientEmail then [likePattern (strOf qy.clientEmail)] else []) ++
      (if truthy qy.leaderEmail then [likePattern (strOf qy.leaderEmail)] else []) ++
      (if nonBlank qy.search then List.replicate 6 (likePattern (strOf qy.search)) else []) := by
  unfold buildWhere
  cases truthy qy.dateFrom <;> cases truthy qy.dateTo <;> cases truthy qy.clientEmail <;>
    cases truthy qy.leaderEmail <;> cases nonBlank qy.search <;> rfl

theorem evalWhere_buildWhere (dateOf : Str → Nat) (qy : HiveQuery) (r : HiveRow) :
    evalWhere dateOf (buildWhere qy).1 (buildWhere qy).2 r = rowMatches dateOf qy r := by
  rw [buildWhere_conds, buildWhere_params]
  unfold rowMatches
  cases truthy qy.dateFrom <;> cases truthy qy.dateTo <;> cases truthy qy.clientEmail <;>
    cases truthy qy.leaderEmail <;> cases nonBlank qy.search <;>
    simp [evalWhere, evalCond, Cond.arity, searchMatches, List.replicate, Bool.and_assoc,
      Bool.or_assoc]

theorem selectRows_buildSql (dateOf : Str → Nat) (db : Db) (qy : HiveQuery) :
    selectRows dateOf db (buildSql qy) = (hiveJoin db).filter (rowMatches dateOf qy) := by
  unfold selectRows buildSql
  by_cases h : (buildWhere qy).1.isEmpty = true
  · simp only [h, if_true]
    have h0 : (buildWhere qy).1 = [] := List.isEmpty_iff.mp h
    have : ∀ r, rowMatches dateOf qy r = true := by
      intro r
      rw [← evalWhere_buildWhere, h0]
      rfl
    rw [List.filter_eq_self.mpr]
    intro r _
    exact this r
  · simp only [h, Bool.false_eq_true, if_false]
    congr 1
    funext r
    exact evalWhere_buildWhere dateOf qy r

theorem dropWhile_eq_nil_of_all {α : Type} (p : α → Bool) (l : List α)
    (h : ∀ a ∈ l, p a = true) : l.dropWhile p = [] := by
  induction l with
  | nil => rfl
  | cons a l ih =>
    have ha : p a = true := h a (List.mem_cons_self a l)
    simp only [List.dropWhile_cons, ha, if_true]
    exact ih (fun b hb => h b (List.mem_cons_of_mem a hb))

theorem nonBlank_of_blank (s : Str) (h : ∀ c ∈ s, isWhiteSpace c = true) :
    nonBlank (some s) = false := by
  unfold nonBlank trim strOf
  simp [dropWhile_eq_nil_of_all isWhiteSpace s h]

/-- C7 (as stated, refuted): the parameter `from=not-a-date` is not a
well-formed date, yet `queryHiveData` builds the clause `WHERE s.date >= ?`
and passes the value as its parameter. -/
theorem c7_malformed_from_is_passed_on :
    wellFormedDate "not-a-date".toList = false ∧
    (buildSql { noQuery with dateFrom := some "not-a-date".toList }).whereClause
      = some [Cond.dateGe] ∧
    (buildSql { noQuery with dateFrom := some "not-a-date".toList }).params
      = ["not-a-date".toList] := by
  decide

/-- C7 (amended): `queryHiveData` does not validate dates. For every query
the condition `s.date >= ?` (resp. `s.date <= ?`) is part of `where` exactly
when `from` (resp. `to`) is a non-empty string, well-formed or not, and the
string is then passed unchanged among the parameters; only an absent or empty
`from` or `to` gives no date bound. -/
theorem c7_every_nonempty_date_is_passed_on (qy : HiveQuery) :
    (Cond.dateGe ∈ (buildWhere qy).1 ↔ truthy qy.dateFrom = true) ∧
    (Cond.dateLe ∈ (buildWhere qy).1 ↔ truthy qy.dateTo = true) ∧
    (truthy qy.dateFrom = true → strOf qy.dateFrom ∈ (buildWhere qy).2) ∧
    (truthy qy.dateTo = true → strOf qy.dateTo ∈ (buildWhere qy).2) ∧
    (∀ d : Str, truthy (some d) = true ↔ d ≠ []) ∧ truthy none = false := by
  refine ⟨?_, ?_, ?_, ?_, ?_, rfl⟩
  · rw [buildWhere_conds]
    cases truthy qy.dateFrom <;> cases truthy qy.dateTo <;> cases truthy qy.clientEmail <;>
      cases truthy qy.leaderEmail <;> cases nonBlank qy.search <;> simp
  · rw [buildWhere_conds]
    cases truthy qy.dateFrom <;> cases truthy qy.dateTo <;> cases truthy qy.clientEmail <;>
      cases truthy qy.leaderEmail <;> cases nonBlank qy.search <;> simp
  · intro h
    rw [buildWhere_params, h]
    simp
  · intro h
    rw [buildWhere_params, h]
    simp
  · intro d
    cases d <;> simp [truthy]

/-- C7 (witness): the malformed `from=not-a-date` is passed on. -/
theorem c7_every_nonempty_date_is_passed_on_witness :
    truthy (some "not-a-date".toList) = true ∧
    "not-a-date".toList ∈ (buildWhere { noQuery with dateFrom := some "not-a-date".toList }).2 :=
  ⟨by decide,
    (c7_every_nonempty_date_is_passed_on
      { noQuery with dateFrom := some "not-a-date".toList }).2.2.1 (by decide)⟩

/-! ## Email filters and `LIKE` (C6) -/

theorem sqlLike_percent (p s : Str) :
    sqlLike ('%' :: p) s = s.tails.any (fun t => sqlLike p t) := by
  rw [sqlLike.eq_def]
  simp

theorem sqlLike_literal_cons (c : Char) (p : Str) (d : Char) (t : Str)
    (hc : isLikeSpecial c = false) :
    sqlLike (c :: p) (d :: t) = (d == c && sqlLike p t) := by
  have h1 : c ≠ '%' := by intro h; subst h; revert hc; decide
  have h2 : c ≠ '_' := by intro h; subst h; revert hc; decide
  have h3 : c ≠ '\\' := by intro h; subst h; revert hc; decide
  rw [sqlLike.eq_def]
  simp [h1, h2, h3]

theorem sqlLike_literal_nil (c : Char) (p : Str) (hc : isLikeSpecial c = false) :
    sqlLike (c :: p) [] = false := by
  have h1 : c ≠ '%' := by intro h; subst h; revert hc; decide
  have h2 : c ≠ '_' := by intro h; subst h; revert hc; decide
  have h3 : c ≠ '\\' := by intro h; subst h; revert hc; decide
  rw [sqlLike.eq_def]
  simp [h1, h2, h3]

theorem sqlLike_starts (f : Str) (hf : ∀ c ∈ f, isLikeSpecial c = false) (s : Str) :
    sqlLike (f ++ ['%']) s = true ↔ f <+: s := by
  induction f generalizing s with
  | nil =>
    simp only [List.nil_append, sqlLike_percent, List.nil_prefix, iff_true]
    rw [List.any_eq_true]
    exact ⟨[], by simp, by simp [sqlLike]⟩
  | cons c f ih =>
    have hc : isLikeSpecial c = false := hf c (List.mem_cons_self c f)
    have hf' : ∀ c ∈ f, isLikeSpecial c = false := fun x hx => hf x (List.mem_cons_of_mem c hx)
    cases s with
    | nil =>
      rw [List.cons_append, sqlLike_literal_nil c _ hc]
      simp
    | cons d t =>
      rw [List.cons_append, sqlLike_literal_cons c _ d t hc]
      simp only [Bool.and_eq_true, beq_iff_eq, ih hf' t, List.cons_prefix_cons]
      constructor
      · rintro ⟨h1, h2⟩; exact ⟨h1.symm, h2⟩
      · rintro ⟨h1, h2⟩; exact ⟨h1.symm, h2⟩

theorem sqlLike_contains (f : Str) (hf : ∀ c ∈ f, isLikeSpecial c = false) (s : Str) :
    sqlLike ('%' :: (f ++ ['%'])) s = true ↔ f <:+: s := by
  rw [sqlLike_percent, List.any_eq_true]
  constructor
  · rintro ⟨t, ht, h⟩
    rw [List.mem_tails] at ht
    rw [sqlLike_starts f hf t] at h
    exact List.infix_iff_prefix_suffix.mpr ⟨t, h, ht⟩
  · intro h
    obtain ⟨t, h1, h2⟩ := List.infix_iff_prefix_suffix.mp h
    exact ⟨t, (List.mem_tails t s).mpr h2, (sqlLike_starts f hf t).mpr h1⟩

theorem isLikeSpecial_toLower (c : Char) (h : isLikeSpecial c = false) :
    isLikeSpecial c.toLower = false := by
  unfold Char.toLower
  simp only
  split
  · rename_i hr
    generalize c.toNat = n at hr
    obtain ⟨h1, h2⟩ := hr
    interval_cases n <;> decide
  · exact h

theorem toLowerCase_no_special (f : Str) (hf : ∀ c ∈ f, isLikeSpecial c = false) :
    ∀ c ∈ toLowerCase f, isLikeSpecial c = false := by
  intro c hc
  unfold toLowerCase at hc
  obtain ⟨a, ha, rfl⟩ := List.mem_map.mp hc
  exact isLikeSpecial_toLower a (hf a ha)

theorem passes_eq_rowMatches (dateOf : Str → Nat) (qy : HiveQuery) (r : HiveRow) :
    passes dateOf qy r = rowMatches dateOf qy r := by
  unfold passes buildSql
  by_cases h : (buildWhere qy).1.isEmpty = true
  · simp only [h, if_true]
    rw [← evalWhere_buildWhere, List.isEmpty_iff.mp h]
    rfl
  · simp only [h, Bool.false_eq_true, if_false]
    exact evalWhere_buildWhere dateOf qy r

/-- C6 (as stated, refuted): the filters `clientEmail=_` and `clientEmail=%`
let through a stat whose owner email `ann.lee@x.org` contains neither `_` nor
`%`: in the pattern the two characters are wildcards. -/
theorem c6_wildcards_match_without_substring :
    (passes (fun _ => 0) (onlyClientEmail "_".toList) sampleRow = true ∧
      ¬ (toLowerCase "_".toList <:+: toLowerCase sampleRow.u.email)) ∧
    (passes (fun _ => 0) (onlyClientEmail "%".toList) sampleRow = true ∧
      ¬ (toLowerCase "%".toList <:+: toLowerCase sampleRow.u.email)) := by
  decide

/-- C6 (amended): for every filter string `f` that contains none of the
characters `%`, `_` and backslash, a stat passes the `clientEmail` filter `f`
if and only if the lower-cased `f` is a contiguous substring of the lower-cased
owner email, and it passes the `leaderEmail` filter `f` if and only if `f` is
empty or the owner has a team leader whose lower-cased email contains the
lower-cased `f` as a contiguous substring. -/
theorem c6_email_filters_are_substring_matches (dateOf : Str → Nat) (f : Str) (r : HiveRow)
    (hf : ∀ c ∈ f, isLikeSpecial c = false) :
    (passes dateOf (onlyClientEmail f) r = true ↔
      toLowerCase f <:+: toLowerCase r.u.email) ∧
    (passes dateOf (onlyLeaderEmail f) r = true ↔
      (f = [] ∨ ∃ l, r.lu = some l ∧ toLowerCase f <:+: toLowerCase l.email)) := by
  have hl := toLowerCase_no_special f hf
  constructor
  · rw [passes_eq_rowMatches]
    cases f with
    | nil => simp [rowMatches, onlyClientEmail, noQuery, truthy, nonBlank, toLowerCase]
    | cons a f =>
      simp only [rowMatches, onlyClientEmail, noQuery, truthy, nonBlank, strOf, likePattern,
        Option.getD_some, Bool.not_true, Bool.not_false, Bool.false_or, Bool.true_or,
        Bool.and_true, Bool.true_and, Bool.false_and]
      exact sqlLike_contains _ hl _
  · rw [passes_eq_rowMatches]
    cases f with
    | nil => simp [rowMatches, onlyLeaderEmail, noQuery, truthy, nonBlank]
    | cons a f =>
      simp only [rowMatches, onlyLeaderEmail, noQuery, truthy, nonBlank, strOf, likePattern,
        Option.getD_some, Bool.not_true, Bool.not_false, Bool.false_or, Bool.true_or,
        Bool.and_true, Bool.true_and, Bool.false_and]
      cases hlu : r.lu with
      | none => simp [sqlLikeNull]
      | some l =>
        simp only [Option.map_some', sqlLikeNull, Option.some.injEq, exists_eq_left',
          false_or, reduceCtorEq]
        exact sqlLike_contains _ hl _

/-- C6 (witness): the filter `LEE@` against the owner email `Ann.Lee@x.org`. -/
theorem c6_email_filters_are_substring_matches_witness :
    (∀ c ∈ "LEE@".toList, isLikeSpecial c = false) ∧
    passes (fun _ => 0) (onlyClientEmail "LEE@".toList) sampleRow = true ∧
    toLowerCase "LEE@".toList <:+: toLowerCase sampleRow.u.email :=
  ⟨by decide, by decide,
    (c6_email_filters_are_substring_matches (fun _ => 0) "LEE@".toList sampleRow
      (by decide)).1.mp (by decide)⟩

/-! ## Counting and paging (C2) -/

theorem filter_key_eq_find {α : Type} (k : α → Nat) (x : Nat) (l : List α)
    (h : (l.map k).Nodup) :
    l.filter (fun a => k a == x) = (l.find? fun a => k a == x).toList := by
  induction l with
  | nil => rfl
  | cons a l ih =>
    rw [List.map_cons, List.nodup_cons] at h
    by_cases hx : k a = x
    · have hnil : l.filter (fun b => k b == x) = [] := by
        rw [List.filter_eq_nil_iff]
        intro b hb hbx
        have : k b = x := by simpa using hbx
        exact h.1 (by rw [hx, ← this]; exact List.mem_map_of_mem k hb)
      simp [List.filter_cons, List.find?_cons, hx, hnil]
    · simp [List.filter_cons, List.find?_cons, hx, ih h.2]

theorem leftJoin_toList {α : Type} (o : Option α) : leftJoin o.toList = [o] := by
  cases o <;> rfl

theorem hiveJoinOf_eq (db : Db) (hk : StoreKeys db) (s : StatRow) :
    hiveJoinOf db s = (joinedRow db s).toList := by
  unfold hiveJoinOf joinedRow joinOwner joinUtl joinMail
  rw [filter_key_eq_find (fun u : UserRow => u.id) s.user_id db.users hk.users_key,
    filter_key_eq_find (fun t : TeamLeaderRow => t.user_id) s.user_id db.user_team_leader
      hk.team_leader_key,
    filter_key_eq_find (fun m : MailOpeningRow => m.stat_id) s.id db.mail_openings hk.mail_key,
    leftJoin_toList, leftJoin_toList]
  have hl : joinLeader db (db.user_team_leader.find? fun t => t.user_id == s.user_id)
      = [leaderOf db s] := by
    unfold joinLeader leaderOf
    cases db.user_team_leader.find? fun t => t.user_id == s.user_id with
    | none => rfl
    | some t =>
      simp only [Option.some_bind]
      rw [filter_key_eq_find (fun u : UserRow => u.id) t.leader_user_id db.users hk.users_key,
        leftJoin_toList]
  unfold ownerOf mailOf
  cases db.users.find? fun u => u.id == s.user_id with
  | none => rfl
  | some u => simp [hl, mailOf]

theorem flatMap_toList {α β : Type} (g : α → Option β) (l : List α) :
    l.flatMap (fun a => (g a).toList) = l.filterMap g := by
  induction l with
  | nil => rfl
  | cons a l ih =>
    rw [List.flatMap_cons, ih, List.filterMap_cons]
    cases g a <;> rfl

theorem hiveJoin_eq (db : Db) (hk : StoreKeys db) :
    hiveJoin db = db.stats.filterMap (joinedRow db) := by
  unfold hiveJoin
  rw [← flatMap_toList]
  congr 1
  funext s
  exact hiveJoinOf_eq db hk s

theorem joinedRow_s (db : Db) (s : StatRow) (r : HiveRow) (h : joinedRow db s = some r) :
    r.s = s := by
  unfold joinedRow at h
  cases ho : ownerOf db s with
  | none => rw [ho] at h; cases h
  | some u =>
    rw [ho] at h
    simp only [Option.map_some', Option.some.injEq] at h
    rw [← h]

theorem filter_filterMap_joined (dateOf : Str → Nat) (db : Db) (qy : HiveQuery)
    (l : List StatRow) :
    ((l.filterMap (joinedRow db)).filter (rowMatches dateOf qy)).map (fun r => r.s) =
      l.filter (statMatches dateOf db qy) := by
  induction l with
  | nil => rfl
  | cons s l ih =>
    rw [List.filterMap_cons, List.filter_cons]
    cases hj : joinedRow db s with
    | none =>
      have hs : statMatches dateOf db qy s = false := by unfold statMatches; rw [hj]
      simp only [hs, Bool.false_eq_true, if_false]
      exact ih
    | some r =>
      have hs : statMatches dateOf db qy s = rowMatches dateOf qy r := by
        unfold statMatches; rw [hj]
      simp only [hs, List.filter_cons]
      cases hm : rowMatches dateOf qy r with
      | false => simpa using ih
      | true =>
        simp only [if_true, List.map_cons, joinedRow_s db s r hj]
        rw [ih]

theorem selectRows_stats (dateOf : Str → Nat) (db : Db) (hk : StoreKeys db) (qy : HiveQuery) :
    (selectRows dateOf db (buildSql qy)).map (fun r => r.s) =
      db.stats.filter (statMatches dateOf db qy) := by
  rw [selectRows_buildSql, hiveJoin_eq db hk]
  exact filter_filterMap_joined dateOf db qy db.stats

theorem total_eq (dateOf : Str → Nat) (db : Db) (qy : HiveQuery) :
    (queryHiveData dateOf db qy).total = (selectRows dateOf db (buildSql qy)).length := by
  show (orderedRows dateOf db (buildSql qy)).length = _
  unfold orderedRows
  exact List.length_insertionSort _ _

theorem storeKeys_sampleDb : StoreKeys sampleDb :=
  { stats_key := by decide
    users_key := by decide
    stats_owner := by decide
    team_leader_key := by decide
    mail_key := by decide }

instance : IsTotal HiveRow hiveOrder := ⟨fun a b => by unfold hiveOrder; omega⟩

instance : IsTrans HiveRow hiveOrder := ⟨fun a b c => by unfold hiveOrder; omega⟩

theorem attachDetails_keys (db : Db) (stats : List HiveStat) :
    (attachDetails db stats).map keyOf = stats.map keyOf := by
  unfold attachDetails
  simp only [List.map_map]
  rfl

theorem stats_keys (dateOf : Str → Nat) (db : Db) (qy : HiveQuery) :
    (queryHiveData dateOf db qy).stats.map keyOf =
      (limitOffset (orderedRows dateOf db (buildSql qy)) (pageSz qy.pageSize)
        ((pageNum qy.page - 1) * pageSz qy.pageSize)).map rowKey := by
  unfold queryHiveData
  simp only
  split
  · rw [attachDetails_keys, List.map_map]; rfl
  · rw [List.map_map]; rfl

theorem page_keys (dateOf : Str → Nat) (db : Db) (qy : HiveQuery) (pg : Nat → QVal)
    (hpg : ∀ k : Nat, parseInt (pg k) = some (k : Int)) (k : Nat) :
    (queryHiveData dateOf db { qy with page := pg (k + 1) }).stats.map keyOf =
      (((orderedRows dateOf db (buildSql qy)).drop (k * (pageSz qy.pageSize).toNat)).take
        (pageSz qy.pageSize).toNat).map rowKey := by
  rw [stats_keys]
  have hn : pageNum (pg (k + 1)) = (k : Int) + 1 := by
    rw [pageNum_eq, hpg]
    simp only [Option.getD_some]
    push_cast
    omega
  have hps := pageSz_pos qy.pageSize
  have hoff : (((k : Int) + 1 - 1) * pageSz qy.pageSize).toNat
      = k * (pageSz qy.pageSize).toNat := by
    have h1 : ((pageSz qy.pageSize).toNat : Int) = pageSz qy.pageSize :=
      Int.toNat_of_nonneg (by omega)
    have h2 : ((k : Int) + 1 - 1) * pageSz qy.pageSize
        = ((k * (pageSz qy.pageSize).toNat : Nat) : Int) := by
      push_cast
      rw [h1]
      ring
    rw [h2, Int.toNat_ofNat]
  show (limitOffset (orderedRows dateOf db (buildSql qy)) (pageSz qy.pageSize)
    ((pageNum (pg (k + 1)) - 1) * pageSz qy.pageSize)).map rowKey = _
  unfold limitOffset
  rw [hn, hoff]

theorem flatMap_windows {α : Type} (l : List α) (m n : Nat) :
    (List.range n).flatMap (fun k => (l.drop (k * m)).take m) = l.take (n * m) := by
  induction n with
  | zero => simp
  | succ n ih =>
    rw [List.range_succ, List.flatMap_append, ih, Nat.succ_mul, List.take_add]
    simp

theorem le_ceil_mul (len m : Nat) (hm : 0 < m) : len ≤ (len + m - 1) / m * m := by
  have h1 := Nat.div_add_mod (len + m - 1) m
  have h2 := Nat.mod_lt (len + m - 1) hm
  rw [Nat.mul_comm] at h1
  generalize (len + m - 1) / m * m = x at h1 ⊢
  omega

theorem allPages_keys (dateOf : Str → Nat) (db : Db) (qy : HiveQuery) (pg : Nat → QVal)
    (hpg : ∀ k : Nat, parseInt (pg k) = some (k : Int)) :
    (allPages dateOf db qy pg).map keyOf =
      (orderedRows dateOf db (buildSql qy)).map rowKey := by
  unfold allPages
  rw [List.map_flatMap]
  simp only [page_keys dateOf db qy pg hpg]
  have hw := flatMap_windows (orderedRows dateOf db (buildSql qy)) (pageSz qy.pageSize).toNat
    (totalPages (queryHiveData dateOf db qy))
  have hmap : ∀ (n : Nat),
      (List.range n).flatMap (fun k =>
        (((orderedRows dateOf db (buildSql qy)).drop (k * (pageSz qy.pageSize).toNat)).take
          (pageSz qy.pageSize).toNat).map rowKey) =
      ((List.range n).flatMap (fun k =>
        ((orderedRows dateOf db (buildSql qy)).drop (k * (pageSz qy.pageSize).toNat)).take
          (pageSz qy.pageSize).toNat)).map rowKey := by
    intro n
    rw [List.map_flatMap]
  rw [hmap, hw]
  congr 1
  apply List.take_of_length_le
  have hps := pageSz_pos qy.pageSize
  have hpos : 0 < (pageSz qy.pageSize).toNat := by omega
  exact le_ceil_mul _ _ hpos

theorem orderedRows_perm (dateOf : Str → Nat) (db : Db) (qy : HiveQuery) :
    (orderedRows dateOf db (buildSql qy)).Perm (selectRows dateOf db (buildSql qy)) :=
  List.perm_insertionSort _ _

theorem orderedRows_ids_perm (dateOf : Str → Nat) (db : Db) (hk : StoreKeys db)
    (qy : HiveQuery) :
    ((orderedRows dateOf db (buildSql qy)).map fun r => r.s.id).Perm
      ((db.stats.filter (statMatches dateOf db qy)).map fun s => s.id) := by
  have h := (orderedRows_perm dateOf db qy).map (fun r : HiveRow => r.s.id)
  have h2 : (selectRows dateOf db (buildSql qy)).map (fun r => r.s.id) =
      (db.stats.filter (statMatches dateOf db qy)).map fun s => s.id := by
    rw [← selectRows_stats dateOf db hk qy, List.map_map]
    rfl
  rw [h2] at h
  exact h

theorem matching_ids_nodup (dateOf : Str → Nat) (db : Db) (hk : StoreKeys db)
    (qy : HiveQuery) :
    ((db.stats.filter (statMatches dateOf db qy)).map fun s => s.id).Nodup :=
  hk.stats_key.sublist ((List.filter_sublist db.stats).map _)

theorem orderedRows_strict (dateOf : Str → Nat) (db : Db) (hk : StoreKeys db)
    (qy : HiveQuery) :
    ((orderedRows dateOf db (buildSql qy)).map rowKey).Pairwise keyBefore := by
  rw [List.pairwise_map]
  have hs : (orderedRows dateOf db (buildSql qy)).Pairwise hiveOrder :=
    List.sorted_insertionSort hiveOrder _
  have hn : ((orderedRows dateOf db (buildSql qy)).map fun r => r.s.id).Nodup :=
    (orderedRows_ids_perm dateOf db hk qy).nodup_iff.mpr (matching_ids_nodup dateOf db hk qy)
  have hn' : (orderedRows dateOf db (buildSql qy)).Pairwise (fun a b => a.s.id ≠ b.s.id) :=
    List.pairwise_map.mp hn
  refine (hs.and hn').imp ?_
  intro a b h
  obtain ⟨h1, h2⟩ := h
  unfold hiveOrder at h1
  unfold keyBefore rowKey
  simp only
  omega

/-- C2: in a store that obeys the keys of the schema, for every filter set and
every `pageSize` parameter, the `stats` of the pages `1..ceil(total/pageSize)`
(`pageSize` the page size `queryHiveData` returns) put end to end hold exactly
`total` stat ids, without repetition, which are the ids of the stats that
satisfy the filter predicate, in the order date descending, then start_time
descending, then id descending. -/
theorem c2_pages_concatenate_to_the_ordered_result (dateOf : Str → Nat) (db : Db)
    (qy : HiveQuery) (pg : Nat → QVal) (hk : StoreKeys db)
    (hpg : ∀ k : Nat, parseInt (pg k) = some (k : Int)) :
    ((allPages dateOf db qy pg).map fun s => s.id).length = (queryHiveData dateOf db qy).total ∧
    ((allPages dateOf db qy pg).map fun s => s.id).Nodup ∧
    ((allPages dateOf db qy pg).map fun s => s.id).Perm
      ((db.stats.filter (statMatches dateOf db qy)).map fun s => s.id) ∧
    (allPages dateOf db qy pg).Pairwise statBefore := by
  have hkeys := allPages_keys dateOf db qy pg hpg
  have hids : (allPages dateOf db qy pg).map (fun s => s.id) =
      (orderedRows dateOf db (buildSql qy)).map fun r => r.s.id := by
    have := congrArg (List.map fun k : Nat × Nat × Nat => k.2.2) hkeys
    rw [List.map_map, List.map_map] at this
    exact this
  have hperm := orderedRows_ids_perm dateOf db hk qy
  refine ⟨?_, ?_, ?_, ?_⟩
  · rw [hids, List.length_map]
    rfl
  · rw [hids]
    exact hperm.nodup_iff.mpr (matching_ids_nodup dateOf db hk qy)
  · rw [hids]
    exact hperm
  · have h := orderedRows_strict dateOf db hk qy
    rw [← hkeys, List.pairwise_map] at h
    exact h

/-- C2 (witness): the three stats of the sample store, two per page, come out
as the ids 3, 2, 1. -/
theorem c2_pages_concatenate_to_the_ordered_result_witness :
    StoreKeys sampleDb ∧ (∀ k : Nat, parseInt (QVal.num k) = some (k : Int)) ∧
    (allPages (fun _ => 0) sampleDb { noQuery with pageSize := .str "2".toList }
      (fun k => QVal.num k)).map (fun s => s.id) = [3, 2, 1] ∧
    (allPages (fun _ => 0) sampleDb { noQuery with pageSize := .str "2".toList }
      (fun k => QVal.num k)).Pairwise statBefore :=
  ⟨storeKeys_sampleDb, fun _ => rfl, by decide,
    (c2_pages_concatenate_to_the_ordered_result (fun _ => 0) sampleDb
      { noQuery with pageSize := .str "2".toList } (fun k => QVal.num k) storeKeys_sampleDb
      (fun _ => rfl)).2.2.2⟩

/-! ## Export size (C4) -/

theorem summaryRows_length (dateOf : Str → Nat) (db : Db) (rq : HiveQuery) :
    (excelSummaryRows dateOf db rq).length = min 200 (queryHiveData dateOf db rq).total ∧
    (pdfSummaryRows dateOf db rq).length = min 200 (queryHiveData dateOf db rq).total := by
  have h : ((queryHiveData dateOf db (exportQuery false rq)).stats).length
      = min 200 (queryHiveData dateOf db rq).total := by
    have hk := congrArg List.length (stats_keys dateOf db (exportQuery false rq))
    rw [List.length_map, List.length_map] at hk
    rw [hk]
    have hs : pageSz (exportQuery false rq).pageSize = 200 := by
      show pageSz (.num 5000) = 200
      decide
    have hn : pageNum (exportQuery false rq).page = 1 := by
      show pageNum (.num 1) = 1
      decide
    rw [hs, hn]
    show (limitOffset (orderedRows dateOf db (buildSql rq)) 200 ((1 - 1) * 200)).length
      = min 200 (orderedRows dateOf db (buildSql rq)).length
    unfold limitOffset
    simp
  unfold excelSummaryRows pdfSummaryRows
  rw [List.length_map]
  exact ⟨h, h⟩

set_option maxRecDepth 100000 in
theorem bigDb_total : (queryHiveData (fun _ => 0) bigDb noQuery).total = 201 := by
  rw [total_eq]
  decide

/-- C4 (the code at the failing input): with 201 stats and no filter, `total`
is 201, so the claim promises `min(201, 5000) = 201` data rows, but the summary
sheet and the summary PDF hold 200: the page size 5000 the export routes ask
for is clamped to 200 by `queryHiveData`. -/
theorem c4_export_is_cut_at_200_rows :
    (queryHiveData (fun _ => 0) bigDb noQuery).total = 201 ∧
    (excelSummaryRows (fun _ => 0) bigDb noQuery).length = 200 ∧
    (pdfSummaryRows (fun _ => 0) bigDb noQuery).length = 200 ∧
    min 201 5000 ≠ 200 := by
  have h := summaryRows_length (fun _ => 0) bigDb noQuery
  rw [bigDb_total] at h
  exact ⟨bigDb_total, h.1, h.2, by decide⟩

/-! ## Overlap check on creation (C8) -/

theorem hasOverlap_iff (db : Db) (userId date startTime endTime : Nat) (excludeId : Option Nat) :
    hasOverlap db userId date startTime endTime excludeId = true ↔
      ∃ s ∈ db.stats, s.user_id = userId ∧ s.date = date ∧ s.start_time < endTime ∧
        startTime < s.end_time ∧ ∀ x, excludeId = some x → s.id ≠ x := by
  unfold hasOverlap
  rw [decide_eq_true_iff, List.length_pos, ne_eq, List.take_eq_nil_iff]
  simp only [one_ne_zero, false_or, List.filter_eq_nil_iff, not_forall, Classical.not_not,
    exists_prop]
  constructor
  · rintro ⟨s, hs, h⟩
    refine ⟨s, hs, ?_⟩
    cases excludeId with
    | none =>
      simp only [Bool.and_eq_true, beq_iff_eq, decide_eq_true_eq, and_true] at h
      obtain ⟨⟨⟨h1, h2⟩, h3⟩, h4⟩ := h
      exact ⟨h1, h2, h3, h4, fun y hy => by cases hy⟩
    | some x =>
      simp only [Bool.and_eq_true, beq_iff_eq, decide_eq_true_eq, bne_iff_ne, ne_eq] at h
      obtain ⟨⟨⟨⟨h1, h2⟩, h3⟩, h4⟩, h5⟩ := h
      exact ⟨h1, h2, h3, h4, fun y hy => by cases hy; exact h5⟩
  · rintro ⟨s, hs, h1, h2, h3, h4, h5⟩
    refine ⟨s, hs, ?_⟩
    cases excludeId with
    | none => simp [h1, h2, h3, h4]
    | some x => simp [h1, h2, h3, h4, h5 x rfl]

theorem hasOverlap_none_iff (db : Db) (userId date startTime endTime : Nat) :
    hasOverlap db userId date startTime endTime none = true ↔
      ∃ s ∈ db.stats, s.user_id = userId ∧ s.date = date ∧ s.start_time < endTime ∧
        startTime < s.end_time := by
  rw [hasOverlap_iff]
  constructor
  · rintro ⟨s, hs, h1, h2, h3, h4, _⟩; exact ⟨s, hs, h1, h2, h3, h4⟩
  · rintro ⟨s, hs, h1, h2, h3, h4⟩
    exact ⟨s, hs, h1, h2, h3, h4, fun x hx => by cases hx⟩

theorem insertFileCreations_ok (u : ReqUser) (id : Nat) (rows : List PayloadRow) (db : Db)
    (h : ∀ r ∈ rows, r.checks ≠ none) : (insertFileCreations u id rows db).1 = true := by
  induction rows generalizing db with
  | nil => rfl
  | cons r rs ih =>
    unfold insertFileCreations
    cases hc : r.checks with
    | none => exact absurd hc (h r (List.mem_cons_self r rs))
    | some c => exact ih _ (fun x hx => h x (List.mem_cons_of_mem r hx))

theorem insertAttachments_ok (u : ReqUser) (id : Nat) (rows : List PayloadRow) (db : Db)
    (h : ∀ r ∈ rows, r.checks ≠ none) : (insertAttachments u id rows db).1 = true := by
  induction rows generalizing db with
  | nil => rfl
  | cons r rs ih =>
    unfold insertAttachments
    cases hc : r.checks with
    | none => exact absurd hc (h r (List.mem_cons_self r rs))
    | some c => exact ih _ (fun x hx => h x (List.mem_cons_of_mem r hx))

theorem insertRejects_ok (u : ReqUser) (id : Nat) (rows : List PayloadRow) (db : Db)
    (h : ∀ r ∈ rows, r.checks ≠ none) : (insertRejects u id rows db).1 = true := by
  induction rows generalizing db with
  | nil => rfl
  | cons r rs ih =>
    unfold insertRejects
    cases hc : r.checks with
    | none => exact absurd hc (h r (List.mem_cons_self r rs))
    | some c => exact ih _ (fun x hx => h x (List.mem_cons_of_mem r hx))

theorem writeChildren_ok (now : Int) (u : ReqUser) (id date startTime endTime : Nat)
    (b : StatBody) (msg : String) (db : Db)
    (h : ∀ r ∈ b.fileCreationRows ++ b.attachmentsRows ++ b.rejectRows, r.checks ≠ none) :
    (writeChildren now u id date startTime endTime b msg db).1.status = 200 := by
  have h1 : ∀ r ∈ b.fileCreationRows, r.checks ≠ none := fun r hr => h r (by simp [hr])
  have h2 : ∀ r ∈ b.attachmentsRows, r.checks ≠ none := fun r hr => h r (by simp [hr])
  have h3 : ∀ r ∈ b.rejectRows, r.checks ≠ none := fun r hr => h r (by simp [hr])
  unfold writeChildren
  split
  · rename_i heq
    have := congrArg Prod.fst heq
    rw [insertFileCreations_ok u id _ _ h1] at this
    cases this
  · split
    · rename_i heq
      have := congrArg Prod.fst heq
      rw [insertAttachments_ok u id _ _ h2] at this
      cases this
    · split
      · rename_i heq
        have := congrArg Prod.fst heq
        rw [insertRejects_ok u id _ _ h3] at this
        cases this
      · rfl

theorem postStat_valid (now : Int) (u : ReqUser) (b : StatBody) (db : Db)
    (id date startTime endTime : Nat) (m : MailOpeningBody)
    (hid : b.id = some id) (hid0 : id ≠ 0) (hd : b.date = some date)
    (hs : b.startTime = some startTime) (he : b.endTime = some endTime)
    (hm : b.mailOpening = .obj m) :
    postStat now u b db =
      if hasOverlap db u.id date startTime endTime none then
        ({ status := 409, body := .error "Time overlaps existing stat." }, db)
      else if db.stats.any (fun s => s.id == id) then
        ({ status := 409, body := .error "Duplicate stat." }, db)
      else
        writeChildren now u id date startTime endTime b "Could not create stat."
          { db with
            stats := db.stats ++
              [{ id := id, user_id := u.id, date := date, start_time := startTime,
                 end_time := endTime, created_at := now, updated_at := now }]
            mail_openings := db.mail_openings ++ [mailRow u id m] } := by
  unfold postStat insertStat
  simp only [hid, hd, hs, he, hm, hid0, reduceCtorEq, or_self, if_false]
  by_cases h1 : hasOverlap db u.id date startTime endTime none = true
  · simp only [h1, if_true]
  · by_cases h2 : (db.stats.any fun s => s.id == id) = true
    · simp only [h1, h2, if_true, if_false]
    · simp only [h1, h2, Bool.false_eq_true, if_false]

/-- C8: `POST /stats` with an otherwise valid payload (id, date, start and end
time present, a `mailOpening` object, every child row with its `checks`, an id
not yet used) is answered 409 exactly when the requesting user already has a
stat on the same date with `start_time < endTime` and `end_time > startTime`,
and is accepted (200) otherwise; in particular it is accepted when every
stat of the user on that date ends at or before the new start or starts at or
after the new end. -/
theorem c8_post_conflict_iff_overlap (now : Int) (u : ReqUser) (b : StatBody) (db : Db)
    (id date startTime endTime : Nat) (m : MailOpeningBody)
    (hid : b.id = some id) (hid0 : id ≠ 0) (hd : b.date = some date)
    (hs : b.startTime = some startTime) (he : b.endTime = some endTime)
    (hm : b.mailOpening = .obj m)
    (hrows : ∀ r ∈ b.fileCreationRows ++ b.attachmentsRows ++ b.rejectRows, r.checks ≠ none)
    (hfresh : ∀ s ∈ db.stats, s.id ≠ id) :
    ((postStat now u b db).1.status = 409 ↔
      ∃ s ∈ db.stats, s.user_id = u.id ∧ s.date = date ∧ s.start_time < endTime ∧
        startTime < s.end_time) ∧
    ((postStat now u b db).1.status = 200 ↔
      ¬ ∃ s ∈ db.stats, s.user_id = u.id ∧ s.date = date ∧ s.start_time < endTime ∧
        startTime < s.end_time) ∧
    ((∀ s ∈ db.stats, s.user_id = u.id → s.date = date →
        s.end_time ≤ startTime ∨ endTime ≤ s.start_time) →
      (postStat now u b db).1.status = 200) := by
  have hdup : db.stats.any (fun s => s.id == id) = false := by
    rw [List.any_eq_false]
    intro s hs'
    simpa using hfresh s hs'
  have hpost := postStat_valid now u b db id date startTime endTime m hid hid0 hd hs he hm
  have hiff := hasOverlap_none_iff db u.id date startTime endTime
  have key : (postStat now u b db).1.status =
      if hasOverlap db u.id date startTime endTime none = true then 409 else 200 := by
    rw [hpost]
    split
    · rfl
    · rw [hdup]
      simp only [Bool.false_eq_true, if_false]
      exact writeChildren_ok now u id date startTime endTime b _ _ hrows
  refine ⟨?_, ?_, ?_⟩
  · rw [key, ← hiff]
    split <;> simp_all
  · rw [key, ← hiff]
    split <;> simp_all
  · intro hadj
    rw [key]
    have : ¬ hasOverlap db u.id date startTime endTime none = true := by
      rw [hiff]
      rintro ⟨s, hs', h1, h2, h3, h4⟩
      have := hadj s hs' h1 h2
      omega
    simp [this]

/-- C8 (witness): user 7 has the stat 09:00-10:00 on day 100; the window
10:00-11:00 of the same day is accepted, the window 09:30-10:30 is rejected
with 409. -/
theorem c8_post_conflict_iff_overlap_witness :
    (∀ s ∈ sampleDb.stats, s.user_id = ann.id → s.date = 100 →
      s.end_time ≤ 36000 ∨ 39600 ≤ s.start_time) ∧
    (postStat 0 ann (plainBody 10 100 36000 39600) sampleDb).1.status = 200 ∧
    (postStat 0 ann (plainBody 10 100 34200 37800) sampleDb).1.status = 409 :=
  ⟨by decide,
    (c8_post_conflict_iff_overlap 0 ann (plainBody 10 100 36000 39600) sampleDb 10 100 36000
      39600 _ rfl (by decide) rfl rfl rfl rfl (by decide) (by decide)).2.2 (by decide),
    by decide⟩

/-! ## Non-overlap as an invariant (C9) -/

theorem insertFileCreations_stats (u : ReqUser) (id : Nat) (rows : List PayloadRow) (db : Db) :
    (insertFileCreations u id rows db).2.stats = db.stats := by
  induction rows generalizing db with
  | nil => rfl
  | cons r rs ih =>
    unfold insertFileCreations
    cases r.checks with
    | none => rfl
    | some c => exact ih _

theorem insertAttachments_stats (u : ReqUser) (id : Nat) (rows : List PayloadRow) (db : Db) :
    (insertAttachments u id rows db).2.stats = db.stats := by
  induction rows generalizing db with
  | nil => rfl
  | cons r rs ih =>
    unfold insertAttachments
    cases r.checks with
    | none => rfl
    | some c => exact ih _

theorem insertReasons_stats (u : ReqUser) (rejectId : Nat) (value : Int) (reasons : List Str)
    (db : Db) : (insertReasons u rejectId value reasons db).stats = db.stats := by
  induction reasons generalizing db with
  | nil => rfl
  | cons r rs ih =>
    unfold insertReasons
    exact ih _

theorem insertRejects_stats (u : ReqUser) (id : Nat) (rows : List PayloadRow) (db : Db) :
    (insertRejects u id rows db).2.stats = db.stats := by
  induction rows generalizing db with
  | nil => rfl
  | cons r rs ih =>
    unfold insertRejects
    cases r.checks with
    | none => rfl
    | some c =>
      simp only
      rw [ih, insertReasons_stats]

theorem upsertProcessed_stats (now : Int) (id date startTime endTime : Nat)
    (t : ProcessedTotals) (db : Db) :
    (upsertProcessed now id date startTime endTime t db).stats = db.stats := by
  unfold upsertProcessed
  simp only
  split <;> rfl

theorem writeChildren_stats (now : Int) (u : ReqUser) (id date startTime endTime : Nat)
    (b : StatBody) (msg : String) (db : Db) :
    (writeChildren now u id date startTime endTime b msg db).2.stats = db.stats := by
  unfold writeChildren
  split
  · rename_i heq
    have := insertFileCreations_stats u id b.fileCreationRows db
    rw [heq] at this
    exact this
  · rename_i db1 heq1
    have e1 := insertFileCreations_stats u id b.fileCreationRows db
    rw [heq1] at e1
    split
    · rename_i heq
      have := insertAttachments_stats u id b.attachmentsRows db1
      rw [heq] at this
      exact this.trans e1
    · rename_i db2 heq2
      have e2 := insertAttachments_stats u id b.attachmentsRows db1
      rw [heq2] at e2
      split
      · rename_i heq
        have := insertRejects_stats u id b.rejectRows db2
        rw [heq] at this
        exact this.trans (e2.trans e1)
      · rename_i db3 heq3
        have e3 := insertRejects_stats u id b.rejectRows db2
        rw [heq3] at e3
        simp only [upsertProcessed_stats]
        exact e3.trans (e2.trans e1)

theorem postStat_stats (now : Int) (u : ReqUser) (b : StatBody) (db : Db) :
    (postStat now u b db).2.stats = db.stats ∨
    ∃ id date startTime endTime,
      hasOverlap db u.id date startTime endTime none = false ∧
      (∀ s ∈ db.stats, s.id ≠ id) ∧
      (postStat now u b db).2.stats = db.stats ++
        [{ id := id, user_id := u.id, date := date, start_time := startTime,
           end_time := endTime, created_at := now, updated_at := now }] := by
  unfold postStat
  split
  · rename_i id date startTime endTime _ _ _ _
    split
    · exact Or.inl rfl
    · split
      · exact Or.inl rfl
      · rename_i hov
        cases hins : insertStat now db id u.id date startTime endTime with
        | none => exact Or.inl rfl
        | some db1 =>
          unfold insertStat at hins
          split at hins
          · cases hins
          · rename_i hdup
            simp only [Option.some.injEq] at hins
            subst hins
            refine Or.inr ⟨id, date, startTime, endTime, by simpa using hov, ?_, ?_⟩
            · intro s hs heq
              apply hdup
              rw [List.any_eq_true]
              exact ⟨s, hs, by simpa using heq⟩
            · simp only
              split
              · rw [writeChildren_stats]
              · rfl
  · exact Or.inl rfl

theorem putStat_stats (now : Int) (u : ReqUser) (id : Nat) (b : StatBody) (db : Db) :
    (putStat now u id b db).2.stats = db.stats ∨
    ∃ date startTime endTime,
      hasOverlap db u.id date startTime endTime (some id) = false ∧
      (putStat now u id b db).2.stats = db.stats.map fun s =>
        if s.id = id ∧ s.user_id = u.id then
          { s with date := date, start_time := startTime, end_time := endTime }
        else s := by
  unfold putStat
  split
  · exact Or.inl rfl
  · split
    · rename_i date startTime endTime _ _ _
      split
      · exact Or.inl rfl
      · split
        · exact Or.inl rfl
        · split
          · exact Or.inl rfl
          · rename_i hov
            refine Or.inr ⟨date, startTime, endTime, by simpa using hov, ?_⟩
            split
            · simp only
              split
              · rename_i heq
                have e1 := congrArg (fun p : Bool × Db => p.2.stats) heq
                simp only [insertFileCreations_stats] at e1
                exact e1.symm
              · rename_i heq1
                have e1 := congrArg (fun p : Bool × Db => p.2.stats) heq1
                simp only [insertFileCreations_stats] at e1
                split
                · rename_i heq
                  have e2 := congrArg (fun p : Bool × Db => p.2.stats) heq
                  simp only [insertAttachments_stats] at e2
                  exact e2.symm.trans e1.symm
                · rename_i heq2
                  have e2 := congrArg (fun p : Bool × Db => p.2.stats) heq2
                  simp only [insertAttachments_stats] at e2
                  split
                  · rename_i heq
                    have e3 := congrArg (fun p : Bool × Db => p.2.stats) heq
                    simp only [insertRejects_stats] at e3
                    exact e3.symm.trans (e2.symm.trans e1.symm)
                  · rename_i heq3
                    have e3 := congrArg (fun p : Bool × Db => p.2.stats) heq3
                    simp only [insertRejects_stats] at e3
                    simp only [upsertProcessed_stats]
                    exact e3.symm.trans (e2.symm.trans e1.symm)
            · rfl
    · exact Or.inl rfl

/-- C9: non-overlap is an invariant of the `stats` table under both write
operations. If the ids of `stats` are distinct and no two stats of the same
owner and date satisfy `a.start_time < b.end_time` and
`b.start_time < a.end_time`, then the same holds of the table left by
`POST /stats` and of the table left by `PUT /stats/:id`, whatever their
outcome (the updated stat having been compared with all the owner's other
stats on its new date), and the ids are still distinct. -/
theorem c9_non_overlap_is_invariant (now : Int) (u : ReqUser) (id : Nat) (b : StatBody)
    (db : Db) (hkey : (db.stats.map fun s => s.id).Nodup) (hinv : NonOverlapping db.stats) :
    NonOverlapping (postStat now u b db).2.stats ∧
    ((postStat now u b db).2.stats.map fun s => s.id).Nodup ∧
    NonOverlapping (putStat now u id b db).2.stats ∧
    ((putStat now u id b db).2.stats.map fun s => s.id).Nodup := by
  refine ⟨?_, ?_, ?_, ?_⟩
  · rcases postStat_stats now u b db with h | ⟨i, d, st, et, hov, _, h⟩
    · rw [h]; exact hinv
    · rw [h]
      unfold NonOverlapping
      rw [List.pairwise_append]
      refine ⟨hinv, List.pairwise_singleton _ _, ?_⟩
      intro a ha x hx
      rw [List.mem_singleton] at hx
      subst hx
      intro hab
      obtain ⟨h1, h2, h3, h4⟩ := hab
      have : hasOverlap db u.id d st et none = true :=
        (hasOverlap_none_iff db u.id d st et).mpr ⟨a, ha, h1, h2, h3, h4⟩
      rw [hov] at this
      cases this
  · rcases postStat_stats now u b db with h | ⟨i, d, st, et, _, hfresh, h⟩
    · rw [h]; exact hkey
    · rw [h, List.map_append, List.nodup_append]
      refine ⟨hkey, List.nodup_singleton _, ?_⟩
      intro x hx1 hx2
      simp only [List.map_cons, List.map_nil, List.mem_singleton] at hx2
      obtain ⟨s, hs, rfl⟩ := List.mem_map.mp hx1
      exact hfresh s hs hx2
  · rcases putStat_stats now u id b db with h | ⟨d, st, et, hov, h⟩
    · rw [h]; exact hinv
    · rw [h]
      unfold NonOverlapping
      rw [List.pairwise_map]
      have hne : db.stats.Pairwise (fun a c => a.id ≠ c.id) := List.pairwise_map.mp hkey
      have hno : ∀ s ∈ db.stats, s.id ≠ id → s.user_id = u.id → s.date = d →
          ¬ (s.start_time < et ∧ st < s.end_time) := by
        intro s hs hsid h1 h2 h34
        have : hasOverlap db u.id d st et (some id) = true :=
          (hasOverlap_iff db u.id d st et (some id)).mpr
            ⟨s, hs, h1, h2, h34.1, h34.2, fun x hx => by cases hx; exact hsid⟩
        rw [hov] at this
        cases this
      refine (hinv.and hne).imp_of_mem ?_
      intro a c ha hc hac
      obtain ⟨hnov, hid⟩ := hac
      unfold overlaps at hnov ⊢
      by_cases h1 : a.id = id ∧ a.user_id = u.id
      · by_cases h2 : c.id = id ∧ c.user_id = u.id
        · exact absurd (h1.1.trans h2.1.symm) hid
        · have hcid : c.id ≠ id := fun hc' => hid (h1.1.trans hc'.symm)
          rw [if_pos h1, if_neg h2]
          show ¬ (a.user_id = c.user_id ∧ d = c.date ∧ st < c.end_time ∧ c.start_time < et)
          intro hov'
          exact hno c hc hcid (hov'.1.symm.trans h1.2) hov'.2.1.symm
            ⟨hov'.2.2.2, hov'.2.2.1⟩
      · by_cases h2 : c.id = id ∧ c.user_id = u.id
        · have haid : a.id ≠ id := fun ha' => hid (ha'.trans h2.1.symm)
          rw [if_neg h1, if_pos h2]
          show ¬ (a.user_id = c.user_id ∧ a.date = d ∧ a.start_time < et ∧ st < a.end_time)
          intro hov'
          exact hno a ha haid (hov'.1.trans h2.2) hov'.2.1 ⟨hov'.2.2.1, hov'.2.2.2⟩
        · rw [if_neg h1, if_neg h2]
          exact hnov
  · rcases putStat_stats now u id b db with h | ⟨d, st, et, _, h⟩
    · rw [h]; exact hkey
    · rw [h, List.map_map]
      have : ((fun s : StatRow => s.id) ∘ fun s : StatRow =>
          if s.id = id ∧ s.user_id = u.id then
            { s with date := d, start_time := st, end_time := et }
          else s) = fun s => s.id := by
        funext s
        simp only [Function.comp]
        split <;> rfl
      rw [this]
      exact hkey

theorem nonOverlapping_sampleDb : NonOverlapping sampleDb.stats := by
  unfold NonOverlapping overlaps
  decide

/-- C9 (witness): moving stat 3 of the sample store (day 101, 10:00-11:00) to
11:00-12:00 succeeds and leaves the table without overlap. -/
theorem c9_non_overlap_is_invariant_witness :
    (sampleDb.stats.map fun s => s.id).Nodup ∧ NonOverlapping sampleDb.stats ∧
    (putStat 86400000 ann 3 (plainBody 3 101 39600 43200) sampleDb).1.status = 200 ∧
    NonOverlapping (putStat 86400000 ann 3 (plainBody 3 101 39600 43200) sampleDb).2.stats :=
  ⟨by decide, nonOverlapping_sampleDb, by decide,
    (c9_non_overlap_is_invariant 86400000 ann 3 (plainBody 3 101 39600 43200) sampleDb
      (by decide) nonOverlapping_sampleDb).2.2.1⟩

/-! ## The 48-hour edit window (C10) -/

theorem filter_id_unique (l : List StatRow) (h : (l.map fun s => s.id).Nodup) (s : StatRow)
    (hs : s ∈ l) : l.filter (fun x => x.id == s.id) = [s] := by
  induction l with
  | nil => cases hs
  | cons a l ih =>
    rw [List.map_cons, List.nodup_cons] at h
    rcases List.mem_cons.mp hs with rfl | hs'
    · have hnil : l.filter (fun x => x.id == s.id) = [] := by
        rw [List.filter_eq_nil_iff]
        intro x hx hxs
        have : x.id = s.id := by simpa using hxs
        exact h.1 (by rw [← this]; exact List.mem_map_of_mem (fun s => s.id) hx)
      simp [List.filter_cons, hnil]
    · have hne : a.id ≠ s.id := by
        intro he
        exact h.1 (by rw [he]; exact List.mem_map_of_mem (fun s => s.id) hs')
      simp [List.filter_cons, hne, ih h.2 hs']

theorem canEditStat_of_mem (db : Db) (now : Int) (userId : Nat) (s : StatRow)
    (hkey : (db.stats.map fun s => s.id).Nodup) (hs : s ∈ db.stats) :
    canEditStat db now userId s.id = true ↔
      s.user_id = userId ∧ now - s.created_at < 48 * 3600 * 1000 := by
  unfold canEditStat
  have hf : db.stats.filter (fun x => x.id == s.id && x.user_id == userId) =
      (db.stats.filter (fun x => x.id == s.id)).filter (fun x => x.user_id == userId) := by
    rw [List.filter_filter]
    congr 1
    funext x
    exact Bool.and_comm _ _
  rw [hf, filter_id_unique db.stats hkey s hs]
  by_cases hu : s.user_id = userId
  · simp [List.filter_cons, hu]
  · simp [List.filter_cons, hu]

theorem canEditStat_of_not_mem (db : Db) (now : Int) (userId statId : Nat)
    (h : ∀ s ∈ db.stats, s.id ≠ statId) : canEditStat db now userId statId = false := by
  unfold canEditStat
  have : db.stats.filter (fun s => s.id == statId && s.user_id == userId) = [] := by
    rw [List.filter_eq_nil_iff]
    intro s hs hc
    simp only [Bool.and_eq_true, beq_iff_eq] at hc
    exact h s hs hc.1
  rw [this]

/-- C10: in a `stats` table with distinct ids, the permission check of
`PUT /stats/:id` and `DELETE /stats/:id` (`canEditStat`) passes exactly when
the stat is owned by the requester and `now - created_at` is below 48 hours;
it fails for an id without stat; when it fails, whoever the requester is (a
group manager of the owner included), both handlers answer 403 and leave
every table as it was; when it passes neither handler answers 403. -/
theorem c10_edit_window (db : Db) (now : Int) (u : ReqUser) (id : Nat) (b : StatBody)
    (hkey : (db.stats.map fun s => s.id).Nodup) :
    (∀ s ∈ db.stats, s.id = id →
      (canEditStat db now u.id id = true ↔
        s.user_id = u.id ∧ now - s.created_at < 48 * 3600 * 1000)) ∧
    ((∀ s ∈ db.stats, s.id ≠ id) → canEditStat db now u.id id = false) ∧
    (canEditStat db now u.id id = false →
      (putStat now u id b db).1.status = 403 ∧ (putStat now u id b db).2 = db ∧
      (deleteStat now u id db).1.status = 403 ∧ (deleteStat now u id db).2 = db) ∧
    (canEditStat db now u.id id = true →
      (putStat now u id b db).1.status ≠ 403 ∧ (deleteStat now u id db).1.status = 200) := by
  refine ⟨?_, canEditStat_of_not_mem db now u.id id, ?_, ?_⟩
  · intro s hs hid
    subst hid
    exact canEditStat_of_mem db now u.id s hkey hs
  · intro h
    unfold putStat deleteStat
    simp [h]
  · intro h
    constructor
    · unfold putStat
      simp only [h, Bool.not_true, Bool.false_eq_true, if_false]
      repeat' split
      all_goals simp
    · unfold deleteStat
      simp [h]

/-- C10 (witness): stat 1 of the sample store was created at instant 0 by user
7. User 7 passes the check after 47h59m and fails it after exactly 48h; user
8, who manages a group user 7 belongs to, fails it at once and gets 403 from
both handlers with the store unchanged. -/
theorem c10_edit_window_witness :
    (managedDb.stats.map fun s => s.id).Nodup ∧
    canEditStat managedDb 172740000 ann.id 1 = true ∧
    canEditStat managedDb 172800000 ann.id 1 = false ∧
    isManagerOfUser managedDb bob.id ann.id = true ∧
    canEditStat managedDb 0 bob.id 1 = false ∧
    (putStat 0 bob 1 (plainBody 1 100 32400 36000) managedDb).1.status = 403 ∧
    (putStat 0 bob 1 (plainBody 1 100 32400 36000) managedDb).2 = managedDb ∧
    (deleteStat 0 bob 1 managedDb).1.status = 403 ∧
    (deleteStat 0 bob 1 managedDb).2 = managedDb :=
  ⟨by decide, by decide, by decide, by decide, by decide,
    (c10_edit_window managedDb 0 bob 1 (plainBody 1 100 32400 36000) (by decide)).2.2.1
      (by decide)⟩

/-! ## Unknown stat ids (C11) -/

theorem put_delete_unknown_id (db : Db) (now : Int) (u : ReqUser) (id : Nat) (b : StatBody)
    (h : ∀ s ∈ db.stats, s.id ≠ id) :
    putStat now u id b db =
      ({ status := 403, body := .error "Editing window has passed (48 hours)." }, db) ∧
    deleteStat now u id db =
      ({ status := 403, body := .error "Deletion window has passed (48 hours)." }, db) := by
  have hc := canEditStat_of_not_mem db now u.id id h
  unfold putStat deleteStat
  simp [hc]

/-- C11 (the code at the failing input): the sample store has no stat 999, and
`PUT /stats/999` and `DELETE /stats/999` are both answered 403 with the message
of the 48-hour window, not 404: `canEditStat` is `false` for an unknown id and
is tested first, so that the 404 branch of the `PUT` handler is never
reached. -/
theorem c11_unknown_id_is_answered_403 :
    (∀ s ∈ sampleDb.stats, s.id ≠ 999) ∧
    putStat 0 ann 999 (plainBody 999 100 32400 36000) sampleDb =
      ({ status := 403, body := .error "Editing window has passed (48 hours)." }, sampleDb) ∧
    deleteStat 0 ann 999 sampleDb =
      ({ status := 403, body := .error "Deletion window has passed (48 hours)." }, sampleDb) :=
  ⟨by decide, put_delete_unknown_id sampleDb 0 ann 999 _ (by decide)⟩

/-! ## Payload validation on creation (C12) -/

theorem insertFileCreations_fail (u : ReqUser) (id : Nat) (rows : List PayloadRow) (db : Db)
    (h : ∃ r ∈ rows, r.checks = none) : (insertFileCreations u id rows db).1 = false := by
  induction rows generalizing db with
  | nil => obtain ⟨r, hr, _⟩ := h; cases hr
  | cons r rs ih =>
    unfold insertFileCreations
    cases hc : r.checks with
    | none => rfl
    | some c =>
      apply ih
      obtain ⟨x, hx, hxc⟩ := h
      rcases List.mem_cons.mp hx with rfl | hx'
      · rw [hc] at hxc; cases hxc
      · exact ⟨x, hx', hxc⟩

theorem insertAttachments_fail (u : ReqUser) (id : Nat) (rows : List PayloadRow) (db : Db)
    (h : ∃ r ∈ rows, r.checks = none) : (insertAttachments u id rows db).1 = false := by
  induction rows generalizing db with
  | nil => obtain ⟨r, hr, _⟩ := h; cases hr
  | cons r rs ih =>
    unfold insertAttachments
    cases hc : r.checks with
    | none => rfl
    | some c =>
      apply ih
      obtain ⟨x, hx, hxc⟩ := h
      rcases List.mem_cons.mp hx with rfl | hx'
      · rw [hc] at hxc; cases hxc
      · exact ⟨x, hx', hxc⟩

theorem insertRejects_fail (u : ReqUser) (id : Nat) (rows : List PayloadRow) (db : Db)
    (h : ∃ r ∈ rows, r.checks = none) : (insertRejects u id rows db).1 = false := by
  induction rows generalizing db with
  | nil => obtain ⟨r, hr, _⟩ := h; cases hr
  | cons r rs ih =>
    unfold insertRejects
    cases hc : r.checks with
    | none => rfl
    | some c =>
      apply ih
      obtain ⟨x, hx, hxc⟩ := h
      rcases List.mem_cons.mp hx with rfl | hx'
      · rw [hc] at hxc; cases hxc
      · exact ⟨x, hx', hxc⟩

theorem writeChildren_fail (now : Int) (u : ReqUser) (id date startTime endTime : Nat)
    (b : StatBody) (msg : String) (db : Db)
    (h : ∃ r ∈ b.fileCreationRows ++ b.attachmentsRows ++ b.rejectRows, r.checks = none) :
    (writeChildren now u id date startTime endTime b msg db).1.status = 500 := by
  obtain ⟨r, hr, hrc⟩ := h
  unfold writeChildren
  split
  · rfl
  · split
    · rfl
    · split
      · rfl
      · rename_i db1 heq1 _ db2 heq2 _ db3 heq3
        exfalso
        have e1 := congrArg Prod.fst heq1
        have e2 := congrArg Prod.fst heq2
        have e3 := congrArg Prod.fst heq3
        simp only [List.mem_append] at hr
        rcases hr with (hr | hr) | hr
        · rw [insertFileCreations_fail u id _ _ ⟨r, hr, hrc⟩] at e1; cases e1
        · rw [insertAttachments_fail u id _ _ ⟨r, hr, hrc⟩] at e2; cases e2
        · rw [insertRejects_fail u id _ _ ⟨r, hr, hrc⟩] at e3; cases e3

theorem postStat_invalid (now : Int) (u : ReqUser) (b : StatBody) (db : Db)
    (h : b.id = none ∨ b.id = some 0 ∨ b.date = none ∨ b.startTime = none ∨
      b.endTime = none ∨ b.mailOpening = .notObject) :
    postStat now u b db =
      ({ status := 400, body := .error "Timestamp and mailOpening required." }, db) := by
  unfold postStat
  split
  · rename_i id date startTime endTime hid hd hs he
    have h' : id = 0 ∨ b.mailOpening = .notObject := by
      rcases h with h | h | h | h | h | h
      · rw [hid] at h; cases h
      · rw [hid] at h; left; exact (Option.some.inj h)
      · rw [hd] at h; cases h
      · rw [hs] at h; cases h
      · rw [he] at h; cases h
      · right; exact h
    rw [if_pos h']
  · rfl

/-- C12 (as stated, refuted): a payload whose only child row lacks its `checks`
object, and a payload whose `mailOpening` is `null`, are not answered 400; both
requests end with 500, after the row of the stat has been written. -/
theorem c12_missing_checks_and_null_are_answered_500 :
    (postStat 0 ann noChecksBody sampleDb).1.status = 500 ∧
    (postStat 0 ann noChecksBody sampleDb).2.stats ≠ sampleDb.stats ∧
    (postStat 0 ann nullMailBody sampleDb).1.status = 500 ∧
    (postStat 0 ann nullMailBody sampleDb).2.stats ≠ sampleDb.stats := by
  decide

/-- C12 (amended): `POST /stats` with a missing (or zero) id, a missing date,
startTime or endTime, or a `mailOpening` whose type is not `object`, is
answered 400 and writes no row to any table. A child row is not validated:
when the payload passes this check with a `mailOpening` object, the window is
free and the id unused, a child row without `checks` ends the request with 500
and the row of the stat stays written. -/
theorem c12_validation_rejects_without_write (now : Int) (u : ReqUser) (b : StatBody)
    (db : Db) :
    ((b.id = none ∨ b.id = some 0 ∨ b.date = none ∨ b.startTime = none ∨ b.endTime = none ∨
        b.mailOpening = .notObject) →
      (postStat now u b db).1.status = 400 ∧ (postStat now u b db).2 = db) ∧
    (∀ (id date startTime endTime : Nat) (m : MailOpeningBody),
      b.id = some id → id ≠ 0 → b.date = some date → b.startTime = some startTime →
      b.endTime = some endTime → b.mailOpening = .obj m →
      hasOverlap db u.id date startTime endTime none = false →
      (∀ s ∈ db.stats, s.id ≠ id) →
      (∃ r ∈ b.fileCreationRows ++ b.attachmentsRows ++ b.rejectRows, r.checks = none) →
      (postStat now u b db).1.status = 500 ∧
      (postStat now u b db).2.stats = db.stats ++
        [{ id := id, user_id := u.id, date := date, start_time := startTime,
           end_time := endTime, created_at := now, updated_at := now }]) := by
  constructor
  · intro h
    rw [postStat_invalid now u b db h]
    exact ⟨rfl, rfl⟩
  · intro id date startTime endTime m hid hid0 hd hs he hm hov hfresh hrow
    have hdup : db.stats.any (fun s => s.id == id) = false := by
      rw [List.any_eq_false]
      intro s hs'
      simpa using hfresh s hs'
    rw [postStat_valid now u b db id date startTime endTime m hid hid0 hd hs he hm, hov, hdup]
    simp only [Bool.false_eq_true, if_false]
    exact ⟨writeChildren_fail now u id date startTime endTime b _ _ hrow,
      writeChildren_stats now u id date startTime endTime b _ _⟩

/-- C12 (witness): a body without id is answered 400 and the sample store is
left as it was. -/
theorem c12_validation_rejects_without_write_witness :
    ({ plainBody 10 200 32400 36000 with id := none } : StatBody).id = none ∧
    (postStat 0 ann { plainBody 10 200 32400 36000 with id := none } sampleDb).1.status = 400 ∧
    (postStat 0 ann { plainBody 10 200 32400 36000 with id := none } sampleDb).2 = sampleDb :=
  ⟨rfl,
    (c12_validation_rejects_without_write 0 ann
      { plainBody 10 200 32400 36000 with id := none } sampleDb).1 (Or.inl rfl)⟩

/-! ## Processed-mail totals (C15) -/

theorem tally_eq_countP (all : List PayloadRow) (k : Checks → Bool) :
    tally all k = all.countP fun r => k (checksOrRow r) := by
  unfold tally
  have h : ∀ (l : List PayloadRow) (n : Nat),
      l.foldl (fun acc r => acc + (if k (checksOrRow r) then 1 else 0)) n =
        n + l.countP fun r => k (checksOrRow r) := by
    intro l
    induction l with
    | nil => intro n; rfl
    | cons r rs ih =>
      intro n
      rw [List.foldl_cons, ih, List.countP_cons]
      cases k (checksOrRow r)
      · simp
      · simp
        omega
  rw [h]
  simp

/-- C15: for every payload, `computeProcessedTotals` returns
`file_creation_total`, `attachments_total` and `rejects_total` equal to the
number of rows of the respective section whose value is `> 0`,
`total_processed` equal to the sum of the three, and `natp_total`, `rtd_total`,
`coi_total` equal to the number of rows of the three sections whose flag is set
(read in `checks` when the row has that object, on the row itself
otherwise). -/
theorem c15_processed_totals (fileCreationRows attachmentsRows rejectRows : List PayloadRow)
    (tlCount : Int) :
    (computeProcessedTotals fileCreationRows attachmentsRows rejectRows tlCount).file_creation_total
      = fileCreationRows.countP (fun r => decide (0 < r.value)) ∧
    (computeProcessedTotals fileCreationRows attachmentsRows rejectRows tlCount).attachments_total
      = attachmentsRows.countP (fun r => decide (0 < r.value)) ∧
    (computeProcessedTotals fileCreationRows attachmentsRows rejectRows tlCount).rejects_total
      = rejectRows.countP (fun r => decide (0 < r.value)) ∧
    (computeProcessedTotals fileCreationRows attachmentsRows rejectRows tlCount).total_processed
      = fileCreationRows.countP (fun r => decide (0 < r.value)) +
        attachmentsRows.countP (fun r => decide (0 < r.value)) +
        rejectRows.countP (fun r => decide (0 < r.value)) ∧
    (computeProcessedTotals fileCreationRows attachmentsRows rejectRows tlCount).natp_total
      = (fileCreationRows ++ attachmentsRows ++ rejectRows).countP (fun r =>
          match r.checks with
          | some c => c.natp
          | none => r.flat.natp) ∧
    (computeProcessedTotals fileCreationRows attachmentsRows rejectRows tlCount).rtd_total
      = (fileCreationRows ++ attachmentsRows ++ rejectRows).countP (fun r =>
          match r.checks with
          | some c => c.rtd
          | none => r.flat.rtd) ∧
    (computeProcessedTotals fileCreationRows attachmentsRows rejectRows tlCount).coi_total
      = (fileCreationRows ++ attachmentsRows ++ rejectRows).countP (fun r =>
          match r.checks with
          | some c => c.coi
          | none => r.flat.coi) := by
  have hc : ∀ (k : Checks → Bool) (l : List PayloadRow),
      (l.countP fun r => k (checksOrRow r)) =
        l.countP fun r =>
          match r.checks with
          | some c => k c
          | none => k r.flat := by
    intro k l
    congr 1
    funext r
    unfold checksOrRow
    cases r.checks <;> rfl
  unfold computeProcessedTotals
  simp only [tally_eq_countP, hc, List.countP_eq_length_filter]
  refine ⟨?_, ?_, ?_, ?_, ?_, ?_, ?_⟩ <;> first | rfl | trivial

/-! ## File-creation buckets (C13) -/

theorem filter_partition4 {α : Type} (l : List α) (p1 p2 p3 p4 v : α → Bool)
    (h : ∀ r ∈ l, bit (p1 r) + bit (p2 r) + bit (p3 r) + bit (p4 r) = bit (v r)) :
    (l.filter p1).length + (l.filter p2).length + (l.filter p3).length +
      (l.filter p4).length = (l.filter v).length := by
  induction l with
  | nil => rfl
  | cons r rs ih =>
    have hr := h r (List.mem_cons_self r rs)
    have ih' := ih (fun x hx => h x (List.mem_cons_of_mem r hx))
    simp only [List.filter_cons]
    cases h1 : p1 r <;> cases h2 : p2 r <;> cases h3 : p3 r <;> cases h4 : p4 r <;>
      cases hv : v r <;> simp [h1, h2, h3, h4, hv, bit] at hr ⊢ <;> omega

theorem fc_bucket_indicator (category urgency : Str) (valid : Bool)
    (hc : category = "individual".toList ∨ category = "family".toList)
    (hu : urgency = "regular".toList ∨ urgency = "urgent".toList) :
    bit (category == "individual".toList && urgency == "regular".toList && valid) +
      bit (category == "individual".toList && urgency == "urgent".toList && valid) +
      bit (category == "family".toList && urgency == "regular".toList && valid) +
      bit (category == "family".toList && urgency == "urgent".toList && valid) = bit valid := by
  rcases hc with rfl | rfl <;> rcases hu with rfl | rfl <;> cases valid <;> decide

theorem fcCounts_sum (db : Db) (statId : Nat) (hdom : FcDomain db) :
    fcCount db statId "individual".toList "regular".toList +
      fcCount db statId "individual".toList "urgent".toList +
      fcCount db statId "family".toList "regular".toList +
      fcCount db statId "family".toList "urgent".toList =
    (db.file_creations.filter fun r => r.stat_id == statId && decide (0 < r.value)).length := by
  unfold fcCount
  apply filter_partition4
  intro r hr
  obtain ⟨hc, hu⟩ := hdom r hr
  have := fc_bucket_indicator r.category r.urgency (decide (0 < r.value)) hc hu
  cases hs : r.stat_id == statId
  · simp [bit]
  · simpa [Bool.and_assoc] using this

theorem pdfFcCounts_sum (db : Db) (statId : Nat) (hdom : FcDomain db) :
    pdfFcCount (fetchFcRows db statId) "individual".toList "regular".toList +
      pdfFcCount (fetchFcRows db statId) "individual".toList "urgent".toList +
      pdfFcCount (fetchFcRows db statId) "family".toList "regular".toList +
      pdfFcCount (fetchFcRows db statId) "family".toList "urgent".toList =
    (db.file_creations.filter fun r => r.stat_id == statId && decide (0 < r.value)).length := by
  have hv : (db.file_creations.filter fun r => r.stat_id == statId && decide (0 < r.value)) =
      (db.file_creations.filter fun r => r.stat_id == statId).filter
        fun r => decide (0 < r.value) := by
    rw [List.filter_filter]
    congr 1
    funext r
    exact Bool.and_comm _ _
  rw [hv]
  unfold pdfFcCount fetchFcRows
  simp only [List.filter_map, List.length_map]
  apply filter_partition4
  intro r hr
  obtain ⟨hc, hu⟩ := hdom r (List.mem_of_mem_filter hr)
  have := fc_bucket_indicator r.category r.urgency (decide (0 < r.value)) hc hu
  simpa [fetchedFc, isValidRow, Function.comp] using this

theorem fcDomain_flagDb : FcDomain flagDb := by
  unfold FcDomain
  decide

/-- C13: in a store whose file-creation rows have a category among
`individual`, `family` and an urgency among `regular`, `urgent`, for every stat
the four bucket counts of the aggregate (`counts.fileCreation`) sum to the
number of the stat's file-creation rows with `value > 0`, and so do the four
bucket counts of the single-stat PDF, whose "File Creation (Total)" is their
sum. -/
theorem c13_bucket_counts_sum_to_valid_rows (db : Db) (statId : Nat) (hdom : FcDomain db) :
    (countsOf db statId).fcIndividualRegular + (countsOf db statId).fcIndividualUrgent +
      (countsOf db statId).fcFamilyRegular + (countsOf db statId).fcFamilyUrgent =
      (db.file_creations.filter fun r => r.stat_id == statId && decide (0 < r.value)).length ∧
    ∀ full, fetchFullStat db statId = some full →
      (pdfTotals full).fcIndReg + (pdfTotals full).fcIndUrg + (pdfTotals full).fcFamReg +
        (pdfTotals full).fcFamUrg =
        (db.file_creations.filter fun r => r.stat_id == statId && decide (0 < r.value)).length ∧
      (pdfTotals full).fcTotal =
        (db.file_creations.filter fun r => r.stat_id == statId && decide (0 < r.value)).length := by
  refine ⟨fcCounts_sum db statId hdom, ?_⟩
  intro full hfull
  have hrows : full.fileCreationRows = fetchFcRows db statId := by
    unfold fetchFullStat at hfull
    split at hfull
    · cases hfull
    · simp only [Option.some.injEq] at hfull
      rw [← hfull]
  have h := pdfFcCounts_sum db statId hdom
  rw [← hrows] at h
  exact ⟨h, h⟩

/-- C13 (witness): stat 1 of the sample store with child rows has two
file-creation rows of positive value, one individual/regular and one
family/regular. -/
theorem c13_bucket_counts_sum_to_valid_rows_witness :
    FcDomain flagDb ∧
    (countsOf flagDb 1).fcIndividualRegular + (countsOf flagDb 1).fcIndividualUrgent +
      (countsOf flagDb 1).fcFamilyRegular + (countsOf flagDb 1).fcFamilyUrgent = 2 :=
  ⟨fcDomain_flagDb,
    (c13_bucket_counts_sum_to_valid_rows flagDb 1 fcDomain_flagDb).1.trans (by decide)⟩

/-! ## Checklist totals (C14) -/

theorem flag_sum_eq_count {α : Type} (l : List α) (flag : α → Nat)
    (h : ∀ r ∈ l, flag r = 0 ∨ flag r = 1) :
    (l.map flag).sum = (l.filter fun r => flag r == 1).length := by
  induction l with
  | nil => rfl
  | cons r rs ih =>
    have ih' := ih (fun x hx => h x (List.mem_cons_of_mem r hx))
    rcases h r (List.mem_cons_self r rs) with h0 | h1
    · simp [List.filter_cons, h0, ih']
    · simp [List.filter_cons, h1, ih']
      omega

theorem pdfTally_fetched (db : Db) (statId : Nat) (flat : StatDetailRow → FlagVal)
    (nested : Checks → Bool)
    (hflat : ∀ r ∈ fetchFcRows db statId ++ fetchAttRows db statId ++ fetchRejRows db statId,
      ∃ n, flat r = .num n) :
    pdfTally (fetchFcRows db statId ++ fetchAttRows db statId ++ fetchRejRows db statId)
      flat nested = 0 := by
  unfold pdfTally
  rw [List.length_eq_zero, List.filter_eq_nil_iff]
  intro r hr
  obtain ⟨n, hn⟩ := hflat r hr
  have hchecks : r.checks = none := by
    simp only [List.mem_append, fetchFcRows, fetchAttRows, fetchRejRows, List.mem_map] at hr
    rcases hr with (⟨x, _, rfl⟩ | ⟨x, _, rfl⟩) | ⟨x, _, rfl⟩ <;> rfl
  simp [hn, hchecks, FlagVal.strictTrue]

/-- C14 (the code at the failing input): in the sample store with child rows,
the flag `natp` of stat 1 is set (`1`) on one file-creation row and on the
reject row. The aggregate reports `counts.checklist.NATP = 2`, the number of
rows with the flag set, but the single-stat PDF reports the checklist totals
`0, 0, 0, 0`: its `tally` tests `r[k] === true`, which the numbers `0` and `1`
fetched from the store never satisfy. -/
theorem c14_pdf_checklist_totals_are_zero :
    (countsOf flagDb 1).checklist = { NATP := 2, RTD := 1, COI := 1, NONE := 1 } ∧
    (fetchFullStat flagDb 1).map (fun full =>
      ((pdfTotals full).chkNATP, (pdfTotals full).chkRTD, (pdfTotals full).chkCOI,
        (pdfTotals full).chkNONE)) = some (0, 0, 0, 0) := by
  decide

/-! ## Deleting a stat (C17) -/

theorem deleteStatCascading_ok (now : Int) (u : ReqUser) (id : Nat) (db : Db)
    (h : (deleteStatCascading now u id db).1.status = 200) :
    (deleteStatCascading now u id db).2 =
      cascadeDelete id
        { db with stats := db.stats.filter fun s => !(s.id == id && s.user_id == u.id) } := by
  unfold deleteStatCascading deleteStat at h ⊢
  by_cases hc : canEditStat db now u.id id = true
  · simp [hc]
  · simp [hc] at h

/-- C17: after a successful `DELETE /stats/:id`, executed by a store whose
constraints cascade as the spec describes, no row of `mail_openings`,
`file_creations`, `attachments`, `rejects` or `processed_mail` refers to the
stat, no row of `reject_reasons` has a parent reject that belonged to the
stat, and the row of the stat is gone. -/
theorem c17_delete_leaves_no_child_row (now : Int) (u : ReqUser) (id : Nat) (db : Db)
    (h : (deleteStatCascading now u id db).1.status = 200) :
    (∀ m ∈ (deleteStatCascading now u id db).2.mail_openings, m.stat_id ≠ id) ∧
    (∀ r ∈ (deleteStatCascading now u id db).2.file_creations, r.stat_id ≠ id) ∧
    (∀ r ∈ (deleteStatCascading now u id db).2.attachments, r.stat_id ≠ id) ∧
    (∀ r ∈ (deleteStatCascading now u id db).2.rejects, r.stat_id ≠ id) ∧
    (∀ p ∈ (deleteStatCascading now u id db).2.processed_mail, p.stat_id ≠ id) ∧
    (∀ rr ∈ (deleteStatCascading now u id db).2.reject_reasons,
      ∀ r ∈ db.rejects, r.id = rr.reject_id → r.stat_id ≠ id) ∧
    (∀ s ∈ (deleteStatCascading now u id db).2.stats, ¬ (s.id = id ∧ s.user_id = u.id)) := by
  rw [deleteStatCascading_ok now u id db h]
  unfold cascadeDelete
  refine ⟨?_, ?_, ?_, ?_, ?_, ?_, ?_⟩
  · intro m hm
    simpa using (List.mem_filter.mp hm).2
  · intro r hr
    simpa using (List.mem_filter.mp hr).2
  · intro r hr
    simpa using (List.mem_filter.mp hr).2
  · intro r hr
    simpa using (List.mem_filter.mp hr).2
  · intro p hp
    simpa using (List.mem_filter.mp hp).2
  · intro rr hrr r hr hid hst
    have := (List.mem_filter.mp hrr).2
    simp only [Bool.not_eq_true', List.any_eq_false, Bool.and_eq_true, beq_iff_eq,
      not_and] at this
    exact this r hr hid hst
  · intro s hs hcon
    have := (List.mem_filter.mp hs).2
    simp [hcon.1, hcon.2] at this

/-- C17 (witness): user 7 deletes stat 1 of the sample store with child rows;
no child row is left. -/
theorem c17_delete_leaves_no_child_row_witness :
    (deleteStatCascading 0 ann 1 flagDb).1.status = 200 ∧
    (deleteStatCascading 0 ann 1 flagDb).2.file_creations = [] ∧
    (∀ r ∈ (deleteStatCascading 0 ann 1 flagDb).2.rejects, r.stat_id ≠ 1) :=
  ⟨by decide, by decide,
    (c17_delete_leaves_no_child_row 0 ann 1 flagDb (by decide)).2.2.2.1⟩

/-! ## Sending to the team leader (C20) -/

theorem putTeamLeader_user_team_leader (u : ReqUser) (leaderUserId : Option Nat) (db : Db) :
    (putTeamLeader u leaderUserId db).2.user_team_leader = db.user_team_leader := by
  unfold putTeamLeader
  repeat' split
  all_goals rfl

/-- C20 (the code at the failing input): in the sample store without
`user_team_leader` rows, user 7 designates user 8 with `PUT /users/team-leader`,
which succeeds and sets `users.team_leader_user_id`; `POST /stats/1/send` by
user 7 then still fails with "No Team Leader configured for this user.",
because `getTeamLeaderFor` reads the table `user_team_leader`, which
`PUT /users/team-leader` does not write. -/
theorem c20_designated_leader_is_not_resolved :
    (putTeamLeader ann (some 8) soloDb).1.status = 200 ∧
    ((putTeamLeader ann (some 8) soloDb).2.users.find? fun x => x.id == 7).map
      (fun x => x.team_leader_user_id) = some (some 8) ∧
    sendStat ann 1 (putTeamLeader ann (some 8) soloDb).2 =
      .error 404 "No Team Leader configured for this user." := by
  decide

/-! ## The name splitter of the exports -/

theorem splitWsFrom_ne_nil (b : Bool) (l : Str) : splitWsFrom b l ≠ [] := by
  cases l with
  | nil => simp [splitWsFrom]
  | cons c cs =>
    unfold splitWsFrom
    split
    · split
      · exact splitWsFrom_ne_nil true cs
      · simp
    · split <;> simp

theorem splitWsFrom_nonWs (b : Bool) (c : Char) (cs : Str) (hc : isWhiteSpace c = false) :
    ∃ t ts, splitWsFrom false cs = t :: ts ∧ splitWsFrom b (c :: cs) = (c :: t) :: ts := by
  cases h : splitWsFrom false cs with
  | nil => exact absurd h (splitWsFrom_ne_nil false cs)
  | cons t ts =>
    refine ⟨t, ts, rfl, ?_⟩
    rw [splitWsFrom]
    simp [hc, h]

theorem splitWsFrom_true_filter (l : Str) :
    (splitWsFrom true l).filter (fun t => !t.isEmpty) =
      (splitWsFrom false l).filter (fun t => !t.isEmpty) := by
  cases l with
  | nil => rfl
  | cons c cs =>
    cases hc : isWhiteSpace c with
    | true =>
      rw [splitWsFrom, splitWsFrom]
      simp [hc]
    | false =>
      obtain ⟨t, ts, _, h1⟩ := splitWsFrom_nonWs true c cs hc
      obtain ⟨t', ts', h0, h2⟩ := splitWsFrom_nonWs false c cs hc
      rw [h1, h2]
      simp_all

theorem splitWsFrom_splitOnP (l : Str) :
    ∃ h T T', splitWsFrom false l = h :: T ∧ List.splitOnP isWhiteSpace l = h :: T' ∧
      T.filter (fun t => !t.isEmpty) = T'.filter (fun t => !t.isEmpty) := by
  induction l with
  | nil => exact ⟨[], [], [], rfl, by simp, rfl⟩
  | cons c cs ih =>
    obtain ⟨h, T, T', h1, h2, h3⟩ := ih
    cases hc : isWhiteSpace c with
    | true =>
      refine ⟨[], splitWsFrom true cs, List.splitOnP isWhiteSpace cs, ?_, ?_, ?_⟩
      · rw [splitWsFrom]; simp [hc]
      · rw [List.splitOnP_cons]; simp [hc]
      · rw [splitWsFrom_true_filter, h1, h2]
        simp only [List.filter_cons, h3]
    | false =>
      obtain ⟨t, ts, h0, h4⟩ := splitWsFrom_nonWs false c cs hc
      rw [h1] at h0
      obtain ⟨rfl, rfl⟩ := List.cons.inj h0
      refine ⟨c :: h, T, T', h4, ?_, h3⟩
      rw [List.splitOnP_cons, h2]
      simp [hc]

theorem tokens_eq_filter (l : Str) :
    tokens l = (splitWsFrom false l).filter (fun t => !t.isEmpty) := by
  obtain ⟨h, T, T', h1, h2, h3⟩ := splitWsFrom_splitOnP l
  unfold tokens
  rw [h1, h2]
  simp only [List.filter_cons, h3]

theorem getLast?_cons_of_ne_nil {α : Type} (a : α) (l : List α) (h : l ≠ []) :
    (a :: l).getLast? = l.getLast? := by
  cases l with
  | nil => exact absurd rfl h
  | cons b l => simp [List.getLast?_cons_cons]

theorem splitWsFrom_pieces (l : Str) (hl : l ≠ [])
    (hlast : ∀ x, l.getLast? = some x → isWhiteSpace x = false) :
    (∀ t ∈ splitWsFrom true l, t ≠ []) ∧
    ((∀ x, l.head? = some x → isWhiteSpace x = false) → ∀ t ∈ splitWsFrom false l, t ≠ []) := by
  induction l with
  | nil => exact absurd rfl hl
  | cons c cs ih =>
    by_cases hcs : cs = []
    · subst hcs
      have hc : isWhiteSpace c = false := hlast c rfl
      constructor
      · intro t ht
        rw [splitWsFrom] at ht
        simp [hc, splitWsFrom] at ht
        simp [ht]
      · intro _ t ht
        rw [splitWsFrom] at ht
        simp [hc, splitWsFrom] at ht
        simp [ht]
    · have hlast' : ∀ x, cs.getLast? = some x → isWhiteSpace x = false := by
        intro x hx
        apply hlast
        rw [getLast?_cons_of_ne_nil c cs hcs]
        exact hx
      obtain ⟨ihT, ihF⟩ := ih hcs hlast'
      cases hc : isWhiteSpace c with
      | true =>
        constructor
        · intro t ht
          rw [splitWsFrom] at ht
          simp only [hc, if_true] at ht
          exact ihT t ht
        · intro hhead
          have := hhead c rfl
          rw [hc] at this
          cases this
      | false =>
        have tailOk : ∀ t ts, splitWsFrom false cs = t :: ts → ∀ x ∈ ts, x ≠ [] := by
          intro t ts hts x hx
          cases cs with
          | nil => exact absurd rfl hcs
          | cons d ds =>
            cases hd : isWhiteSpace d with
            | true =>
              rw [splitWsFrom] at hts
              simp only [hd, if_true, Bool.false_eq_true, if_false] at hts
              obtain ⟨_, rfl⟩ := List.cons.inj hts
              apply ihT
              rw [splitWsFrom]
              simp only [hd, if_true]
              exact hx
            | false =>
              apply ihF
              · intro y hy
                simp only [List.head?_cons, Option.some.injEq] at hy
                rw [← hy]; exact hd
              · rw [hts]
                exact List.mem_cons_of_mem t hx
        constructor
        · intro t ht
          obtain ⟨t0, ts, h0, h1⟩ := splitWsFrom_nonWs true c cs hc
          rw [h1] at ht
          rcases List.mem_cons.mp ht with rfl | ht'
          · simp
          · exact tailOk t0 ts h0 t ht'
        · intro _ t ht
          obtain ⟨t0, ts, h0, h1⟩ := splitWsFrom_nonWs false c cs hc
          rw [h1] at ht
          rcases List.mem_cons.mp ht with rfl | ht'
          · simp
          · exact tailOk t0 ts h0 t ht'

theorem getLast?_dropWhile {α : Type} (p : α → Bool) (l : List α) :
    (l.dropWhile p).getLast? = none ∨ (l.dropWhile p).getLast? = l.getLast? := by
  induction l with
  | nil => exact Or.inl rfl
  | cons a l ih =>
    cases hp : p a with
    | true =>
      simp only [List.dropWhile_cons, hp, if_true]
      rcases ih with h | h
      · exact Or.inl h
      · by_cases hl : l = []
        · subst hl
          exact Or.inl rfl
        · right
          rw [getLast?_cons_of_ne_nil a l hl]
          exact h
    | false =>
      right
      simp [List.dropWhile_cons, hp]

theorem trim_head (n : Str) : ∀ x, (trim n).head? = some x → isWhiteSpace x = false := by
  intro x hx
  unfold trim at hx
  rw [List.head?_reverse] at hx
  rcases getLast?_dropWhile isWhiteSpace (n.dropWhile isWhiteSpace).reverse with h | h
  · rw [h] at hx; cases hx
  · rw [h, List.getLast?_reverse] at hx
    have := List.head?_dropWhile_not isWhiteSpace n
    rw [hx] at this
    simpa using this

theorem trim_last (n : Str) : ∀ x, (trim n).getLast? = some x → isWhiteSpace x = false := by
  intro x hx
  unfold trim at hx
  rw [List.getLast?_reverse] at hx
  have := List.head?_dropWhile_not isWhiteSpace (n.dropWhile isWhiteSpace).reverse
  rw [hx] at this
  simpa using this

theorem splitWs_trim (n : Str) :
    (splitWsFrom false (trim n)).headD [] = (tokens (trim n)).headD [] ∧
    (splitWsFrom false (trim n)).tail = (tokens (trim n)).tail := by
  by_cases ht : trim n = []
  · rw [ht]
    exact ⟨rfl, rfl⟩
  · have hp := (splitWsFrom_pieces (trim n) ht (trim_last n)).2 (trim_head n)
    have : tokens (trim n) = splitWsFrom false (trim n) := by
      rw [tokens_eq_filter, List.filter_eq_self]
      intro t htm
      have := hp t htm
      cases t with
      | nil => exact absurd rfl this
      | cons a t => rfl
    rw [this]
    exact ⟨rfl, rfl⟩

theorem dropWhile_eq_self_of_head {α : Type} (p : α → Bool) (l : List α)
    (h : ∀ x, l.head? = some x → p x = false) : l.dropWhile p = l := by
  cases l with
  | nil => rfl
  | cons a l => simp [List.dropWhile_cons, h a rfl]

theorem trim_eq_self (x : Str) (hh : ∀ c, x.head? = some c → isWhiteSpace c = false)
    (hl : ∀ c, x.getLast? = some c → isWhiteSpace c = false) : trim x = x := by
  unfold trim
  rw [dropWhile_eq_self_of_head isWhiteSpace x hh,
    dropWhile_eq_self_of_head isWhiteSpace x.reverse (by rw [List.head?_reverse]; exact hl),
    List.reverse_reverse]

theorem head?_noWs (f : Str) (hf : ∀ c ∈ f, isWhiteSpace c = false) :
    ∀ c, f.head? = some c → isWhiteSpace c = false :=
  fun c hc => hf c (List.mem_of_mem_head? hc)

theorem getLast?_noWs (f : Str) (hf : ∀ c ∈ f, isWhiteSpace c = false) :
    ∀ c, f.getLast? = some c → isWhiteSpace c = false :=
  fun c hc => hf c (List.mem_of_getLast?_eq_some hc)

theorem splitWsFrom_noWs (b : Bool) (f : Str) (hf : ∀ c ∈ f, isWhiteSpace c = false) :
    splitWsFrom b f = [f] := by
  induction f generalizing b with
  | nil => rfl
  | cons c cs ih =>
    have hc := hf c (List.mem_cons_self c cs)
    obtain ⟨t, ts, h0, h1⟩ := splitWsFrom_nonWs b c cs hc
    rw [ih false (fun x hx => hf x (List.mem_cons_of_mem c hx))] at h0
    obtain ⟨rfl, rfl⟩ := List.cons.inj h0
    exact h1

theorem splitWsFrom_two (f g : Str) (hf : ∀ c ∈ f, isWhiteSpace c = false)
    (hg : ∀ c ∈ g, isWhiteSpace c = false) :
    splitWsFrom false (f ++ ' ' :: g) = [f, g] := by
  induction f with
  | nil =>
    rw [List.nil_append, splitWsFrom]
    have : isWhiteSpace ' ' = true := by decide
    simp [this, splitWsFrom_noWs true g hg]
  | cons c cs ih =>
    have hc := hf c (List.mem_cons_self c cs)
    obtain ⟨t, ts, h0, h1⟩ := splitWsFrom_nonWs false c (cs ++ ' ' :: g) hc
    rw [ih (fun x hx => hf x (List.mem_cons_of_mem c hx))] at h0
    obtain ⟨rfl, rfl⟩ := List.cons.inj h0
    exact h1

theorem splitName_fullName (f g : Str) (hf : ∀ c ∈ f, isWhiteSpace c = false)
    (hg : ∀ c ∈ g, isWhiteSpace c = false) (hne : f ≠ []) :
    splitName (fullName f g) = (f, g) := by
  unfold splitName fullName
  by_cases hgn : g = []
  · subst hgn
    have h1 : trim (f ++ [' ']) = f := by
      unfold trim
      have hws : isWhiteSpace ' ' = true := by decide
      rw [dropWhile_eq_self_of_head isWhiteSpace (f ++ [' ']) (by
        intro c hc
        cases f with
        | nil => exact absurd rfl hne
        | cons a f => exact hf c (by simp at hc; simp [hc]))]
      rw [List.reverse_append, List.reverse_singleton, List.singleton_append,
        List.dropWhile_cons, hws, if_pos rfl,
        dropWhile_eq_self_of_head isWhiteSpace f.reverse (by
          rw [List.head?_reverse]; exact getLast?_noWs f hf),
        List.reverse_reverse]
    rw [h1, trim_eq_self f (head?_noWs f hf) (getLast?_noWs f hf),
      splitWsFrom_noWs false f hf]
    rfl
  · have h1 : trim (f ++ ' ' :: g) = f ++ ' ' :: g := by
      apply trim_eq_self
      · intro c hc
        cases f with
        | nil => exact absurd rfl hne
        | cons a f => exact hf c (by simp at hc; simp [hc])
      · intro c hc
        rw [List.getLast?_append, getLast?_cons_of_ne_nil ' ' g hgn] at hc
        cases hgl : g.getLast? with
        | none =>
          rw [List.getLast?_eq_none_iff] at hgl
          exact absurd hgl hgn
        | some d =>
          rw [hgl] at hc
          simp only [Option.or_some, Option.some.injEq] at hc
          rw [← hc]
          exact getLast?_noWs g hg d hgl
    rw [h1, h1, splitWsFrom_two f g hf hg]
    simp [joinSpace, List.intercalate]

/-! ## Detail expansion (C18) -/

theorem natCompare_ne_gt (a b : Nat) : compare a b ≠ .gt ↔ a ≤ b := by
  rw [Ne, compare_gt_iff_gt]
  omega

theorem cmpLaws_nat : CmpLaws (fun a b : Nat => compare a b) := by
  constructor
  · intro a b
    show compare b a = (compare a b).swap
    rcases Nat.lt_trichotomy a b with h | h | h
    · rw [compare_lt_iff_lt.mpr h, compare_gt_iff_gt.mpr h]; rfl
    · subst h; rw [compare_eq_iff_eq.mpr rfl]; rfl
    · rw [compare_gt_iff_gt.mpr h, compare_lt_iff_lt.mpr h]; rfl
  · intro a b c h1 h2
    have h1' : compare a b ≠ .gt := h1
    have h2' : compare b c ≠ .gt := h2
    show compare a c ≠ .gt
    rw [natCompare_ne_gt] at *
    omega

theorem cmpLaws_optNat : CmpLaws optNatCmp := by
  constructor
  · intro a b
    cases a <;> cases b <;> first | rfl | exact cmpLaws_nat.1 _ _
  · intro a b c h1 h2
    cases a <;> cases b <;> cases c <;>
      first
      | exact cmpLaws_nat.2 _ _ _ h1 h2
      | (simp [optNatCmp] at h1 h2 ⊢)

theorem strCmp_swap (a b : Str) : strCmp b a = (strCmp a b).swap := by
  induction a generalizing b with
  | nil => cases b <;> rfl
  | cons x xs ih =>
    cases b with
    | nil => rfl
    | cons y ys =>
      simp only [strCmp]
      rcases Nat.lt_trichotomy x.toNat y.toNat with h | h | h
      · simp [h, Nat.lt_asymm h, Ordering.swap]
      · simp [h, ih]
      · simp [h, Nat.lt_asymm h, Ordering.swap]

theorem strCmp_cons_ne_gt (x y : Char) (xs ys : Str) :
    strCmp (x :: xs) (y :: ys) ≠ .gt ↔
      x.toNat < y.toNat ∨ (x.toNat = y.toNat ∧ strCmp xs ys ≠ .gt) := by
  simp only [strCmp]
  rcases Nat.lt_trichotomy x.toNat y.toNat with h | h | h
  · simp [h]
  · simp [h]
  · simp [h, Nat.lt_asymm h]; omega

theorem strCmp_trans (a b c : Str) :
    strCmp a b ≠ .gt → strCmp b c ≠ .gt → strCmp a c ≠ .gt := by
  induction a generalizing b c with
  | nil => cases c <;> simp [strCmp]
  | cons x xs ih =>
    cases b with
    | nil => simp [strCmp]
    | cons y ys =>
      cases c with
      | nil => simp [strCmp]
      | cons z zs =>
        rw [strCmp_cons_ne_gt, strCmp_cons_ne_gt, strCmp_cons_ne_gt]
        rintro (h1 | ⟨h1, h1'⟩) (h2 | ⟨h2, h2'⟩)
        · left; omega
        · left; omega
        · left; omega
        · right; exact ⟨by omega, ih ys zs h1' h2'⟩

theorem cmpLaws_str : CmpLaws strCmp := ⟨strCmp_swap, strCmp_trans⟩

theorem CmpLaws.thenCmp {α : Type} {c1 c2 : α → α → Ordering} (h1 : CmpLaws c1)
    (h2 : CmpLaws c2) : CmpLaws (fun a b => (c1 a b).then (c2 a b)) := by
  constructor
  · intro a b
    show (c1 b a).then (c2 b a) = ((c1 a b).then (c2 a b)).swap
    rw [h1.1 a b, h2.1 a b]
    cases c1 a b <;> cases c2 a b <;> rfl
  · intro a b c hab hbc
    have s1 := h1.1 a b
    have s2 := h1.1 b c
    have s3 := h1.1 a c
    have t1 := h1.2 a b c
    have t2 := h1.2 b c a
    have t3 := h1.2 c a b
    have t4 := h1.2 c b a
    have u := h2.2 a b c
    show (c1 a c).then (c2 a c) ≠ .gt
    revert hab hbc
    show (c1 a b).then (c2 a b) ≠ .gt → (c1 b c).then (c2 b c) ≠ .gt → _
    rw [s1, s2, s3] at *
    cases hab' : c1 a b <;> cases hbc' : c1 b c <;> cases hac' : c1 a c <;>
      simp_all [Ordering.then, Ordering.swap]

theorem CmpLaws.comap {α β : Type} {cmp : α → α → Ordering} (h : CmpLaws cmp) (f : β → α) :
    CmpLaws (fun a b => cmp (f a) (f b)) :=
  ⟨fun a b => h.1 (f a) (f b), fun a b c => h.2 (f a) (f b) (f c)⟩

theorem CmpLaws.total {α : Type} {cmp : α → α → Ordering} (h : CmpLaws cmp) (a b : α) :
    cmp a b ≠ .gt ∨ cmp b a ≠ .gt := by
  have := h.1 a b
  cases hab : cmp a b
  · exact Or.inl (by simp)
  · exact Or.inl (by simp)
  · right
    rw [this, hab]
    simp [Ordering.swap]

theorem cmpLaws_fc : CmpLaws (fun a b : FileCreationRow =>
    (compare a.stat_id b.stat_id).then ((strCmp a.category b.category).then
      ((strCmp a.urgency b.urgency).then ((optNatCmp a.group_index b.group_index).then
        (compare a.row_index b.row_index))))) :=
  (cmpLaws_nat.comap fun r : FileCreationRow => r.stat_id).thenCmp
    ((cmpLaws_str.comap fun r : FileCreationRow => r.category).thenCmp
      ((cmpLaws_str.comap fun r : FileCreationRow => r.urgency).thenCmp
        ((cmpLaws_optNat.comap fun r : FileCreationRow => r.group_index).thenCmp
          (cmpLaws_nat.comap fun r : FileCreationRow => r.row_index))))

theorem cmpLaws_att : CmpLaws (fun a b : AttachmentRow =>
    (compare a.stat_id b.stat_id).then ((strCmp a.urgency b.urgency).then
      (compare a.row_index b.row_index))) :=
  (cmpLaws_nat.comap fun r : AttachmentRow => r.stat_id).thenCmp
    ((cmpLaws_str.comap fun r : AttachmentRow => r.urgency).thenCmp
      (cmpLaws_nat.comap fun r : AttachmentRow => r.row_index))

theorem cmpLaws_rej : CmpLaws (fun a b : RejectRow =>
    (compare a.stat_id b.stat_id).then (compare a.row_index b.row_index)) :=
  (cmpLaws_nat.comap fun r : RejectRow => r.stat_id).thenCmp
    (cmpLaws_nat.comap fun r : RejectRow => r.row_index)

theorem cmpLaws_reason : CmpLaws (fun a b : RejectReasonRow =>
    (compare a.reject_id b.reject_id).then (compare a.id b.id)) :=
  (cmpLaws_nat.comap fun r : RejectReasonRow => r.reject_id).thenCmp
    (cmpLaws_nat.comap fun r : RejectReasonRow => r.id)

instance : IsTotal FileCreationRow fcOrder := ⟨fun a b => cmpLaws_fc.total a b⟩

instance : IsTrans FileCreationRow fcOrder := ⟨fun a b c => cmpLaws_fc.2 a b c⟩

instance : IsTotal AttachmentRow attOrder := ⟨fun a b => cmpLaws_att.total a b⟩

instance : IsTrans AttachmentRow attOrder := ⟨fun a b c => cmpLaws_att.2 a b c⟩

instance : IsTotal RejectRow rejOrder := ⟨fun a b => cmpLaws_rej.total a b⟩

instance : IsTrans RejectRow rejOrder := ⟨fun a b c => cmpLaws_rej.2 a b c⟩

instance : IsTotal RejectReasonRow reasonOrder := ⟨fun a b => cmpLaws_reason.total a b⟩

instance : IsTrans RejectReasonRow reasonOrder := ⟨fun a b c => cmpLaws_reason.2 a b c⟩

theorem orderedInsert_of_head {α : Type} (r : α → α → Prop) [DecidableRel r] (a : α)
    (m : List α) (h : ∀ c, m.head? = some c → r a c) : m.orderedInsert r a = a :: m := by
  cases m with
  | nil => rfl
  | cons c cs => rw [List.orderedInsert, if_pos (h c rfl)]

theorem filter_orderedInsert {α : Type} (r : α → α → Prop) [DecidableRel r] [IsTrans α r]
    (p : α → Bool) (a : α) (l : List α) (hl : l.Sorted r) :
    (l.orderedInsert r a).filter p =
      if p a then (l.filter p).orderedInsert r a else l.filter p := by
  induction l with
  | nil => cases hp : p a <;> simp [hp]
  | cons b l ih =>
    have hl' : l.Sorted r := hl.of_cons
    have hb : ∀ c ∈ l, r b c := fun c hc => List.rel_of_sorted_cons hl c hc
    by_cases hab : r a b
    · rw [List.orderedInsert, if_pos hab]
      cases hp : p a with
      | false => simp [List.filter_cons, hp]
      | true =>
        rw [if_pos rfl, orderedInsert_of_head r a ((b :: l).filter p), List.filter_cons, hp,
          if_pos rfl]
        intro c hc
        have hc' : c ∈ b :: l := List.mem_of_mem_filter (List.mem_of_mem_head? hc)
        rcases List.mem_cons.mp hc' with rfl | hcl
        · exact hab
        · exact IsTrans.trans a b c hab (hb c hcl)
    · rw [List.orderedInsert, if_neg hab]
      simp only [List.filter_cons]
      rw [ih hl']
      cases hp : p a <;> cases hq : p b <;> simp [List.orderedInsert, hab]

theorem filter_insertionSort {α : Type} (r : α → α → Prop) [DecidableRel r] [IsTrans α r]
    [IsTotal α r] (p : α → Bool) (l : List α) :
    (l.insertionSort r).filter p = (l.filter p).insertionSort r := by
  induction l with
  | nil => rfl
  | cons a l ih =>
    rw [List.insertionSort, filter_orderedInsert r p a _ (List.sorted_insertionSort r l), ih,
      List.filter_cons]
    cases p a <;> simp

theorem orderedInsert_congr {α : Type} (r r' : α → α → Prop) [DecidableRel r]
    [DecidableRel r'] (a : α) (l : List α) (h : ∀ b ∈ l, (r a b ↔ r' a b)) :
    l.orderedInsert r a = l.orderedInsert r' a := by
  induction l with
  | nil => rfl
  | cons b l ih =>
    have hb := h b (List.mem_cons_self b l)
    have ih' := ih (fun c hc => h c (List.mem_cons_of_mem b hc))
    by_cases hab : r a b
    · rw [List.orderedInsert, List.orderedInsert, if_pos hab, if_pos (hb.mp hab)]
    · rw [List.orderedInsert, List.orderedInsert, if_neg hab,
        if_neg (fun h' => hab (hb.mpr h')), ih']

theorem insertionSort_congr {α : Type} (r r' : α → α → Prop) [DecidableRel r]
    [DecidableRel r'] (l : List α) (h : ∀ a ∈ l, ∀ b ∈ l, (r a b ↔ r' a b)) :
    l.insertionSort r = l.insertionSort r' := by
  induction l with
  | nil => rfl
  | cons a l ih =>
    have ih' := ih (fun x hx y hy =>
      h x (List.mem_cons_of_mem a hx) y (List.mem_cons_of_mem a hy))
    rw [List.insertionSort, List.insertionSort, ih']
    apply orderedInsert_congr
    intro b hb
    have hb' : b ∈ l := (List.mem_insertionSort r').mp hb
    exact h a (List.mem_cons_self a l) b (List.mem_cons_of_mem a hb')

theorem group_of_bulk {α : Type} (r r' : α → α → Prop) [DecidableRel r] [DecidableRel r']
    [IsTrans α r] [IsTotal α r] (key : α → Nat) (ids : List Nat) (id : Nat) (hid : id ∈ ids)
    (l : List α) (hrr : ∀ a b, key a = key b → (r a b ↔ r' a b)) :
    ((l.filter fun x => ids.contains (key x)).insertionSort r).filter (fun x => key x == id) =
      (l.filter fun x => key x == id).insertionSort r' := by
  rw [filter_insertionSort, List.filter_filter]
  have hf : (l.filter fun x => (key x == id) && ids.contains (key x)) =
      l.filter fun x => key x == id := by
    apply List.filter_congr
    intro x _
    cases hx : key x == id with
    | false => rfl
    | true =>
      have : key x = id := by simpa using hx
      simp [this, hid]
  rw [hf]
  apply insertionSort_congr
  intro a ha b hb
  have ha' : key a = id := by simpa using (List.mem_filter.mp ha).2
  have hb' : key b = id := by simpa using (List.mem_filter.mp hb).2
  exact hrr a b (ha'.trans hb'.symm)

theorem fcOrder_iff_within (a b : FileCreationRow) (h : a.stat_id = b.stat_id) :
    fcOrder a b ↔ fcWithin a b := by
  have he : compare a.stat_id b.stat_id = .eq := compare_eq_iff_eq.mpr h
  unfold fcOrder fcWithin
  rw [he]
  exact Iff.rfl

theorem attOrder_iff_within (a b : AttachmentRow) (h : a.stat_id = b.stat_id) :
    attOrder a b ↔ attWithin a b := by
  have he : compare a.stat_id b.stat_id = .eq := compare_eq_iff_eq.mpr h
  unfold attOrder attWithin
  rw [he]
  exact Iff.rfl

theorem rejOrder_iff_within (a b : RejectRow) (h : a.stat_id = b.stat_id) :
    rejOrder a b ↔ rejWithin a b := by
  have he : compare a.stat_id b.stat_id = .eq := compare_eq_iff_eq.mpr h
  unfold rejOrder rejWithin
  rw [he]
  exact natCompare_ne_gt a.row_index b.row_index

theorem reasonOrder_iff_within (a b : RejectReasonRow) (h : a.reject_id = b.reject_id) :
    reasonOrder a b ↔ reasonWithin a b := by
  have he : compare a.reject_id b.reject_id = .eq := compare_eq_iff_eq.mpr h
  unfold reasonOrder reasonWithin
  rw [he]
  exact natCompare_ne_gt a.id b.id

theorem toBool_eq (x : Nat) : toBool x = decide (x ≠ 0) := by
  unfold toBool
  cases x <;> rfl

theorem attachDetails_mem (db : Db) (stats : List HiveStat) (s : HiveStat)
    (hs : s ∈ attachDetails db stats) :
    s.fileCreationRows = some
      (((db.file_creations.filter fun r => r.stat_id == s.id).insertionSort fcWithin).map
        fcDetailOf) ∧
    s.attachmentsRows = some
      (((db.attachments.filter fun r => r.stat_id == s.id).insertionSort attWithin).map
        attDetailOf) ∧
    s.rejectRows = some
      (((db.rejects.filter fun r => r.stat_id == s.id).insertionSort rejWithin).map
        fun r => rejDetailOf (reasonsInOrder db r.id) r) := by
  unfold attachDetails at hs
  simp only [List.mem_map] at hs
  obtain ⟨s0, hs0, rfl⟩ := hs
  have hid : s0.id ∈ stats.map fun s => s.id := List.mem_map_of_mem (fun s => s.id) hs0
  refine ⟨?_, ?_, ?_⟩
  · show some _ = some _
    rw [group_of_bulk fcOrder fcWithin (fun r : FileCreationRow => r.stat_id) _ s0.id hid
      db.file_creations fcOrder_iff_within]
    congr 1
    apply List.map_congr_left
    intro r _
    simp only [fcDetailOf, toBool_eq]
  · show some _ = some _
    rw [group_of_bulk attOrder attWithin (fun r : AttachmentRow => r.stat_id) _ s0.id hid
      db.attachments attOrder_iff_within]
    congr 1
    apply List.map_congr_left
    intro r _
    simp only [attDetailOf, toBool_eq]
  · show some _ = some _
    rw [group_of_bulk rejOrder rejWithin (fun r : RejectRow => r.stat_id) _ s0.id hid
      db.rejects rejOrder_iff_within]
    congr 1
    apply List.map_congr_left
    intro r hr
    have hr' : r ∈ db.rejects.filter fun r => r.stat_id == s0.id :=
      (List.mem_insertionSort rejWithin).mp hr
    have hrid : r.id ∈ (((db.rejects.filter fun r =>
        (stats.map fun s => s.id).contains r.stat_id).insertionSort rejOrder).map
          fun r => r.id) := by
      apply List.mem_map_of_mem (fun r : RejectRow => r.id)
      rw [List.mem_insertionSort, List.mem_filter]
      refine ⟨(List.mem_filter.mp hr').1, ?_⟩
      have : r.stat_id = s0.id := by simpa using (List.mem_filter.mp hr').2
      rw [this]
      simpa using hid
    show RejDetail.mk _ _ _ _ _ _ _ = _
    unfold rejDetailOf reasonsInOrder
    rw [← group_of_bulk reasonOrder reasonWithin (fun rr : RejectReasonRow => rr.reject_id) _
      r.id hrid db.reject_reasons reasonOrder_iff_within]
    simp only [toBool_eq]

theorem char_eq_of_toNat (a b : Char) (h : a.toNat = b.toNat) : a = b := by
  rw [← Char.ofNat_toNat a, ← Char.ofNat_toNat b, h]

theorem strCmp_lt_iff (a b : Str) : strCmp a b = .lt ↔ StrBefore a b := by
  induction a generalizing b with
  | nil =>
    cases b with
    | nil =>
      simp only [strCmp, reduceCtorEq, false_iff]
      intro h
      cases h
    | cons y ys =>
      simp only [strCmp, true_iff]
      exact StrBefore.shorter y ys
  | cons x xs ih =>
    cases b with
    | nil =>
      simp only [strCmp, reduceCtorEq, false_iff]
      intro h
      cases h
    | cons y ys =>
      simp only [strCmp]
      rcases Nat.lt_trichotomy x.toNat y.toNat with h | h | h
      · simp only [h, if_true, true_iff]
        exact StrBefore.smaller x y xs ys h
      · have hxy : x = y := char_eq_of_toNat x y h
        subst hxy
        simp only [Nat.lt_irrefl, if_false, ih ys]
        constructor
        · intro hb
          exact StrBefore.later x xs ys hb
        · intro hb
          cases hb with
          | smaller _ _ _ _ hlt => exact absurd hlt (Nat.lt_irrefl _)
          | later _ _ _ hb' => exact hb'
      · simp only [Nat.lt_asymm h, if_false, h, if_true, reduceCtorEq, false_iff]
        intro hb
        cases hb with
        | smaller _ _ _ _ hlt => exact absurd hlt (Nat.lt_asymm h)
        | later _ _ _ _ => exact absurd h (Nat.lt_irrefl _)

theorem strCmp_eq_iff (a b : Str) : strCmp a b = .eq ↔ a = b := by
  induction a generalizing b with
  | nil => cases b <;> simp [strCmp]
  | cons x xs ih =>
    cases b with
    | nil => simp [strCmp]
    | cons y ys =>
      simp only [strCmp]
      rcases Nat.lt_trichotomy x.toNat y.toNat with h | h | h
      · have hne : x ≠ y := by rintro rfl; exact absurd h (Nat.lt_irrefl _)
        simp [h, hne]
      · have hxy : x = y := char_eq_of_toNat x y h
        subst hxy
        simp [ih ys]
      · have hne : x ≠ y := by rintro rfl; exact absurd h (Nat.lt_irrefl _)
        simp [h, Nat.lt_asymm h, hne]

theorem optNatCmp_lt_iff (a b : Option Nat) : optNatCmp a b = .lt ↔ GroupBefore a b := by
  unfold GroupBefore
  cases a <;> cases b <;> simp [optNatCmp, compare_lt_iff_lt]

theorem optNatCmp_eq_iff (a b : Option Nat) : optNatCmp a b = .eq ↔ a = b := by
  cases a <;> cases b <;> simp [optNatCmp, compare_eq_iff_eq]

theorem then_ne_gt (o o' : Ordering) :
    o.then o' ≠ .gt ↔ o = .lt ∨ (o = .eq ∧ o' ≠ .gt) := by
  cases o <;> simp [Ordering.then]

theorem fcWithin_iff (a b : FileCreationRow) : fcWithin a b ↔ FcNotAfter a b := by
  unfold fcWithin FcNotAfter
  rw [then_ne_gt, then_ne_gt, then_ne_gt, strCmp_lt_iff, strCmp_eq_iff, strCmp_lt_iff,
    strCmp_eq_iff, optNatCmp_lt_iff, optNatCmp_eq_iff, natCompare_ne_gt]

theorem attWithin_iff (a b : AttachmentRow) : attWithin a b ↔ AttNotAfter a b := by
  unfold attWithin AttNotAfter
  rw [then_ne_gt, strCmp_lt_iff, strCmp_eq_iff, natCompare_ne_gt]

/-- C18: with `includeDetails = "1"`, every stat of the returned page carries
as `fileCreationRows`, `attachmentsRows` and `rejectRows` exactly the rows of
the three child tables whose `stat_id` is the stat's id, each with its stored
classification, indexes and value and with each checklist flag set exactly
when its stored column is not `0`, file creations ordered by category,
urgency, group index and row index, attachments by urgency and row index,
rejects by row index (strings by character codes, a `NULL` group index
first, rows with equal keys in storage order); each reject row carries exactly
the reasons of `reject_reasons` with its `reject_id`, in insertion order; and a
stat (or reject row) without such rows gets empty arrays. -/
theorem c18_details_of_a_page (dateOf : Str → Nat) (db : Db) (qy : HiveQuery) (s : HiveStat)
    (hq : qy.includeDetails = some "1".toList) (hs : s ∈ (queryHiveData dateOf db qy).stats) :
    s.fileCreationRows = some
      (((db.file_creations.filter fun r => r.stat_id == s.id).insertionSort fcWithin).map
        fcDetailOf) ∧
    s.attachmentsRows = some
      (((db.attachments.filter fun r => r.stat_id == s.id).insertionSort attWithin).map
        attDetailOf) ∧
    s.rejectRows = some
      (((db.rejects.filter fun r => r.stat_id == s.id).insertionSort rejWithin).map
        fun r => rejDetailOf (reasonsInOrder db r.id) r) ∧
    ((∀ r ∈ db.file_creations, r.stat_id ≠ s.id) → s.fileCreationRows = some []) ∧
    ((∀ r ∈ db.attachments, r.stat_id ≠ s.id) → s.attachmentsRows = some []) ∧
    ((∀ r ∈ db.rejects, r.stat_id ≠ s.id) → s.rejectRows = some []) ∧
    (∀ rejectId, (∀ rr ∈ db.reject_reasons, rr.reject_id ≠ rejectId) →
      reasonsInOrder db rejectId = []) ∧
    (∀ a b : FileCreationRow, fcWithin a b ↔ FcNotAfter a b) ∧
    (∀ a b : AttachmentRow, attWithin a b ↔ AttNotAfter a b) ∧
    (∀ a b : RejectRow, rejWithin a b ↔ a.row_index ≤ b.row_index) ∧
    (∀ a b : RejectReasonRow, reasonWithin a b ↔ a.id ≤ b.id) := by
  have hmem : s ∈ attachDetails db
      ((limitOffset (orderedRows dateOf db (buildSql qy)) (pageSz qy.pageSize)
        ((pageNum qy.page - 1) * pageSz qy.pageSize)).map (shape db)) := by
    unfold queryHiveData at hs
    simp only at hs
    split at hs
    · exact hs
    · rename_i hcond
      exfalso
      apply hcond
      refine ⟨hq, ?_⟩
      intro hnil
      rw [hnil] at hs
      cases hs
  obtain ⟨h1, h2, h3⟩ := attachDetails_mem db _ s hmem
  refine ⟨h1, h2, h3, ?_, ?_, ?_, ?_, fcWithin_iff, attWithin_iff, fun _ _ => Iff.rfl,
    fun _ _ => Iff.rfl⟩
  · intro hno
    rw [h1, List.filter_eq_nil_iff.mpr (fun r hr => by simpa using hno r hr)]
    rfl
  · intro hno
    rw [h2, List.filter_eq_nil_iff.mpr (fun r hr => by simpa using hno r hr)]
    rfl
  · intro hno
    rw [h3, List.filter_eq_nil_iff.mpr (fun r hr => by simpa using hno r hr)]
    rfl
  · intro rejectId hno
    unfold reasonsInOrder
    rw [List.filter_eq_nil_iff.mpr (fun r hr => by simpa using hno r hr)]
    rfl

/-! ## Round trip of a created stat (C16) -/

theorem insertFileCreations_eq (u : ReqUser) (id : Nat) (rows : List PayloadRow) (db : Db)
    (h : ∀ r ∈ rows, r.checks ≠ none) :
    insertFileCreations u id rows db =
      (true, { db with file_creations := db.file_creations ++ rows.map (fcRowOf u id) }) := by
  induction rows generalizing db with
  | nil => simp [insertFileCreations]
  | cons r rs ih =>
    unfold insertFileCreations
    cases hc : r.checks with
    | none => exact absurd hc (h r (List.mem_cons_self r rs))
    | some c =>
      simp only
      rw [ih _ (fun x hx => h x (List.mem_cons_of_mem r hx))]
      simp [fcRowOf, storedChecks, hc]

theorem insertAttachments_eq (u : ReqUser) (id : Nat) (rows : List PayloadRow) (db : Db)
    (h : ∀ r ∈ rows, r.checks ≠ none) :
    insertAttachments u id rows db =
      (true, { db with attachments := db.attachments ++ rows.map (attRowOf u id) }) := by
  induction rows generalizing db with
  | nil => simp [insertAttachments]
  | cons r rs ih =>
    unfold insertAttachments
    cases hc : r.checks with
    | none => exact absurd hc (h r (List.mem_cons_self r rs))
    | some c =>
      simp only
      rw [ih _ (fun x hx => h x (List.mem_cons_of_mem r hx))]
      simp [attRowOf, storedChecks, hc]

theorem insertReasons_eq (u : ReqUser) (rejectId : Nat) (value : Int) (reasons : List Str)
    (db : Db) :
    insertReasons u rejectId value reasons db =
      { db with
        reject_reasons := db.reject_reasons ++ reasonRows u rejectId value db.reason_seq reasons
        reason_seq := db.reason_seq + reasons.length } := by
  induction reasons generalizing db with
  | nil => simp [insertReasons, reasonRows]
  | cons x xs ih =>
    unfold insertReasons
    rw [ih]
    simp [reasonRows, Nat.add_assoc, Nat.add_comm 1]

theorem insertRejects_eq (u : ReqUser) (id : Nat) (rows : List PayloadRow) (db : Db)
    (h : ∀ r ∈ rows, r.checks ≠ none) :
    insertRejects u id rows db =
      (true,
        { db with
          rejects := db.rejects ++ rejRowsFrom u id db.reject_seq rows
          reject_reasons := db.reject_reasons ++
            reasonRowsFrom u db.reject_seq db.reason_seq rows
          reject_seq := db.reject_seq + rows.length
          reason_seq := db.reason_seq + (rows.map fun r => r.reasons.length).sum }) := by
  induction rows generalizing db with
  | nil => simp [insertRejects, rejRowsFrom, reasonRowsFrom]
  | cons r rs ih =>
    unfold insertRejects
    cases hc : r.checks with
    | none => exact absurd hc (h r (List.mem_cons_self r rs))
    | some c =>
      simp only
      rw [ih _ (fun x hx => h x (List.mem_cons_of_mem r hx)), insertReasons_eq]
      simp [rejRowsFrom, reasonRowsFrom, rejRowOf, storedChecks, hc, Nat.add_assoc,
        Nat.add_comm 1]

theorem upsertProcessed_frame (now : Int) (id date startTime endTime : Nat)
    (t : ProcessedTotals) (db : Db) :
    ∃ pm, upsertProcessed now id date startTime endTime t db = { db with processed_mail := pm } := by
  unfold upsertProcessed
  simp only
  split
  · exact ⟨_, rfl⟩
  · exact ⟨_, rfl⟩

theorem writeChildren_ok_eq (now : Int) (u : ReqUser) (id date startTime endTime : Nat)
    (b : StatBody) (msg : String) (db : Db)
    (h : ∀ r ∈ b.fileCreationRows ++ b.attachmentsRows ++ b.rejectRows, r.checks ≠ none) :
    ∃ pm, writeChildren now u id date startTime endTime b msg db =
      ({ status := 200, body := .success },
        { db with
          file_creations := db.file_creations ++ b.fileCreationRows.map (fcRowOf u id)
          attachments := db.attachments ++ b.attachmentsRows.map (attRowOf u id)
          rejects := db.rejects ++ rejRowsFrom u id db.reject_seq b.rejectRows
          reject_reasons := db.reject_reasons ++
            reasonRowsFrom u db.reject_seq db.reason_seq b.rejectRows
          reject_seq := db.reject_seq + b.rejectRows.length
          reason_seq := db.reason_seq + (b.rejectRows.map fun r => r.reasons.length).sum
          processed_mail := pm }) := by
  have h1 : ∀ r ∈ b.fileCreationRows, r.checks ≠ none := fun r hr => h r (by simp [hr])
  have h2 : ∀ r ∈ b.attachmentsRows, r.checks ≠ none := fun r hr => h r (by simp [hr])
  have h3 : ∀ r ∈ b.rejectRows, r.checks ≠ none := fun r hr => h r (by simp [hr])
  unfold writeChildren
  rw [insertFileCreations_eq u id _ _ h1]
  simp only
  rw [insertAttachments_eq u id _ _ h2]
  simp only
  rw [insertRejects_eq u id _ _ h3]
  simp only
  obtain ⟨pm, hpm⟩ := upsertProcessed_frame now id date startTime endTime
    (computeProcessedTotals b.fileCreationRows b.attachmentsRows b.rejectRows b.tlCount)
    { db with
      file_creations := db.file_creations ++ b.fileCreationRows.map (fcRowOf u id)
      attachments := db.attachments ++ b.attachmentsRows.map (attRowOf u id)
      rejects := db.rejects ++ rejRowsFrom u id db.reject_seq b.rejectRows
      reject_reasons := db.reject_reasons ++
        reasonRowsFrom u db.reject_seq db.reason_seq b.rejectRows
      reject_seq := db.reject_seq + b.rejectRows.length
      reason_seq := db.reason_seq + (b.rejectRows.map fun r => r.reasons.length).sum }
  exact ⟨pm, by rw [hpm]⟩

theorem postStat_null (now : Int) (u : ReqUser) (b : StatBody) (db : Db)
    (hm : b.mailOpening = .null) : (postStat now u b db).1.status ≠ 200 := by
  unfold postStat insertStat
  rw [hm]
  repeat' split
  all_goals simp_all

theorem postStat_ok_inv (now : Int) (u : ReqUser) (b : StatBody) (db : Db)
    (h : (postStat now u b db).1.status = 200) :
    ∃ id date startTime endTime m,
      b.id = some id ∧ id ≠ 0 ∧ b.date = some date ∧ b.startTime = some startTime ∧
      b.endTime = some endTime ∧ b.mailOpening = .obj m ∧
      hasOverlap db u.id date startTime endTime none = false ∧
      (∀ s ∈ db.stats, s.id ≠ id) ∧
      (∀ r ∈ b.fileCreationRows ++ b.attachmentsRows ++ b.rejectRows, r.checks ≠ none) := by
  have hinv : ∀ (hyp : b.id = none ∨ b.id = some 0 ∨ b.date = none ∨ b.startTime = none ∨
      b.endTime = none ∨ b.mailOpening = .notObject), False := by
    intro hyp
    rw [postStat_invalid now u b db hyp] at h
    cases h
  cases hid : b.id with
  | none => exact (hinv (Or.inl hid)).elim
  | some id =>
    by_cases hid0 : id = 0
    · subst hid0; exact (hinv (Or.inr (Or.inl hid))).elim
    cases hd : b.date with
    | none => exact (hinv (Or.inr (Or.inr (Or.inl hd)))).elim
    | some date =>
      cases hs : b.startTime with
      | none => exact (hinv (Or.inr (Or.inr (Or.inr (Or.inl hs))))).elim
      | some startTime =>
        cases he : b.endTime with
        | none => exact (hinv (Or.inr (Or.inr (Or.inr (Or.inr (Or.inl he)))))).elim
        | some endTime =>
          cases hm : b.mailOpening with
          | notObject =>
            exact (hinv (Or.inr (Or.inr (Or.inr (Or.inr (Or.inr hm)))))).elim
          | null => exact absurd h (postStat_null now u b db hm)
          | obj m =>
            rw [postStat_valid now u b db id date startTime endTime m hid hid0 hd hs he hm] at h
            by_cases hov : hasOverlap db u.id date startTime endTime none = true
            · rw [if_pos hov] at h; cases h
            · rw [if_neg hov] at h
              by_cases hdup : (db.stats.any fun s => s.id == id) = true
              · rw [if_pos hdup] at h; cases h
              · rw [if_neg hdup] at h
                refine ⟨id, date, startTime, endTime, m, rfl, hid0, rfl, rfl, rfl, rfl,
                  by simpa using hov, ?_, ?_⟩
                · intro s hs' heq
                  apply hdup
                  rw [List.any_eq_true]
                  exact ⟨s, hs', by simpa using heq⟩
                · intro r hr hrc
                  rw [writeChildren_fail now u id date startTime endTime b _ _
                    ⟨r, hr, hrc⟩] at h
                  cases h

theorem reasonRows_spec (u : ReqUser) (rejectId : Nat) (value : Int) (key : Nat)
    (reasons : List Str) :
    (∀ rr ∈ reasonRows u rejectId value key reasons, rr.reject_id = rejectId) ∧
    (reasonRows u rejectId value key reasons).map (fun rr => rr.reason) = reasons := by
  induction reasons generalizing key with
  | nil => simp [reasonRows]
  | cons x xs ih =>
    obtain ⟨h1, h2⟩ := ih (key + 1)
    constructor
    · intro rr hrr
      simp only [reasonRows, List.mem_cons] at hrr
      rcases hrr with rfl | hrr
      · rfl
      · exact h1 rr hrr
    · simp [reasonRows, h2]

theorem reasonRowsFrom_ge (u : ReqUser) (rejectKey reasonKey : Nat) (rows : List PayloadRow) :
    ∀ rr ∈ reasonRowsFrom u rejectKey reasonKey rows, rejectKey ≤ rr.reject_id := by
  induction rows generalizing rejectKey reasonKey with
  | nil => simp [reasonRowsFrom]
  | cons r rs ih =>
    intro rr hrr
    simp only [reasonRowsFrom, List.mem_append] at hrr
    rcases hrr with hrr | hrr
    · rw [(reasonRows_spec u rejectKey r.value reasonKey r.reasons).1 rr hrr]
    · have := ih (rejectKey + 1) (reasonKey + r.reasons.length) rr hrr
      omega

theorem fetchedRej_rows (u : ReqUser) (id : Nat) (db : Db) (rows : List PayloadRow) :
    ∀ (rejectKey reasonKey : Nat) (old : List RejectReasonRow),
      (∀ rr ∈ old, rr.reject_id < rejectKey) →
      db.reject_reasons = old ++ reasonRowsFrom u rejectKey reasonKey rows →
      (rejRowsFrom u id rejectKey rows).map (fetchedRej db) = rows.map submittedRej := by
  induction rows with
  | nil => intro _ _ _ _ _; rfl
  | cons r rs ih =>
    intro rejectKey reasonKey old hold hdb
    simp only [rejRowsFrom, List.map_cons]
    congr 1
    · unfold fetchedRej submittedRej reasonsOfReject
      simp only [rejRowOf]
      congr 2
      rw [hdb, reasonRowsFrom, List.filter_append, List.filter_append]
      have h1 : old.filter (fun rr => rr.reject_id == rejectKey) = [] := by
        rw [List.filter_eq_nil_iff]
        intro rr hrr
        have := hold rr hrr
        simp only [beq_iff_eq]
        omega
      have h2 : (reasonRows u rejectKey r.value reasonKey r.reasons).filter
          (fun rr => rr.reject_id == rejectKey) =
          reasonRows u rejectKey r.value reasonKey r.reasons := by
        rw [List.filter_eq_self]
        intro rr hrr
        simp [(reasonRows_spec u rejectKey r.value reasonKey r.reasons).1 rr hrr]
      have h3 : (reasonRowsFrom u (rejectKey + 1) (reasonKey + r.reasons.length) rs).filter
          (fun rr => rr.reject_id == rejectKey) = [] := by
        rw [List.filter_eq_nil_iff]
        intro rr hrr
        have := reasonRowsFrom_ge u _ _ rs rr hrr
        simp only [beq_iff_eq]
        omega
      rw [h1, h2, h3]
      simp [(reasonRows_spec u rejectKey r.value reasonKey r.reasons).2]
    · apply ih (rejectKey + 1) (reasonKey + r.reasons.length)
        (old ++ reasonRows u rejectKey r.value reasonKey r.reasons)
      · intro rr hrr
        rcases List.mem_append.mp hrr with h | h
        · have := hold rr h
          omega
        · rw [(reasonRows_spec u rejectKey r.value reasonKey r.reasons).1 rr h]
          omega
      · rw [hdb, reasonRowsFrom, List.append_assoc]

theorem rejRowsFrom_stat (u : ReqUser) (id key : Nat) (rows : List PayloadRow) :
    ∀ r ∈ rejRowsFrom u id key rows, r.stat_id = id := by
  induction rows generalizing key with
  | nil => simp [rejRowsFrom]
  | cons x xs ih =>
    intro r hr
    simp only [rejRowsFrom, List.mem_cons] at hr
    rcases hr with rfl | hr
    · rfl
    · exact ih (key + 1) r hr

theorem filter_append_new {α : Type} (p : α → Bool) (old new : List α)
    (hold : ∀ x ∈ old, p x = false) (hnew : ∀ x ∈ new, p x = true) :
    (old ++ new).filter p = new := by
  rw [List.filter_append, List.filter_eq_nil_iff.mpr (fun x hx => by simp [hold x hx]),
    List.filter_eq_self.mpr hnew, List.nil_append]

theorem find?_append_fresh (stats : List StatRow) (new : StatRow)
    (hfresh : ∀ s ∈ stats, s.id ≠ new.id) :
    (stats ++ [new]).find? (fun s => s.id == new.id) = some new := by
  rw [List.find?_append, List.find?_eq_none.mpr (fun s hs => by simpa using hfresh s hs)]
  simp

theorem postStat_ok_eq (now : Int) (u : ReqUser) (b : StatBody) (db : Db)
    (h : (postStat now u b db).1.status = 200) :
    ∃ id date startTime endTime m pm,
      b.id = some id ∧ (∀ s ∈ db.stats, s.id ≠ id) ∧
      (postStat now u b db).2 =
        { db with
          stats := db.stats ++
            [{ id := id, user_id := u.id, date := date, start_time := startTime,
               end_time := endTime, created_at := now, updated_at := now }]
          mail_openings := db.mail_openings ++ [mailRow u id m]
          file_creations := db.file_creations ++ b.fileCreationRows.map (fcRowOf u id)
          attachments := db.attachments ++ b.attachmentsRows.map (attRowOf u id)
          rejects := db.rejects ++ rejRowsFrom u id db.reject_seq b.rejectRows
          reject_reasons := db.reject_reasons ++
            reasonRowsFrom u db.reject_seq db.reason_seq b.rejectRows
          reject_seq := db.reject_seq + b.rejectRows.length
          reason_seq := db.reason_seq + (b.rejectRows.map fun r => r.reasons.length).sum
          processed_mail := pm } := by
  obtain ⟨id, date, startTime, endTime, m, hid, hid0, hd, hs, he, hm, hov, hfresh, hrows⟩ :=
    postStat_ok_inv now u b db h
  have hdup : db.stats.any (fun s => s.id == id) = false := by
    rw [List.any_eq_false]
    intro s hs'
    simpa using hfresh s hs'
  obtain ⟨pm, hw⟩ := writeChildren_ok_eq now u id date startTime endTime b
    "Could not create stat."
    { db with
      stats := db.stats ++
        [{ id := id, user_id := u.id, date := date, start_time := startTime,
           end_time := endTime, created_at := now, updated_at := now }]
      mail_openings := db.mail_openings ++ [mailRow u id m] } hrows
  refine ⟨id, date, startTime, endTime, m, pm, hid, hfresh, ?_⟩
  rw [postStat_valid now u b db id date startTime endTime m hid hid0 hd hs he hm, hov, hdup]
  simp only [Bool.false_eq_true, if_false]
  rw [hw]

/-- C16: for every stat created by a successful `POST /stats` in a store whose
child rows refer to stats of the store, `GET /stats/:id` by the owner returns
the stat with `fileCreationRows`, `attachmentsRows` and `rejectRows` equal, row
by row and in the order of submission, to the submitted lists (the flags as
`0`/`1`), each reject row carrying exactly its own reasons in submitted order;
hence N file-creation rows, M attachment rows, K reject rows and R reasons go
in and come out. -/
theorem c16_created_stat_reads_back (now now' : Int) (u : ReqUser) (b : StatBody) (db : Db)
    (id : Nat) (hrefs : StoreRefs db) (hid : b.id = some id)
    (hok : (postStat now u b db).1.status = 200) :
    ∃ view, getStat now' u id (postStat now u b db).2 = .ok view ∧
      view.fileCreationRows = b.fileCreationRows.map submittedFc ∧
      view.attachmentsRows = b.attachmentsRows.map submittedAtt ∧
      view.rejectRows = b.rejectRows.map submittedRej ∧
      view.fileCreationRows.length = b.fileCreationRows.length ∧
      view.attachmentsRows.length = b.attachmentsRows.length ∧
      view.rejectRows.length = b.rejectRows.length ∧
      (view.rejectRows.map fun r => (r.reasons.getD []).length).sum =
        (b.rejectRows.map fun r => r.reasons.length).sum := by
  obtain ⟨id', date, startTime, endTime, m, pm, hid', hfresh, hdb⟩ :=
    postStat_ok_eq now u b db hok
  rw [hid] at hid'
  obtain rfl := Option.some.inj hid'
  rw [hdb]
  have hfind := find?_append_fresh db.stats
    { id := id, user_id := u.id, date := date, start_time := startTime,
      end_time := endTime, created_at := now, updated_at := now } hfresh
  have hfc : ∀ r ∈ db.file_creations, (r.stat_id == id) = false := by
    intro r hr
    obtain ⟨s, hs, hsr⟩ := hrefs.fc_ref r hr
    have := hfresh s hs
    simp only [beq_eq_false_iff_ne, ne_eq]
    rw [← hsr]; exact this
  have hat : ∀ r ∈ db.attachments, (r.stat_id == id) = false := by
    intro r hr
    obtain ⟨s, hs, hsr⟩ := hrefs.att_ref r hr
    have := hfresh s hs
    simp only [beq_eq_false_iff_ne, ne_eq]
    rw [← hsr]; exact this
  have hrj : ∀ r ∈ db.rejects, (r.stat_id == id) = false := by
    intro r hr
    obtain ⟨s, hs, hsr⟩ := hrefs.rej_ref r hr
    have := hfresh s hs
    simp only [beq_eq_false_iff_ne, ne_eq]
    rw [← hsr]; exact this
  have hold : ∀ rr ∈ db.reject_reasons, rr.reject_id < db.reject_seq := by
    intro rr hrr
    obtain ⟨r, hr, hrid⟩ := hrefs.reason_ref rr hrr
    rw [← hrid]
    exact hrefs.reject_key r hr
  have e1 : ((db.file_creations ++ b.fileCreationRows.map (fcRowOf u id)).filter
      fun r => r.stat_id == id).map fetchedFc = b.fileCreationRows.map submittedFc := by
    rw [filter_append_new _ _ _ hfc (by
      intro r hr
      obtain ⟨x, _, rfl⟩ := List.mem_map.mp hr
      simp [fcRowOf]), List.map_map]
    rfl
  have e2 : ((db.attachments ++ b.attachmentsRows.map (attRowOf u id)).filter
      fun r => r.stat_id == id).map fetchedAtt = b.attachmentsRows.map submittedAtt := by
    rw [filter_append_new _ _ _ hat (by
      intro r hr
      obtain ⟨x, _, rfl⟩ := List.mem_map.mp hr
      simp [attRowOf]), List.map_map]
    rfl
  generalize hD : ({ db with
      stats := db.stats ++
        [{ id := id, user_id := u.id, date := date, start_time := startTime,
           end_time := endTime, created_at := now, updated_at := now }]
      mail_openings := db.mail_openings ++ [mailRow u id m]
      file_creations := db.file_creations ++ b.fileCreationRows.map (fcRowOf u id)
      attachments := db.attachments ++ b.attachmentsRows.map (attRowOf u id)
      rejects := db.rejects ++ rejRowsFrom u id db.reject_seq b.rejectRows
      reject_reasons := db.reject_reasons ++
        reasonRowsFrom u db.reject_seq db.reason_seq b.rejectRows
      reject_seq := db.reject_seq + b.rejectRows.length
      reason_seq := db.reason_seq + (b.rejectRows.map fun r => r.reasons.length).sum
      processed_mail := pm } : Db) = D
  have hDstats : D.stats = db.stats ++
      [{ id := id, user_id := u.id, date := date, start_time := startTime,
         end_time := endTime, created_at := now, updated_at := now }] := by rw [← hD]
  have hDfc : D.file_creations = db.file_creations ++ b.fileCreationRows.map (fcRowOf u id) := by
    rw [← hD]
  have hDat : D.attachments = db.attachments ++ b.attachmentsRows.map (attRowOf u id) := by
    rw [← hD]
  have hDrj : D.rejects = db.rejects ++ rejRowsFrom u id db.reject_seq b.rejectRows := by
    rw [← hD]
  have hDrr : D.reject_reasons = db.reject_reasons ++
      reasonRowsFrom u db.reject_seq db.reason_seq b.rejectRows := by rw [← hD]
  have e3 : fetchRejRows D id = b.rejectRows.map submittedRej := by
    unfold fetchRejRows
    rw [hDrj, filter_append_new _ _ _ hrj (by
      intro r hr
      simp [rejRowsFrom_stat u id _ _ r hr])]
    exact fetchedRej_rows u id D b.rejectRows db.reject_seq db.reason_seq db.reject_reasons
      hold hDrr
  have e1' : fetchFcRows D id = b.fileCreationRows.map submittedFc := by
    unfold fetchFcRows; rw [hDfc]; exact e1
  have e2' : fetchAttRows D id = b.attachmentsRows.map submittedAtt := by
    unfold fetchAttRows; rw [hDat]; exact e2
  have hget : ∃ view, getStat now' u id D = .ok view ∧
      view.fileCreationRows = fetchFcRows D id ∧ view.attachmentsRows = fetchAttRows D id ∧
      view.rejectRows = fetchRejRows D id := by
    unfold getStat assertCanView getStatOwner
    rw [hDstats, hfind]
    simp only [Option.map_some', if_true]
    exact ⟨_, rfl, rfl, rfl, rfl⟩
  obtain ⟨view, hv, h1, h2, h3⟩ := hget
  refine ⟨view, hv, h1.trans e1', h2.trans e2', h3.trans e3, ?_, ?_, ?_, ?_⟩
  · rw [h1, e1', List.length_map]
  · rw [h2, e2', List.length_map]
  · rw [h3, e3, List.length_map]
  · rw [h3, e3, List.map_map]
    rfl

/-- C16 (witness): Ann posts a stat with two file-creation rows, one
attachment row and two reject rows of two and one reasons into the sample
store with child rows, and reads back 2, 1 and 2 rows with 3 reasons. -/
theorem c16_created_stat_reads_back_witness :
    StoreRefs flagDb ∧ fullBody.id = some 10 ∧
    (postStat 500 ann fullBody flagDb).1.status = 200 ∧
    ∃ view, getStat 600 ann 10 (postStat 500 ann fullBody flagDb).2 = .ok view ∧
      view.fileCreationRows.length = 2 ∧ view.attachmentsRows.length = 1 ∧
      view.rejectRows.length = 2 ∧
      (view.rejectRows.map fun r => (r.reasons.getD []).length).sum = 3 := by
  have hrefs : StoreRefs flagDb :=
    ⟨by decide, by decide, by decide, by decide, by decide⟩
  have hok : (postStat 500 ann fullBody flagDb).1.status = 200 := by decide
  obtain ⟨view, hv, -, -, -, h1, h2, h3, h4⟩ :=
    c16_created_stat_reads_back 500 600 ann fullBody flagDb 10 hrefs rfl hok
  exact ⟨hrefs, rfl, hok, view, hv, h1, h2, h3, h4⟩

/-- C18 (witness): on the sample store with child rows, the page asked with
`includeDetails = "1"` holds stat 1 with its three file-creation rows, the
family row first, then individual/regular, then individual/urgent, each with
its own flag set, with its attachment row and with its reject row and the two
reasons of that row; stat 2, which has no child row, carries three empty
arrays. -/
theorem c18_details_of_a_page_witness :
    (∃ s ∈ (queryHiveData (fun _ => 0) flagDb detailsQuery).stats, s.id = 1 ∧
      s.fileCreationRows = some
        [{ category := "family".toList, urgency := "regular".toList, groupIndex := some 0,
           rowIndex := 0, value := 7, natp := false, rtd := false, coi := true,
           none := false },
         { category := "individual".toList, urgency := "regular".toList, groupIndex := none,
           rowIndex := 0, value := 101, natp := true, rtd := false, coi := false,
           none := false },
         { category := "individual".toList, urgency := "urgent".toList, groupIndex := none,
           rowIndex := 0, value := 0, natp := false, rtd := true, coi := false,
           none := false }] ∧
      s.attachmentsRows = some
        [{ category := some "attachment".toList, urgency := "regular".toList, rowIndex := 0,
           value := 55, natp := false, rtd := false, coi := false, none := true }] ∧
      s.rejectRows = some
        [{ rowIndex := 0, value := 9, natp := true, rtd := false, coi := false,
           none := false, reasons := ["No signature".toList, "Wrong form".toList] }]) ∧
    (∃ s ∈ (queryHiveData (fun _ => 0) flagDb detailsQuery).stats, s.id = 2 ∧
      s.fileCreationRows = some [] ∧ s.attachmentsRows = some [] ∧ s.rejectRows = some []) := by
  have hne1 : ((queryHiveData (fun _ => 0) flagDb detailsQuery).stats.find?
      fun s => s.id == 1).isSome = true := by decide
  have hne2 : ((queryHiveData (fun _ => 0) flagDb detailsQuery).stats.find?
      fun s => s.id == 2).isSome = true := by decide
  constructor
  · obtain ⟨s, hs⟩ := Option.isSome_iff_exists.mp hne1
    have hmem := List.mem_of_find?_eq_some hs
    have hid : s.id = 1 := by simpa using List.find?_some hs
    obtain ⟨h1, h2, h3, -⟩ :=
      c18_details_of_a_page (fun _ => 0) flagDb detailsQuery s rfl hmem
    refine ⟨s, hmem, hid, ?_, ?_, ?_⟩
    · rw [h1, hid]; decide
    · rw [h2, hid]; decide
    · rw [h3, hid]; decide
  · obtain ⟨s, hs⟩ := Option.isSome_iff_exists.mp hne2
    have hmem := List.mem_of_find?_eq_some hs
    have hid : s.id = 2 := by simpa using List.find?_some hs
    obtain ⟨-, -, -, h4, h5, h6, -⟩ :=
      c18_details_of_a_page (fun _ => 0) flagDb detailsQuery s rfl hmem
    refine ⟨s, hmem, hid, h4 ?_, h5 ?_, h6 ?_⟩
    · rw [hid]; decide
    · rw [hid]; decide
    · rw [hid]; decide

/-! ## View permission (C21, C27) -/

theorem isManagerOfUser_iff (db : Db) (managerId ownerId : Nat) :
    isManagerOfUser db managerId ownerId = true ↔ Manages db managerId ownerId := by
  unfold isManagerOfUser Manages
  simp only [List.any_eq_true, Bool.and_eq_true, beq_iff_eq]

theorem getStatOwner_eq (db : Db) (statId : Nat) :
    getStatOwner db statId = (statOfId db statId).map fun s => s.user_id := rfl

theorem statOfId_none_iff (db : Db) (statId : Nat) :
    statOfId db statId = none ↔ ∀ s ∈ db.stats, s.id ≠ statId := by
  unfold statOfId
  rw [List.find?_eq_none]
  simp

theorem assertCanView_of_stat (db : Db) (userId statId : Nat) (s : StatRow)
    (hs : statOfId db statId = some s) :
    assertCanView db userId statId =
      if s.user_id = userId then .allowed s.user_id false
      else if isManagerOfUser db userId s.user_id then .allowed s.user_id true
      else .denied 403 "Not allowed to view this stat." := by
  unfold assertCanView
  rw [getStatOwner_eq, hs]
  rfl

theorem assertCanView_cases (db : Db) (userId statId : Nat) (s : StatRow)
    (hs : statOfId db statId = some s) :
    (s.user_id = userId → assertCanView db userId statId = .allowed s.user_id false) ∧
    (s.user_id ≠ userId → Manages db userId s.user_id →
      assertCanView db userId statId = .allowed s.user_id true) ∧
    (s.user_id ≠ userId → ¬ Manages db userId s.user_id →
      assertCanView db userId statId = .denied 403 "Not allowed to view this stat.") := by
  rw [assertCanView_of_stat db userId statId s hs]
  refine ⟨fun h => by rw [if_pos h], fun h hm => ?_, fun h hm => ?_⟩
  · rw [if_neg h, if_pos ((isManagerOfUser_iff db userId s.user_id).mpr hm)]
  · rw [if_neg h, if_neg (fun hc => hm ((isManagerOfUser_iff db userId s.user_id).mp hc))]

/-- C21: `assertCanView(userId, statId)` answers 404 exactly when no stat has
the id; for the stat of that id it is ok without `readOnly` for the owner, ok
with `readOnly` for a requester who is not the owner and manages a group of
which the owner is a member, and 403 for every other requester; so it is ok
exactly when the stat exists and the requester is its owner or such a
manager. -/
theorem c21_view_permission (db : Db) (userId statId : Nat) :
    (assertCanView db userId statId = .denied 404 "Stat not found." ↔
      ∀ s ∈ db.stats, s.id ≠ statId) ∧
    (∀ s, statOfId db statId = some s →
      (s.user_id = userId → assertCanView db userId statId = .allowed s.user_id false) ∧
      (s.user_id ≠ userId → Manages db userId s.user_id →
        assertCanView db userId statId = .allowed s.user_id true) ∧
      (s.user_id ≠ userId → ¬ Manages db userId s.user_id →
        assertCanView db userId statId = .denied 403 "Not allowed to view this stat.")) ∧
    ((∃ ownerId readOnly, assertCanView db userId statId = .allowed ownerId readOnly) ↔
      ∃ s, statOfId db statId = some s ∧
        (s.user_id = userId ∨ Manages db userId s.user_id)) := by
  have key := assertCanView_cases db userId statId
  refine ⟨?_, key, ?_⟩
  · rw [← statOfId_none_iff]
    constructor
    · intro h
      cases hs : statOfId db statId with
      | none => rfl
      | some s =>
        exfalso
        rw [assertCanView_of_stat db userId statId s hs] at h
        split at h
        · cases h
        · split at h
          · cases h
          · cases h
    · intro h
      unfold assertCanView
      rw [getStatOwner_eq, h]
      rfl
  · constructor
    · rintro ⟨o, ro, h⟩
      cases hs : statOfId db statId with
      | none =>
        exfalso
        unfold assertCanView at h
        rw [getStatOwner_eq, hs] at h
        cases h
      | some s =>
        refine ⟨s, rfl, ?_⟩
        by_cases ho : s.user_id = userId
        · exact Or.inl ho
        · by_cases hm : Manages db userId s.user_id
          · exact Or.inr hm
          · rw [((key s hs).2.2 ho hm)] at h
            cases h
    · rintro ⟨s, hs, h⟩
      by_cases ho : s.user_id = userId
      · exact ⟨_, _, (key s hs).1 ho⟩
      · rcases h with h | h
        · exact absurd h ho
        · exact ⟨_, _, (key s hs).2.1 ho h⟩

/-- C21 (witness): in the sample store where user 8 manages a group with
member 7, user 8 may view stat 1 of user 7, read-only. -/
theorem c21_view_permission_witness :
    statOfId managedDb 1 = some
      { id := 1, user_id := 7, date := 100, start_time := 32400, end_time := 36000,
        created_at := 0, updated_at := 0 } ∧
    (7 : Nat) ≠ 8 ∧ Manages managedDb 8 7 ∧
    assertCanView managedDb 8 1 = .allowed 7 true :=
  ⟨by decide, by decide, by decide,
    ((c21_view_permission managedDb 8 1).2.1
      { id := 1, user_id := 7, date := 100, start_time := 32400, end_time := 36000,
        created_at := 0, updated_at := 0 } (by decide)).2.1 (by decide) (by decide)⟩

theorem filter_of_find? {α : Type} (p q : α → Bool) (l : List α) (s : α)
    (hs : l.find? p = some s) (hq : q s = true) (hqp : ∀ x, q x = true → p x = true) :
    ∃ rest, l.filter q = s :: rest := by
  induction l with
  | nil => cases hs
  | cons a l ih =>
    rw [List.find?_cons] at hs
    cases hpa : p a with
    | true =>
      rw [hpa] at hs
      simp only [Option.some.injEq] at hs
      subst hs
      exact ⟨l.filter q, by rw [List.filter_cons, hq]; rfl⟩
    | false =>
      rw [hpa] at hs
      have hqa : q a = false := by
        cases h : q a with
        | false => rfl
        | true => rw [hqp a h] at hpa; cases hpa
      obtain ⟨rest, hrest⟩ := ih hs
      exact ⟨rest, by rw [List.filter_cons, hqa]; exact hrest⟩

theorem canEditStat_of_stat (db : Db) (now : Int) (userId statId : Nat) (s : StatRow)
    (hs : statOfId db statId = some s) (ho : s.user_id = userId) :
    canEditStat db now userId statId = decide (now - s.created_at < 48 * 3600 * 1000) := by
  have hid : s.id = statId := by
    have := List.find?_some hs
    simpa using this
  obtain ⟨rest, hrest⟩ := filter_of_find? (fun x : StatRow => x.id == statId)
    (fun x : StatRow => x.id == statId && x.user_id == userId) db.stats s hs
    (by simp [hid, ho]) (by intro x hx; simp only [Bool.and_eq_true] at hx; exact hx.1)
  unfold canEditStat
  rw [hrest]

theorem getStat_of_stat (now : Int) (u : ReqUser) (id : Nat) (db : Db) (s : StatRow)
    (hs : statOfId db id = some s) :
    (s.user_id = u.id →
      ∃ view, getStat now u id db = .ok view ∧
        view.readOnly = !decide (now - s.created_at < 48 * 3600 * 1000)) ∧
    (s.user_id ≠ u.id → Manages db u.id s.user_id →
      ∃ view, getStat now u id db = .ok view ∧ view.readOnly = true) ∧
    (s.user_id ≠ u.id → ¬ Manages db u.id s.user_id →
      getStat now u id db = .error 403 "Not allowed to view this stat.") := by
  have hfind : (db.stats.find? fun x => x.id == id) = some s := hs
  refine ⟨fun ho => ?_, fun ho hm => ?_, fun ho hm => ?_⟩
  · unfold getStat
    rw [((assertCanView_cases db u.id id s hs).1 ho), hfind, canEditStat_of_stat db now u.id id s hs ho]
    exact ⟨_, rfl, by simp⟩
  · unfold getStat
    rw [((assertCanView_cases db u.id id s hs).2.1 ho hm), hfind]
    exact ⟨_, rfl, by simp⟩
  · unfold getStat
    rw [((assertCanView_cases db u.id id s hs).2.2 ho hm)]

/-- C27: `GET /stats/:id` returns a stat exactly when a stat has the id and
the requester is its owner or manages a group of which the owner is a member;
the `readOnly` flag of the returned stat is true exactly when the requester is
such a manager and not the owner, or is the owner and
`now - created_at >= 48 hours`; it is false for the owner inside the window. -/
theorem c27_readOnly_flag (now : Int) (u : ReqUser) (id : Nat) (db : Db) :
    ((∃ view, getStat now u id db = .ok view) ↔
      ∃ s, statOfId db id = some s ∧ (s.user_id = u.id ∨ Manages db u.id s.user_id)) ∧
    (∀ view, getStat now u id db = .ok view →
      ∃ s, statOfId db id = some s ∧
        (view.readOnly = true ↔
          (s.user_id ≠ u.id ∧ Manages db u.id s.user_id) ∨
          (s.user_id = u.id ∧ 48 * 3600 * 1000 ≤ now - s.created_at)) ∧
        (s.user_id = u.id → now - s.created_at < 48 * 3600 * 1000 →
          view.readOnly = false)) := by
  constructor
  · constructor
    · rintro ⟨view, hv⟩
      cases hs : statOfId db id with
      | none =>
        exfalso
        unfold getStat assertCanView at hv
        rw [getStatOwner_eq, hs] at hv
        cases hv
      | some s =>
        refine ⟨s, rfl, ?_⟩
        by_cases ho : s.user_id = u.id
        · exact Or.inl ho
        · by_cases hm : Manages db u.id s.user_id
          · exact Or.inr hm
          · rw [(getStat_of_stat now u id db s hs).2.2 ho hm] at hv
            cases hv
    · rintro ⟨s, hs, h⟩
      by_cases ho : s.user_id = u.id
      · obtain ⟨view, hv, -⟩ := (getStat_of_stat now u id db s hs).1 ho
        exact ⟨view, hv⟩
      · rcases h with h | h
        · exact absurd h ho
        · obtain ⟨view, hv, -⟩ := (getStat_of_stat now u id db s hs).2.1 ho h
          exact ⟨view, hv⟩
  · intro view hv
    cases hs : statOfId db id with
    | none =>
      exfalso
      unfold getStat assertCanView at hv
      rw [getStatOwner_eq, hs] at hv
      cases hv
    | some s =>
      refine ⟨s, rfl, ?_⟩
      by_cases ho : s.user_id = u.id
      · obtain ⟨view', hv', hr⟩ := (getStat_of_stat now u id db s hs).1 ho
        rw [hv] at hv'
        cases hv'
        rw [hr]
        constructor
        · constructor
          · intro h
            right
            refine ⟨ho, ?_⟩
            simp only [Bool.not_eq_true', decide_eq_false_iff_not, not_lt] at h
            exact h
          · rintro (⟨hne, -⟩ | ⟨-, h⟩)
            · exact absurd ho hne
            · simp only [Bool.not_eq_true', decide_eq_false_iff_not, not_lt]
              exact h
        · intro _ h
          rw [decide_eq_true h]
          rfl
      · by_cases hm : Manages db u.id s.user_id
        · obtain ⟨view', hv', hr⟩ := (getStat_of_stat now u id db s hs).2.1 ho hm
          rw [hv] at hv'
          cases hv'
          rw [hr]
          exact ⟨⟨fun _ => Or.inl ⟨ho, hm⟩, fun _ => rfl⟩, fun h => absurd h ho⟩
        · rw [(getStat_of_stat now u id db s hs).2.2 ho hm] at hv
          cases hv

/-- C27 (witness): stat 1 of the managed sample store, created at instant 0, is
returned to its owner at instant 1000 with `readOnly = false`. -/
theorem c27_readOnly_flag_witness :
    ∃ view, getStat 1000 ann 1 managedDb = .ok view ∧ view.readOnly = false := by
  have h1 : statOfId managedDb 1 = some
      { id := 1, user_id := 7, date := 100, start_time := 32400, end_time := 36000,
        created_at := 0, updated_at := 0 } := by decide
  obtain ⟨view, hv⟩ := (c27_readOnly_flag 1000 ann 1 managedDb).1.mpr
    ⟨_, h1, Or.inl (by decide)⟩
  obtain ⟨s, hs, -, hin⟩ := (c27_readOnly_flag 1000 ann 1 managedDb).2 view hv
  rw [h1] at hs
  obtain rfl := Option.some.inj hs
  exact ⟨view, hv, hin (by decide) (by decide)⟩

/-! ## The checklist of a form row (C25) -/

/-- C25: for every checklist state in which `none` is not set together with
any of `natp`, `rtd`, `coi`, and for every key, `updateChecklist` returns a
state in which the flag of that key is negated and `none` is again not set
together with any of `natp`, `rtd`, `coi`. -/
theorem c25_updateChecklist_keeps_none_exclusive (c : Checks) (key : ChecklistKey)
    (h : Exclusive c) :
    flagOf key (updateChecklist c key) = !flagOf key c ∧
    Exclusive (updateChecklist c key) := by
  obtain ⟨natp, rtd, coi, none⟩ := c
  cases key <;> cases natp <;> cases rtd <;> cases coi <;> cases none <;>
    first
    | exact absurd h (by decide)
    | exact ⟨rfl, by decide⟩

/-- C25 (witness): ticking `none` on a row with `natp` and `coi` set clears
both. -/
theorem c25_updateChecklist_keeps_none_exclusive_witness :
    Exclusive { natp := true, rtd := false, coi := true, none := false } ∧
    updateChecklist { natp := true, rtd := false, coi := true, none := false } .none =
      { natp := false, rtd := false, coi := false, none := true } ∧
    Exclusive (updateChecklist { natp := true, rtd := false, coi := true, none := false } .none) :=
  ⟨by decide, by decide,
    (c25_updateChecklist_keeps_none_exclusive
      { natp := true, rtd := false, coi := true, none := false } .none (by decide)).2⟩

/-! ## Mail-opening counters of the single-stat PDF (C28) -/

theorem pdfMailOpen_urgentFileCreation (stat : FullStat) :
    (pdfMailOpen stat).urgentFileCreation = 0 := by
  unfold pdfMailOpen orZero headMailColumns
  simp [List.lookup]

theorem pdfMailOpen_stored (stat : FullStat) (m : MailOpeningRow) (hm : stat.mail = some m) :
    (pdfMailOpen stat).totalEnvelopes = m.total_envelopes ∧
    (pdfMailOpen stat).fileCreation = m.file_creation ∧
    (pdfMailOpen stat).attachment = m.attachment ∧
    (pdfMailOpen stat).urgentAttachment = m.urgent_attachment ∧
    (pdfMailOpen stat).rejects = m.rejects ∧
    (pdfMailOpen stat).wrongMail = m.wrong_mail ∧
    (pdfMailOpen stat).withdrawLetter = m.withdraw_letter := by
  unfold pdfMailOpen orZero headMailColumns
  simp [List.lookup, hm]

/-- C28 (the code at the failing input): stat 1 of the sample store with a
mail opening has 4 urgent file creations stored, which `fetchFullStat` selects
and `GET /stats/:id` returns, but the single-stat PDF shows "Urgent File
Creation" 0 and "Total Processed" 11 instead of 15; the other seven counters
equal the stored values. -/
theorem c28_pdf_urgent_file_creation_is_zero :
    (fetchFullStat mailDb 1).map (fun st => st.mail.map fun m => m.urgent_file_creation) =
      some (some 4) ∧
    (fetchFullStat mailDb 1).map (fun st => (pdfMailOpen st).urgentFileCreation) = some 0 ∧
    (fetchFullStat mailDb 1).map pdfTotalProcessed = some 11 ∧
    (fetchFullStat mailDb 1).map pdfMailOpen =
      some { totalEnvelopes := 20, fileCreation := 5, urgentFileCreation := 0, attachment := 3,
             urgentAttachment := 2, rejects := 1, wrongMail := 0, withdrawLetter := 0 } ∧
    (match getStat 1000 ann 1 mailDb with
      | .ok view => view.mail.map fun m => m.urgent_file_creation
      | .error _ _ => none) = some 4 := by
  decide

/-! ## The reject table of the single-stat PDF (C22) -/

theorem reasonLineText_eq (lines : List Str) (i : Nat) (ln : Str) :
    reasonLineText lines i ln = ln := by
  unfold reasonLineText
  have hv : ¬ lines.length > visibleLines lines := by
    unfold visibleLines
    omega
  split
  · rfl
  · simp [hv]

theorem drawnReasonLines_eq (rowReasons : List Str) :
    drawnReasonLines rowReasons = bulletLines rowReasons := by
  unfold drawnReasonLines
  simp only [reasonLineText_eq]
  exact List.enum_map_snd _

theorem filter_nonEmpty (l : List Str) :
    (l.filter fun r => !r.isEmpty) = l.filter fun x => x ≠ [] := by
  apply List.filter_congr
  intro x _
  cases x <;> simp

theorem bulletLines_rjRowReasons (r : StatDetailRow) :
    bulletLines (rjRowReasons r) =
      if shownReasons r = [] then ["• -".toList]
      else (shownReasons r).map fun x => "• ".toList ++ x := by
  unfold shownReasons rjRowReasons bulletLines
  cases hr : r.reasons with
  | none => decide
  | some l =>
    cases l with
    | nil => decide
    | cons x xs =>
      simp only [Option.getD_some, filter_nonEmpty]
      by_cases h : List.filter (fun x => decide (x ≠ [])) (x :: xs) = []
      · rw [h]
        decide
      · rw [if_neg h]
        have : (List.filter (fun x => decide (x ≠ [])) (x :: xs)).isEmpty = false := by
          cases hl : List.filter (fun x => decide (x ≠ [])) (x :: xs) with
          | nil => exact absurd hl h
          | cons _ _ => rfl
        rw [this]
        rfl

/-- C22 (as stated, refuted): the reject row of stat 1 with the three reasons
`No signature`, `Wrong form`, `Fee missing` is drawn with three reason lines,
not two, each reason in full, and no line carries `(N more)`. -/
theorem c22_three_reasons_are_drawn_in_full :
    (fetchFullStat threeReasonsDb 1).map (fun st =>
      st.rejectRows.map fun r => (r.reasons.getD []).length) = some [3] ∧
    (fetchFullStat threeReasonsDb 1).map (fun st =>
      st.rejectRows.map fun r => drawnReasonLines (rjRowReasons r)) =
      some [["• No signature".toList, "• Wrong form".toList, "• Fee missing".toList]] ∧
    (fetchFullStat threeReasonsDb 1).map (fun st =>
      st.rejectRows.map fun r => (drawnReasonLines (rjRowReasons r)).length) ≠ some [2] := by
  decide

/-- C22 (amended): for every reject row, the reject table of the single-stat
PDF writes one reason line for each non-empty reason of the row, in stored
order and in full behind its bullet, whatever their number, and no line
carries an overflow indicator; the row is as high as `max(2, number of lines)`
lines need (`8 + 14` per line, at least 22); a row without a non-empty reason
gets the single line `-` and the height of two lines. -/
theorem c22_every_reason_is_drawn (r : StatDetailRow) :
    (shownReasons r ≠ [] →
      drawnReasonLines (rjRowReasons r) = (shownReasons r).map (fun x => "• ".toList ++ x) ∧
      rejectRowHeight (bulletLines (rjRowReasons r)) =
        max 22 (8 + max 2 (shownReasons r).length * 14)) ∧
    (shownReasons r = [] →
      drawnReasonLines (rjRowReasons r) = ["• -".toList] ∧
      rejectRowHeight (bulletLines (rjRowReasons r)) = 36) := by
  constructor
  · intro h
    rw [drawnReasonLines_eq, bulletLines_rjRowReasons, if_neg h]
    refine ⟨rfl, ?_⟩
    unfold rejectRowHeight visibleLines
    rw [List.length_map]
  · intro h
    rw [drawnReasonLines_eq, bulletLines_rjRowReasons, if_pos h]
    exact ⟨rfl, rfl⟩

/-- C22 (witness): the reject row with the reasons `No signature`,
`Wrong form`, `Fee missing`, which `fetchFullStat` returns for stat 1 of the
store with three reasons, is drawn with the three reasons, 50 points high. -/
theorem c22_every_reason_is_drawn_witness :
    (fetchFullStat threeReasonsDb 1).map (fun st => st.rejectRows) = some [threeReasonsRow] ∧
    shownReasons threeReasonsRow ≠ [] ∧
    drawnReasonLines (rjRowReasons threeReasonsRow) =
      ["• No signature".toList, "• Wrong form".toList, "• Fee missing".toList] ∧
    rejectRowHeight (bulletLines (rjRowReasons threeReasonsRow)) = 50 :=
  ⟨by decide, by decide,
    ((c22_every_reason_is_drawn threeReasonsRow).1 (by decide)).1.trans (by decide),
    ((c22_every_reason_is_drawn threeReasonsRow).1 (by decide)).2.trans (by decide)⟩

/-! ## Sorting the summary table by date (C30) -/

theorem isDigit_ne_hyphen (c : Char) (h : c.isDigit = true) : (c == '-') = false := by
  rw [beq_eq_false_iff_ne]
  rintro rfl
  exact absurd h (by decide)

theorem isDigit_ne_dot (c : Char) (h : c.isDigit = true) : (c == '.') = false := by
  rw [beq_eq_false_iff_ne]
  rintro rfl
  exact absurd h (by decide)

theorem toNum_isoDate (s : Str) (h : isIsoDate s = true) : toNum (.str s) = 0 := by
  unfold isIsoDate at h
  split at h
  · rename_i y1 y2 y3 y4 h1 m1 m2 h2 d1 d2
    simp only [List.all_cons, List.all_nil, Bool.and_true, Bool.and_eq_true, beq_iff_eq] at h
    obtain ⟨⟨⟨hy1, hy2, hy3, hy4, hm1, hm2, hd1, hd2⟩, rfl⟩, rfl⟩ := h
    have e : ([y1, y2, y3, y4, '-', m1, m2, '-', d1, d2] : Str).filter isNumChar =
        [y1, y2, y3, y4, '-', m1, m2, '-', d1, d2] := by
      simp [List.filter_cons, isNumChar, hy1, hy2, hy3, hy4, hm1, hm2, hd1, hd2]
    unfold toNum
    simp only [e]
    unfold jsNumber
    simp only [isDigit_ne_hyphen y1 hy1, Bool.false_eq_true, if_false]
    unfold unsignedDecimal
    simp [List.takeWhile, List.dropWhile, hy1, hy2, hy3, hy4]
  · cases h

theorem looksNumeric_isoDate (s : Str) (h : isIsoDate s = true) :
    looksNumeric (.str s) = true := by
  unfold isIsoDate at h
  split at h
  · rename_i y1 y2 y3 y4 h1 m1 m2 h2 d1 d2
    simp only [List.all_cons, List.all_nil, Bool.and_true, Bool.and_eq_true, beq_iff_eq] at h
    obtain ⟨⟨⟨hy1, hy2, hy3, hy4, hm1, hm2, hd1, hd2⟩, rfl⟩, rfl⟩ := h
    simp [looksNumeric, hy1, hy2, hy3, hy4, hm1, hm2, hd1, hd2]
  · cases h

theorem cmp_isoDate (localeCompare : Str → Str → ℚ) (a b : Str)
    (ha : isIsoDate a = true) (hb : isIsoDate b = true) :
    cmp localeCompare (.str a) (.str b) = 0 := by
  unfold cmp
  rw [looksNumeric_isoDate a ha, toNum_isoDate a ha, toNum_isoDate b hb]
  simp

theorem insertionSort_of_forall {α : Type} (r : α → α → Prop) [DecidableRel r]
    (h : ∀ a b, r a b) (l : List α) : l.insertionSort r = l := by
  induction l with
  | nil => rfl
  | cons a l ih =>
    rw [List.insertionSort, ih]
    exact orderedInsert_of_head r a l (fun c _ => h a c)

theorem sortedSummary_by_date (localeCompare : Str → Str → ℚ) (rows : List HiveSummaryRow)
    (dir : Str) (h : ∀ r ∈ rows, isIsoDate r.date = true) :
    sortedSummary localeCompare rows "date".toList dir = rows := by
  unfold sortedSummary jsSort
  have hcell : ∀ r : HiveSummaryRow, sortCell "date".toList r = .str r.date := by
    intro r
    unfold sortCell
    rw [if_neg (by decide), if_neg (by decide), if_pos rfl]
  induction rows with
  | nil => rfl
  | cons a l ih =>
    have ih' := ih (fun r hr => h r (List.mem_cons_of_mem a hr))
    rw [List.insertionSort, ih']
    apply orderedInsert_of_head
    intro c hc
    have hcl : c ∈ l := List.mem_of_mem_head? hc
    have h0 : cmp localeCompare (sortCell "date".toList a) (sortCell "date".toList c) = 0 := by
      rw [hcell, hcell]
      exact cmp_isoDate localeCompare a.date c.date (h a (List.mem_cons_self a _))
        (h c (List.mem_cons_of_mem a hcl))
    show (if dir = "asc".toList then
        cmp localeCompare (sortCell "date".toList a) (sortCell "date".toList c)
      else -cmp localeCompare (sortCell "date".toList a) (sortCell "date".toList c)) ≤ 0
    rw [h0]
    split <;> simp

/-- C30 (the code at the failing input): for the ISO dates `2024-01-15` and
`2024-02-01`, the first earlier than the second, `cmp` gives 0 in both
directions whatever the collation, and sorting the summary rows of 1 February
and 15 January by date ascending leaves 1 February first. -/
theorem c30_iso_dates_compare_as_equal :
    isIsoDate "2024-01-15".toList = true ∧ isIsoDate "2024-02-01".toList = true ∧
    (∀ localeCompare,
      cmp localeCompare (.str "2024-01-15".toList) (.str "2024-02-01".toList) = 0 ∧
      cmp localeCompare (.str "2024-02-01".toList) (.str "2024-01-15".toList) = 0) ∧
    (∀ localeCompare,
      (sortedSummary localeCompare
        [summaryRowOn 1 "2024-02-01".toList, summaryRowOn 2 "2024-01-15".toList]
        "date".toList "asc".toList).map (fun r => r.date) =
        ["2024-02-01".toList, "2024-01-15".toList]) := by
  refine ⟨by decide, by decide, fun lc => ⟨?_, ?_⟩, fun lc => ?_⟩
  · exact cmp_isoDate lc _ _ (by decide) (by decide)
  · exact cmp_isoDate lc _ _ (by decide) (by decide)
  · rw [sortedSummary_by_date lc _ _ (by decide)]
    rfl

/-! ## Responding to an invite (C26) -/

theorem updateInviteStatus_step (status : Str) (inviteId userId : Nat)
    (invites : List GroupInviteRow) :
    List.Forall₂ (inviteStep userId inviteId status) invites
      (updateInviteStatus status inviteId userId invites) := by
  unfold updateInviteStatus
  induction invites with
  | nil => exact List.Forall₂.nil
  | cons i l ih =>
    rw [List.map_cons]
    refine List.Forall₂.cons ?_ ih
    unfold inviteStep
    by_cases h : i.id = inviteId ∧ i.user_id = userId
    · simp [h.1, h.2]
    · have hb : (i.id == inviteId && i.user_id == userId) = false := by
        simpa using h
      simp only [hb, Bool.false_eq_true, if_false, if_neg h]
      simp

theorem find?_updateInviteStatus (status : Str) (inviteId userId : Nat)
    (invites : List GroupInviteRow) :
    (updateInviteStatus status inviteId userId invites).find? (fun i => i.id == inviteId) =
      (invites.find? fun i => i.id == inviteId).map fun i =>
        if i.id == inviteId && i.user_id == userId then { i with status := status } else i := by
  unfold updateInviteStatus
  induction invites with
  | nil => rfl
  | cons i l ih =>
    rw [List.map_cons, List.find?_cons, List.find?_cons]
    have hid : (if i.id == inviteId && i.user_id == userId then { i with status := status }
        else i).id = i.id := by
      split <;> rfl
    rw [hid]
    by_cases h : (i.id == inviteId) = true
    · simp only [h, Option.map_some']
    · simp only [h]
      exact ih

theorem respondInvite_invites (userId inviteId : Nat) (status : Str) (db : Db) :
    (respondInvite userId inviteId status db).2.group_invites =
      updateInviteStatus status inviteId userId db.group_invites := by
  unfold respondInvite
  simp only
  split
  · split <;> rfl
  · rfl

/-- C26 (as stated, refuted): an invite that its user has accepted is moved to
`declined` by a further response of that user; and user 8, for whom no invite
with id 1 exists, gets a `group_members` row of group 1 by accepting the
invite 1 of user 7. -/
theorem c26_accepted_invite_is_declined_again :
    inviteDb.group_invites.map (fun i => i.status) = ["accepted".toList] ∧
    (respondInvite 7 1 "declined".toList inviteDb).2.group_invites.map (fun i => i.status) =
      ["declined".toList] ∧
    (¬ ∃ i ∈ inviteDb.group_invites, i.id = 1 ∧ i.user_id = 8) ∧
    (respondInvite 8 1 "accepted".toList inviteDb).2.group_members =
      [{ group_id := 1, user_id := 7 }, { group_id := 1, user_id := 8 }] := by
  decide

/-- C26 (amended): a response to an invite changes of the stored invites
nothing but the status, and the status only of invites with the given id that
belong to the requester, which take the status of the request whatever they
held; with the status `accepted`, when the invite of the given id belongs to
the requester, the request is answered 200 and exactly the row (the invite's
group, requester) is added to `group_members`; with another status, or when no
invite has the given id, `group_members` is unchanged. -/
theorem c26_respond_invite (userId inviteId : Nat) (status : Str) (db : Db) :
    List.Forall₂ (inviteStep userId inviteId status) db.group_invites
      (respondInvite userId inviteId status db).2.group_invites ∧
    (status = "accepted".toList →
      ∀ invite, inviteOfId db inviteId = some invite → invite.user_id = userId →
        (respondInvite userId inviteId status db).1.status = 200 ∧
        (respondInvite userId inviteId status db).2.group_members =
          db.group_members ++ [{ group_id := invite.group_id, user_id := userId }]) ∧
    (status ≠ "accepted".toList →
      (respondInvite userId inviteId status db).2.group_members = db.group_members) ∧
    (inviteOfId db inviteId = none →
      (respondInvite userId inviteId status db).2.group_members = db.group_members) := by
  refine ⟨?_, ?_, ?_, ?_⟩
  · rw [respondInvite_invites]
    exact updateInviteStatus_step status inviteId userId db.group_invites
  · intro hst invite hinv _
    unfold inviteOfId at hinv
    unfold respondInvite
    simp only [if_pos hst]
    rw [find?_updateInviteStatus, hinv]
    simp only [Option.map_some']
    constructor
    · trivial
    · show db.group_members ++ _ = _
      congr 2
      split <;> rfl
  · intro hst
    unfold respondInvite
    simp only [if_neg hst]
  · intro hnone
    unfold inviteOfId at hnone
    unfold respondInvite
    simp only
    split
    · rw [find?_updateInviteStatus, hnone]
      rfl
    · rfl

/-- C26 (witness): user 7 accepts the pending invite 1 to group 1 and becomes a
member of group 1. -/
theorem c26_respond_invite_witness :
    inviteOfId pendingDb 1 =
      some { id := 1, group_id := 1, user_id := 7, status := "pending".toList } ∧
    (respondInvite 7 1 "accepted".toList pendingDb).1.status = 200 ∧
    (respondInvite 7 1 "accepted".toList pendingDb).2.group_members =
      [{ group_id := 1, user_id := 7 }] ∧
    (respondInvite 7 1 "accepted".toList pendingDb).2.group_invites.map (fun i => i.status) =
      ["accepted".toList] :=
  ⟨by decide,
    ((c26_respond_invite 7 1 "accepted".toList pendingDb).2.1 rfl
      { id := 1, group_id := 1, user_id := 7, status := "pending".toList }
      (by decide) rfl).1,
    ((c26_respond_invite 7 1 "accepted".toList pendingDb).2.1 rfl
      { id := 1, group_id := 1, user_id := 7, status := "pending".toList }
      (by decide) rfl).2,
    by decide⟩

/-! ## Scaling the column widths (C24) -/

theorem scaleColumns_concat (tableWidth : ℚ) (init : List PdfColumn) (last : PdfColumn)
    (hbase : widthSum (init ++ [last]) ≠ 0)
    (hfar : ¬ abs (widthSum (init ++ [last]) - tableWidth) < 1) :
    scaleColumns tableWidth (init ++ [last]) =
      init.map (fun c =>
        { c with width := scaledWidth tableWidth (widthSum (init ++ [last])) c }) ++
      [{ last with width := max 40 (tableWidth -
          (init.map (scaledWidth tableWidth (widthSum (init ++ [last])))).sum) }] := by
  unfold scaleColumns
  have hcond : ¬ ((((init ++ [last]).map fun c => c.width).sum = 0) ∨
      abs (((init ++ [last]).map fun c => c.width).sum - tableWidth) < 1) := by
    intro h
    rcases h with h | h
    · exact hbase h
    · exact hfar h
  simp only [if_neg hcond]
  rw [List.enum_append, List.map_append, List.enumFrom_singleton]
  have hlen : (init ++ [last]).length - 1 = init.length := by simp
  congr 1
  · rw [← List.enum_map_snd init, List.map_map]
    rw [List.enum_map_snd init]
    apply List.map_congr_left
    intro p hp
    have hlt : p.1 < init.length := List.fst_lt_of_mem_enum hp
    have hne : ¬ p.1 = (init ++ [last]).length - 1 := by rw [hlen]; omega
    simp only [if_neg hne, Function.comp]
    rfl
  · simp only [List.map_cons, List.map_nil, hlen, if_true, List.take_left']
    rfl

theorem widths_scaleColumns (tableWidth : ℚ) (cols : List PdfColumn)
    (hbase : widthSum cols ≠ 0) (hfar : ¬ abs (widthSum cols - tableWidth) < 1) :
    (scaleColumns tableWidth cols).map (fun c => c.width) =
      cols.dropLast.map (scaledWidth tableWidth (widthSum cols)) ++
        [max 40 (tableWidth - othersWidth tableWidth cols)] := by
  have hne : cols ≠ [] := by
    rintro rfl
    exact hbase rfl
  have hsplit := List.dropLast_append_getLast hne
  have h := scaleColumns_concat tableWidth cols.dropLast (cols.getLast hne)
    (by rw [hsplit]; exact hbase) (by rw [hsplit]; exact hfar)
  rw [hsplit] at h
  rw [h, List.map_append, List.map_map]
  rfl

theorem widthSum_scaleColumns (tableWidth : ℚ) (cols : List PdfColumn)
    (hbase : widthSum cols ≠ 0) (hfar : ¬ abs (widthSum cols - tableWidth) < 1) :
    widthSum (scaleColumns tableWidth cols) =
      othersWidth tableWidth cols + max 40 (tableWidth - othersWidth tableWidth cols) := by
  unfold widthSum
  rw [widths_scaleColumns tableWidth cols hbase hfar, List.sum_append]
  simp only [List.sum_cons, List.sum_nil, add_zero]
  rfl

/-- C24 (as stated, refuted): for the printable width 777.89 and two declared
columns of widths 1000 and 10, whose sum 1010 is positive and differs from the
printable width by more than 1, `scaleColumns` returns the widths 770 and 40,
which sum to 810, not to 777.89. -/
theorem c24_narrow_last_column_overflows :
    0 < widthSum wideNarrow ∧ 1 ≤ abs (widthSum wideNarrow - a4TableWidth) ∧
    (scaleColumns a4TableWidth wideNarrow).map (fun c => c.width) = [770, 40] ∧
    widthSum (scaleColumns a4TableWidth wideNarrow) ≠ a4TableWidth := by
  have hsum : widthSum wideNarrow = 1010 := by
    unfold widthSum wideNarrow
    norm_num
  have hfloor : ⌊(1000 : ℚ) * (77789 / 100 / 1010)⌋ = 770 := by
    rw [Int.floor_eq_iff]
    norm_num
  have hfar : ¬ abs (widthSum wideNarrow - a4TableWidth) < 1 := by
    rw [hsum, a4TableWidth, not_lt, le_abs]
    left
    norm_num
  have h := scaleColumns_concat a4TableWidth
    [{ key := "email".toList, width := 1000 }] { key := "rej".toList, width := 10 }
    (by show widthSum wideNarrow ≠ 0; rw [hsum]; norm_num) hfar
  have hcols : ([{ key := "email".toList, width := 1000 }] ++
      [{ key := "rej".toList, width := 10 }] : List PdfColumn) = wideNarrow := rfl
  rw [hcols, hsum] at h
  have hw : (scaleColumns a4TableWidth wideNarrow).map (fun c => c.width) = [770, 40] := by
    rw [h]
    simp only [List.map_cons, List.map_nil, List.map_append, List.singleton_append,
      List.sum_cons, List.sum_nil, scaledWidth, a4TableWidth, hfloor]
    norm_num
  refine ⟨by rw [hsum]; norm_num, not_lt.mp hfar, hw, ?_⟩
  unfold widthSum
  rw [hw, a4TableWidth]
  norm_num

/-- C24 (amended): when the declared widths sum to within 1 of the printable
width, `scaleColumns` returns the columns unchanged; when they sum to a
positive value that differs from the printable width by at least 1, every
column but the last gets `max(40, floor(width * tableWidth / sum))` and the
last one `max(40, tableWidth - the sum of the others)`; the new widths sum to
exactly the printable width provided the others leave at least 40 for the last
column, and to more than the printable width otherwise. -/
theorem c24_scaled_widths_sum (tableWidth : ℚ) (cols : List PdfColumn) :
    (abs (widthSum cols - tableWidth) < 1 → scaleColumns tableWidth cols = cols) ∧
    (0 < widthSum cols → 1 ≤ abs (widthSum cols - tableWidth) →
      (scaleColumns tableWidth cols).map (fun c => c.width) =
        cols.dropLast.map (scaledWidth tableWidth (widthSum cols)) ++
          [max 40 (tableWidth - othersWidth tableWidth cols)] ∧
      (40 ≤ tableWidth - othersWidth tableWidth cols →
        widthSum (scaleColumns tableWidth cols) = tableWidth) ∧
      (tableWidth - othersWidth tableWidth cols < 40 →
        widthSum (scaleColumns tableWidth cols) = othersWidth tableWidth cols + 40 ∧
        tableWidth < widthSum (scaleColumns tableWidth cols))) := by
  constructor
  · intro h
    unfold scaleColumns
    exact if_pos (Or.inr h)
  · intro hpos hfar
    have hsum := widthSum_scaleColumns tableWidth cols (ne_of_gt hpos) (not_lt.mpr hfar)
    refine ⟨widths_scaleColumns tableWidth cols (ne_of_gt hpos) (not_lt.mpr hfar), ?_, ?_⟩
    · intro hrest
      rw [hsum, max_eq_right hrest]
      ring
    · intro hrest
      rw [hsum, max_eq_left (le_of_lt hrest)]
      exact ⟨rfl, by linarith⟩

/-- C24 (witness): for the printable width 777.89, declared widths 300 and 200
become 466 and 311.89, which sum to 777.89. -/
theorem c24_scaled_widths_sum_witness :
    0 < widthSum twoColumns ∧ 1 ≤ abs (widthSum twoColumns - a4TableWidth) ∧
    40 ≤ a4TableWidth - othersWidth a4TableWidth twoColumns ∧
    widthSum (scaleColumns a4TableWidth twoColumns) = a4TableWidth := by
  have hsum : widthSum twoColumns = 500 := by
    unfold widthSum twoColumns
    norm_num
  have hfloor : ⌊(300 : ℚ) * (77789 / 100 / 500)⌋ = 466 := by
    rw [Int.floor_eq_iff]
    norm_num
  have hothers : othersWidth a4TableWidth twoColumns = 466 := by
    unfold othersWidth
    rw [hsum]
    simp only [twoColumns, List.dropLast, List.map_cons, List.map_nil, List.sum_cons,
      List.sum_nil, scaledWidth, a4TableWidth, hfloor]
    norm_num
  have hpos : 0 < widthSum twoColumns := by rw [hsum]; norm_num
  have hfar : 1 ≤ abs (widthSum twoColumns - a4TableWidth) := by
    rw [hsum, a4TableWidth, le_abs]
    right
    norm_num
  have hrest : 40 ≤ a4TableWidth - othersWidth a4TableWidth twoColumns := by
    rw [hothers, a4TableWidth]
    norm_num
  exact ⟨hpos, hfar, hrest,
    ((c24_scaled_widths_sum a4TableWidth twoColumns).2 hpos hfar).2.1 hrest⟩

/-! ## Top reject reasons (C23) -/

theorem countOf_bumpReason (m : List (Str × Nat)) (key k : Str) :
    countOf (bumpReason m key) k = countOf m k + if key = k then 1 else 0 := by
  induction m with
  | nil =>
    unfold bumpReason countOf
    by_cases h : key = k <;> simp [h, countOf]
  | cons e rest ih =>
    obtain ⟨k', n⟩ := e
    unfold bumpReason
    by_cases h1 : k' = key
    · rw [if_pos h1]
      unfold countOf
      by_cases h2 : k' = k
      · have h3 : key = k := h1 ▸ h2
        simp [h2, h3]
      · have h3 : ¬ key = k := fun h => h2 (h1.trans h)
        simp [h2, h3]
    · rw [if_neg h1]
      unfold countOf
      by_cases h2 : k' = k
      · have h3 : ¬ key = k := fun h => h1 (h2.trans h.symm)
        simp [h2, h3]
      · simp only [if_neg h2]
        exact ih

theorem keys_bumpReason (m : List (Str × Nat)) (key : Str) :
    (bumpReason m key).map Prod.fst =
      if key ∈ m.map Prod.fst then m.map Prod.fst else m.map Prod.fst ++ [key] := by
  induction m with
  | nil => simp [bumpReason]
  | cons e rest ih =>
    obtain ⟨k', n⟩ := e
    unfold bumpReason
    by_cases h1 : k' = key
    · rw [if_pos h1]
      simp [h1]
    · rw [if_neg h1, List.map_cons, ih]
      have h1' : ¬ key = k' := fun h => h1 h.symm
      by_cases h2 : key ∈ rest.map Prod.fst
      · simp [h2]
      · simp [h2, h1']

theorem pos_bumpReason (m : List (Str × Nat)) (key : Str) (h : ∀ e ∈ m, 0 < e.2) :
    ∀ e ∈ bumpReason m key, 0 < e.2 := by
  induction m with
  | nil =>
    intro e he
    simp only [bumpReason, List.mem_singleton] at he
    rw [he]
    exact Nat.one_pos
  | cons e' rest ih =>
    obtain ⟨k', n⟩ := e'
    intro e he
    unfold bumpReason at he
    by_cases h1 : k' = key
    · rw [if_pos h1] at he
      rcases List.mem_cons.mp he with he | he
      · rw [he]
        exact Nat.succ_pos n
      · exact h e (List.mem_cons_of_mem _ he)
    · rw [if_neg h1] at he
      rcases List.mem_cons.mp he with he | he
      · rw [he]
        exact h (k', n) (List.mem_cons_self _ _)
      · exact ih (fun x hx => h x (List.mem_cons_of_mem _ hx)) e he

theorem nodup_bumpReason (m : List (Str × Nat)) (key : Str) (h : (m.map Prod.fst).Nodup) :
    ((bumpReason m key).map Prod.fst).Nodup := by
  rw [keys_bumpReason]
  split
  · exact h
  · rename_i hk
    rw [List.nodup_append]
    refine ⟨h, List.nodup_singleton key, ?_⟩
    intro a ha hb
    rw [List.mem_singleton] at hb
    exact hk (hb ▸ ha)

/-- What the entries of the map hold once the keys `ks` have been counted:
distinct keys, positive counts, and for every key its number of occurrences. -/
theorem foldl_bumpReason (ks : List Str) (m : List (Str × Nat)) (seen : List Str)
    (hnd : (m.map Prod.fst).Nodup) (hpos : ∀ e ∈ m, 0 < e.2)
    (hcnt : ∀ k, countOf m k = seen.count k) :
    ((ks.foldl bumpReason m).map Prod.fst).Nodup ∧
    (∀ e ∈ ks.foldl bumpReason m, 0 < e.2) ∧
    (∀ k, countOf (ks.foldl bumpReason m) k = (seen ++ ks).count k) := by
  induction ks generalizing m seen with
  | nil => exact ⟨hnd, hpos, by simpa using hcnt⟩
  | cons key ks ih =>
    rw [List.foldl_cons]
    have h := ih (bumpReason m key) (seen ++ [key]) (nodup_bumpReason m key hnd)
      (pos_bumpReason m key hpos) (by
        intro k
        rw [countOf_bumpReason, hcnt, List.count_append, List.count_singleton]
        by_cases hk : key = k <;> simp [hk])
    rw [List.append_assoc, List.singleton_append] at h
    exact h

theorem countOf_of_mem (m : List (Str × Nat)) (hnd : (m.map Prod.fst).Nodup)
    (e : Str × Nat) (he : e ∈ m) : countOf m e.1 = e.2 := by
  induction m with
  | nil => cases he
  | cons e' rest ih =>
    obtain ⟨k', n⟩ := e'
    rw [List.map_cons, List.nodup_cons] at hnd
    unfold countOf
    rcases List.mem_cons.mp he with h | h
    · rw [h]
      simp
    · have hne : ¬ k' = e.1 := by
        intro heq
        apply hnd.1
        rw [heq]
        exact List.mem_map.mpr ⟨e, h, rfl⟩
      rw [if_neg hne]
      exact ih hnd.2 h

theorem mem_keys_iff (m : List (Str × Nat)) (hpos : ∀ e ∈ m, 0 < e.2) (k : Str) :
    k ∈ m.map Prod.fst ↔ 0 < countOf m k := by
  induction m with
  | nil => simp [countOf]
  | cons e' rest ih =>
    obtain ⟨k', n⟩ := e'
    have ih' := ih (fun x hx => hpos x (List.mem_cons_of_mem _ hx))
    have hn : 0 < n := hpos (k', n) (List.mem_cons_self _ _)
    unfold countOf
    rw [List.map_cons, List.mem_cons]
    by_cases h : k' = k
    · simp [h, hn]
    · have h' : ¬ k = k' := fun hh => h hh.symm
      simp [h, h', ih']

theorem foldl_countReason (reasons : List Str) (m : List (Str × Nat)) :
    reasons.foldl countReason m =
      ((reasons.map trim).filter fun k => !k.isEmpty).foldl bumpReason m := by
  induction reasons generalizing m with
  | nil => rfl
  | cons r rs ih =>
    rw [List.foldl_cons, ih, List.map_cons, List.filter_cons]
    unfold countReason
    by_cases h : (trim r).isEmpty = true
    · simp [h]
    · simp [h]

theorem reasonMap_eq (rejectRows : List StatDetailRow) :
    reasonMap rejectRows = (reasonKeys rejectRows).foldl bumpReason [] := by
  unfold reasonMap reasonKeys
  generalize ([] : List (Str × Nat)) = m
  induction rejectRows generalizing m with
  | nil => rfl
  | cons r rs ih =>
    rw [List.foldl_cons, ih, List.flatMap_cons, List.map_append, List.filter_append,
      List.foldl_append]
    congr 1
    cases hr : r.reasons with
    | none => rfl
    | some reasons => exact foldl_countReason reasons m

theorem reasonMap_spec (rejectRows : List StatDetailRow) :
    ((reasonMap rejectRows).map Prod.fst).Nodup ∧
    (∀ k, k ∈ (reasonMap rejectRows).map Prod.fst ↔ k ∈ reasonKeys rejectRows) ∧
    (∀ e ∈ reasonMap rejectRows, e.2 = (reasonKeys rejectRows).count e.1) := by
  rw [reasonMap_eq]
  obtain ⟨hnd, hpos, hcnt⟩ := foldl_bumpReason (reasonKeys rejectRows) [] []
    List.nodup_nil (fun e he => by cases he) (fun k => rfl)
  rw [List.nil_append] at hcnt
  refine ⟨hnd, fun k => ?_, fun e he => ?_⟩
  · rw [mem_keys_iff _ hpos, hcnt, List.count_pos_iff]
  · rw [← hcnt, countOf_of_mem _ hnd e he]

/-- C23: the rows of "Top Reject Reasons" hold exactly one entry per distinct
trimmed, non-empty reason string occurring in the reject rows of the stat, each
with the number of its occurrences as count, ordered by count
non-increasing. -/
theorem c23_top_reject_reasons (rejectRows : List StatDetailRow) :
    ((pdfReasonRows rejectRows).map Prod.fst).Nodup ∧
    (∀ k, k ∈ (pdfReasonRows rejectRows).map Prod.fst ↔ k ∈ reasonKeys rejectRows) ∧
    (∀ e, e ∈ pdfReasonRows rejectRows → e.2 = (reasonKeys rejectRows).count e.1) ∧
    (pdfReasonRows rejectRows).Sorted (fun a b => a.2 ≥ b.2) := by
  obtain ⟨hnd, hkeys, hcnt⟩ := reasonMap_spec rejectRows
  have hperm : (pdfReasonRows rejectRows).Perm (reasonMap rejectRows) :=
    List.perm_insertionSort _ _
  refine ⟨?_, ?_, ?_, ?_⟩
  · exact (hperm.map Prod.fst).nodup_iff.mpr hnd
  · intro k
    rw [(hperm.map Prod.fst).mem_iff]
    exact hkeys k
  · intro e he
    exact hcnt e (hperm.mem_iff.mp he)
  · have hrel : pdfReasonRows rejectRows =
        (reasonMap rejectRows).insertionSort (fun a b : Str × Nat => a.2 ≥ b.2) := by
      unfold pdfReasonRows jsSort
      apply insertionSort_congr
      intro a _ b _
      constructor
      · intro h
        have h' : (b.2 : Int) - (a.2 : Int) ≤ 0 := h
        show b.2 ≤ a.2
        omega
      · intro h
        have h' : b.2 ≤ a.2 := h
        show (b.2 : Int) - (a.2 : Int) ≤ 0
        omega
    rw [hrel]
    haveI : IsTotal (Str × Nat) (fun a b => a.2 ≥ b.2) := ⟨fun a b => Nat.le_total b.2 a.2⟩
    haveI : IsTrans (Str × Nat) (fun a b => a.2 ≥ b.2) :=
      ⟨fun a b c hab hbc => Nat.le_trans hbc hab⟩
    exact List.sorted_insertionSort _ _

/-- C23 (witness): stat 1 of the sample store with repeated reasons has
`No signature` three times (once with surrounding blanks), `Wrong form` once
and one blank reason; the table holds `No signature` with count 3, then
`Wrong form` with count 1. -/
theorem c23_top_reject_reasons_witness :
    (fetchFullStat repeatDb 1).map (fun st => pdfReasonRows st.rejectRows) =
      some [("No signature".toList, 3), ("Wrong form".toList, 1)] ∧
    ∀ st, fetchFullStat repeatDb 1 = some st →
      ("No signature".toList, 3) ∈ pdfReasonRows st.rejectRows ∧
      (reasonKeys st.rejectRows).count "No signature".toList = 3 := by
  have h : (fetchFullStat repeatDb 1).map (fun st => pdfReasonRows st.rejectRows) =
      some [("No signature".toList, 3), ("Wrong form".toList, 1)] := by decide
  refine ⟨h, fun st hst => ?_⟩
  rw [hst] at h
  have hrows : pdfReasonRows st.rejectRows =
      [("No signature".toList, 3), ("Wrong form".toList, 1)] := Option.some.inj h
  have hmem : ("No signature".toList, 3) ∈ pdfReasonRows st.rejectRows := by
    rw [hrows]
    exact List.mem_cons_self _ _
  exact ⟨hmem, ((c23_top_reject_reasons st.rejectRows).2.2.1 _ hmem).symm⟩

/-! ## Editing round trip of the file-creation form (C29) -/

theorem prefillEntry_fetched (r : FileCreationRow) :
    (prefillEntry (fetchedFc r)).checks =
      { natp := .undefined, rtd := .undefined, coi := .undefined, none := .undefined } := rfl

/-- C29 (the code at the failing input): `GET /stats/1` returns the
file-creation row individual/regular, row 0, value 101 with `natp = 1` and the
row family/regular, row 0, value 7 with `coi = 1`; prefilling the form from the
returned rows and reading it back with `getRows` yields both rows with the same
category, urgency, row index and value but with no flag at all in `checks`. -/
theorem c29_prefill_drops_the_flags :
    (match getStat 1000 ann 1 flagDb with
      | .ok view => some (view.fileCreationRows.map fun r => (r.value, r.natp, r.coi))
      | .error _ _ => none) =
      some [(101, .num 1, .num 0), (0, .num 0, .num 0), (7, .num 0, .num 1)] ∧
    (match getStat 1000 ann 1 flagDb with
      | .ok view => some (getRows (prefill view.fileCreationRows))
      | .error _ _ => none) =
      some
        [{ category := "individual".toList, urgency := "regular".toList, groupIndex := none,
           rowIndex := 0, value := 101,
           checks := { natp := .undefined, rtd := .undefined, coi := .undefined,
                       none := .undefined } },
         { category := "family".toList, urgency := "regular".toList, groupIndex := some 0,
           rowIndex := 0, value := 7,
           checks := { natp := .undefined, rtd := .undefined, coi := .undefined,
                       none := .undefined } }] := by
  decide

/-! ## The filter predicate, stated apart from the query builder (C1, C5) -/

theorem sqlLike_of_likeMatch (p s : Str) (h : LikeMatch p s) : sqlLike p s = true := by
  induction h with
  | done => rfl
  | anyRun p run t _ ih =>
    rw [sqlLike_percent, List.any_eq_true]
    exact ⟨t, (List.mem_tails t (run ++ t)).mpr (List.suffix_append run t), ih⟩
  | anyOne p d t _ ih =>
    rw [sqlLike.eq_def]
    simp [ih]
  | escaped e p t _ ih =>
    rw [sqlLike.eq_def]
    simp [ih]
  | lastBackslash =>
    rw [sqlLike.eq_def]
    simp
  | same c p t h1 h2 h3 _ ih =>
    rw [sqlLike.eq_def]
    simp [h1, h2, h3, ih]

theorem likeMatch_of_sqlLike (n : Nat) : ∀ (p s : Str), p.length ≤ n → sqlLike p s = true →
    LikeMatch p s := by
  induction n with
  | zero =>
    intro p s hp h
    have hp0 : p = [] := List.length_eq_zero.mp (Nat.le_zero.mp hp)
    subst hp0
    rw [sqlLike.eq_def] at h
    simp only [List.isEmpty_iff] at h
    rw [h]
    exact LikeMatch.done
  | succ n ih =>
    intro p s hp h
    cases p with
    | nil =>
      rw [sqlLike.eq_def] at h
      simp only [List.isEmpty_iff] at h
      rw [h]
      exact LikeMatch.done
    | cons c p =>
      have hpl : p.length ≤ n := by simpa using hp
      by_cases h1 : c = '%'
      · subst h1
        rw [sqlLike_percent, List.any_eq_true] at h
        obtain ⟨t, ht, hm⟩ := h
        obtain ⟨run, hrun⟩ := (List.mem_tails t s).mp ht
        rw [← hrun]
        exact LikeMatch.anyRun p run t (ih p t hpl hm)
      · by_cases h2 : c = '_'
        · subst h2
          rw [sqlLike.eq_def] at h
          cases s with
          | nil => simp at h
          | cons d t =>
            simp at h
            exact LikeMatch.anyOne p d t (ih p t hpl h)
        · by_cases h3 : c = '\\'
          · subst h3
            rw [sqlLike.eq_def] at h
            cases p with
            | nil =>
              cases s with
              | nil => simp at h
              | cons d t =>
                simp at h
                obtain ⟨hd, ht⟩ := h
                subst hd
                subst ht
                exact LikeMatch.lastBackslash
            | cons e q =>
              cases s with
              | nil => simp at h
              | cons d t =>
                simp at h
                obtain ⟨hd, hm⟩ := h
                subst hd
                have hql : q.length ≤ n := by
                  simp only [List.length_cons] at hpl
                  omega
                exact LikeMatch.escaped d q t (ih q t hql hm)
          · rw [sqlLike.eq_def] at h
            cases s with
            | nil => simp [h1, h2, h3] at h
            | cons d t =>
              simp [h1, h2, h3] at h
              obtain ⟨hd, hm⟩ := h
              subst hd
              exact LikeMatch.same d p t h1 h2 h3 (ih p t hpl hm)

theorem sqlLike_iff (p s : Str) : sqlLike p s = true ↔ LikeMatch p s :=
  ⟨likeMatch_of_sqlLike p.length p s (Nat.le_refl _), sqlLike_of_likeMatch p s⟩

theorem truthy_iff (v : Option Str) : truthy v = true ↔ Supplied v := by
  unfold truthy Supplied
  cases v with
  | none => simp
  | some f => cases f <;> simp

theorem trim_isEmpty_iff (s : Str) :
    (trim s).isEmpty = true ↔ ∀ c ∈ s, isWhiteSpace c = true := by
  unfold trim
  rw [List.isEmpty_iff, List.reverse_eq_nil_iff, List.dropWhile_eq_nil_iff]
  constructor
  · intro h
    by_contra hne
    push_neg at hne
    obtain ⟨c, hc, hcw⟩ := hne
    have hd : s.dropWhile isWhiteSpace ≠ [] := by
      intro hnil
      rw [List.dropWhile_eq_nil_iff] at hnil
      exact hcw (hnil c hc)
    have hhead := List.head_dropWhile_not isWhiteSpace s hd
    have hmem : (s.dropWhile isWhiteSpace).head hd ∈ (s.dropWhile isWhiteSpace).reverse :=
      List.mem_reverse.mpr (List.head_mem hd)
    have := h _ hmem
    rw [this] at hhead
    cases hhead
  · intro h x hx
    have hx' : x ∈ s.dropWhile isWhiteSpace := List.mem_reverse.mp hx
    exact h x ((List.dropWhile_sublist isWhiteSpace).subset hx')

theorem nonBlank_iff (v : Option Str) : nonBlank v = true ↔ SuppliedText v := by
  unfold nonBlank SuppliedText
  cases v with
  | none => simp [truthy]
  | some f =>
    have ht := trim_isEmpty_iff f
    simp only [strOf, Option.getD_some, Bool.and_eq_true, Bool.not_eq_true',
      Option.some.injEq, exists_eq_left']
    constructor
    · rintro ⟨_, hne⟩
      by_contra hall
      push_neg at hall
      have : (trim f).isEmpty = true := ht.mpr (fun c hc => by
        have := hall c hc
        simpa using this)
      rw [this] at hne
      cases hne
    · rintro ⟨c, hc, hcw⟩
      constructor
      · cases f with
        | nil => cases hc
        | cons a l => rfl
      · cases hte : (trim f).isEmpty with
        | false => rfl
        | true =>
          have := ht.mp hte c hc
          rw [this] at hcw
          cases hcw

theorem likePattern_eq (f : Str) : likePattern f = anywherePattern f := rfl

theorem supplied_cond (v : Option Str) (b : Str → Bool) (P : Str → Prop)
    (hb : ∀ f, b f = true ↔ P f) :
    (!truthy v || b (strOf v)) = true ↔ ∀ f, v = some f → f ≠ [] → P f := by
  cases v with
  | none => simp [truthy]
  | some f =>
    cases f with
    | nil => simp [truthy]
    | cons a l =>
      simp only [truthy, strOf, Option.getD_some, Bool.not_true, Bool.false_or, hb,
        Option.some.injEq]
      constructor
      · intro h f hf _
        rw [← hf]
        exact h
      · intro h
        exact h _ rfl (List.cons_ne_nil a l)

theorem suppliedText_cond (v : Option Str) (b : Str → Bool) (P : Str → Prop)
    (hb : ∀ f, b f = true ↔ P f) :
    (!nonBlank v || b (strOf v)) = true ↔
      ∀ f, v = some f → (∃ c ∈ f, isWhiteSpace c = false) → P f := by
  by_cases hn : nonBlank v = true
  · obtain ⟨f, hf, hc⟩ := (nonBlank_iff v).mp hn
    subst hf
    simp only [hn, Bool.not_true, Bool.false_or, strOf, Option.getD_some, hb,
      Option.some.injEq]
    constructor
    · intro h g hg _
      rw [← hg]
      exact h
    · intro h
      exact h f rfl hc
  · have hn' : nonBlank v = false := by simpa using hn
    simp only [hn', Bool.not_false, Bool.true_or, true_iff]
    intro f hf hc
    exact absurd ((nonBlank_iff v).mpr ⟨f, hf, hc⟩) hn

theorem sqlLikeNull_iff {α : Type} (lu : Option α) (g : α → Str) (p : Str) :
    sqlLikeNull (lu.map fun l => toLowerCase (g l)) p = true ↔
      ∃ l, lu = some l ∧ LikeMatch p ((g l).map Char.toLower) := by
  cases lu with
  | none => simp [sqlLikeNull]
  | some l =>
    simp only [Option.map_some', sqlLikeNull, Option.some.injEq, exists_eq_left']
    exact sqlLike_iff p _

theorem searchMatches_iff (r : HiveRow) (p : Str) :
    searchMatches r p = true ↔
      LikeMatch p (r.u.first_name.map Char.toLower) ∨
      LikeMatch p (r.u.surname.map Char.toLower) ∨
      LikeMatch p (r.u.email.map Char.toLower) ∨
      (∃ l, r.lu = some l ∧ LikeMatch p (l.first_name.map Char.toLower)) ∨
      (∃ l, r.lu = some l ∧ LikeMatch p (l.surname.map Char.toLower)) ∨
      (∃ l, r.lu = some l ∧ LikeMatch p (l.email.map Char.toLower)) := by
  unfold searchMatches
  simp only [Bool.or_eq_true, or_assoc]
  rw [sqlLikeNull_iff r.lu (fun l => l.first_name), sqlLikeNull_iff r.lu (fun l => l.surname),
    sqlLikeNull_iff r.lu (fun l => l.email)]
  rw [show toLowerCase r.u.first_name = r.u.first_name.map Char.toLower from rfl,
    show toLowerCase r.u.surname = r.u.surname.map Char.toLower from rfl,
    show toLowerCase r.u.email = r.u.email.map Char.toLower from rfl,
    sqlLike_iff, sqlLike_iff, sqlLike_iff]

theorem rowMatches_iff (dateOf : Str → Nat) (qy : HiveQuery) (r : HiveRow) :
    rowMatches dateOf qy r = true ↔ RowSatisfies dateOf qy r := by
  unfold rowMatches
  simp only [Bool.and_eq_true]
  rw [supplied_cond qy.dateFrom (fun f => decide (dateOf f ≤ r.s.date))
      (fun f => dateOf f ≤ r.s.date) (fun f => by simp),
    supplied_cond qy.dateTo (fun f => decide (r.s.date ≤ dateOf f))
      (fun f => r.s.date ≤ dateOf f) (fun f => by simp),
    supplied_cond qy.clientEmail (fun f => sqlLike (likePattern f) (toLowerCase r.u.email))
      (fun f => LikeMatch (anywherePattern f) (r.u.email.map Char.toLower))
      (fun f => sqlLike_iff _ _),
    supplied_cond qy.leaderEmail
      (fun f => sqlLikeNull (r.lu.map fun l => toLowerCase l.email) (likePattern f))
      (fun f => ∃ l, r.lu = some l ∧ LikeMatch (anywherePattern f) (l.email.map Char.toLower))
      (fun f => sqlLikeNull_iff r.lu (fun l => l.email) _),
    suppliedText_cond qy.search (fun f => searchMatches r (likePattern f)) _
      (fun f => searchMatches_iff r (likePattern f))]
  constructor
  · rintro ⟨⟨⟨⟨h1, h2⟩, h3⟩, h4⟩, h5⟩
    exact ⟨h1, h2, h3, h4, h5⟩
  · rintro ⟨h1, h2, h3, h4, h5⟩
    exact ⟨⟨⟨⟨h1, h2⟩, h3⟩, h4⟩, h5⟩

theorem statMatches_iff (dateOf : Str → Nat) (db : Db) (qy : HiveQuery) (s : StatRow) :
    statMatches dateOf db qy s = true ↔ StatSatisfies dateOf db qy s := by
  unfold statMatches StatSatisfies
  cases joinedRow db s with
  | none => simp
  | some r =>
    simp only [Option.some.injEq, exists_eq_left']
    exact rowMatches_iff dateOf qy r

theorem storeKeys_mixedDb : StoreKeys mixedDb :=
  { stats_key := by decide
    users_key := by decide
    stats_owner := by decide
    team_leader_key := by decide
    mail_key := by decide }

/-- C1: in a store that obeys the keys of the schema, for every filter set the
`total` returned by `queryHiveData` is the number of `stats` rows that satisfy
the filter predicate, each counted once: it is the length of the list of the
stats, in storage order and without repetition, that have an owner and
satisfy every supplied filter; and it is the same for every value of `page`
and `pageSize`. -/
theorem c1_total_counts_satisfying_stats (dateOf : Str → Nat) (db : Db) (qy : HiveQuery)
    (hk : StoreKeys db) :
    (∃ matching : List StatRow,
      matching.Sublist db.stats ∧ matching.Nodup ∧
      (∀ s ∈ db.stats, s ∈ matching ↔ StatSatisfies dateOf db qy s) ∧
      (queryHiveData dateOf db qy).total = matching.length) ∧
    ∀ page pageSize : QVal,
      (queryHiveData dateOf db { qy with page := page, pageSize := pageSize }).total =
        (queryHiveData dateOf db qy).total := by
  constructor
  · refine ⟨db.stats.filter (statMatches dateOf db qy), List.filter_sublist _, ?_, ?_, ?_⟩
    · exact (List.Nodup.of_map _ hk.stats_key).filter _
    · intro s hs
      rw [List.mem_filter, statMatches_iff]
      exact ⟨fun h => h.2, fun h => ⟨hs, h⟩⟩
    · rw [total_eq, ← selectRows_stats dateOf db hk qy, List.length_map]
  · intro page pageSize
    rfl

/-- C1 (witness): in the sample store with a stat of a second user, the
filters `from=101` and `clientEmail=ANN` leave out stat 1 (of day 100) and
stat 4 (of `bob@x.org`) and count stats 2 and 3. -/
theorem c1_total_counts_satisfying_stats_witness :
    StoreKeys mixedDb ∧
    (queryHiveData digitsValue mixedDb fromAndClient).total = 2 ∧
    mixedDb.stats.map (fun s => s.id) = [1, 2, 3, 4] ∧
    (∃ matching : List StatRow,
      matching.length = 2 ∧ matching.Sublist mixedDb.stats ∧
      ∀ s ∈ mixedDb.stats, s ∈ matching ↔ StatSatisfies digitsValue mixedDb fromAndClient s) ∧
    (∀ s ∈ mixedDb.stats, StatSatisfies digitsValue mixedDb fromAndClient s ↔
      (s.id = 2 ∨ s.id = 3)) := by
  obtain ⟨matching, hsub, -, hmem, htotal⟩ :=
    (c1_total_counts_satisfying_stats digitsValue mixedDb fromAndClient storeKeys_mixedDb).1
  have h2 : (queryHiveData digitsValue mixedDb fromAndClient).total = 2 := by decide
  refine ⟨storeKeys_mixedDb, h2, by decide, ⟨matching, by rw [← htotal, h2], hsub, hmem⟩, ?_⟩
  intro s hs
  rw [← statMatches_iff]
  revert s
  decide

theorem mem_buildWhere (qy : HiveQuery) :
    (Cond.dateGe ∈ (buildWhere qy).1 ↔ truthy qy.dateFrom = true) ∧
    (Cond.dateLe ∈ (buildWhere qy).1 ↔ truthy qy.dateTo = true) ∧
    (Cond.userEmailLike ∈ (buildWhere qy).1 ↔ truthy qy.clientEmail = true) ∧
    (Cond.leaderEmailLike ∈ (buildWhere qy).1 ↔ truthy qy.leaderEmail = true) ∧
    (Cond.searchLike ∈ (buildWhere qy).1 ↔ nonBlank qy.search = true) ∧
    (buildWhere qy).1.Sublist
      [Cond.dateGe, Cond.dateLe, Cond.userEmailLike, Cond.leaderEmailLike, Cond.searchLike] := by
  rw [buildWhere_conds]
  cases truthy qy.dateFrom <;> cases truthy qy.dateTo <;> cases truthy qy.clientEmail <;>
    cases truthy qy.leaderEmail <;> cases nonBlank qy.search <;> (simp; try decide)

/-- C5: for every query, the conditions pushed on `where` are, in the order
`from`, `to`, `clientEmail`, `leaderEmail`, `q` and each at most once, exactly
the conditions of the supplied filters: the condition of `from`, `to`,
`clientEmail` or `leaderEmail` is there exactly when the key holds a non-empty
string, and the condition of `q` exactly when `q` holds a character that is
not white space; a joined row satisfies their conjunction exactly when it
satisfies every supplied filter, the one of `q` being the disjunction over the
six name and email columns of owner and team leader; the statement has no
`WHERE` clause exactly when no filter is supplied; an absent or empty filter
is not supplied, and neither is a `q` made of white space only. -/
theorem c5_where_is_conjunction_of_supplied_filters (dateOf : Str → Nat) (qy : HiveQuery) :
    (Cond.dateGe ∈ (buildWhere qy).1 ↔ Supplied qy.dateFrom) ∧
    (Cond.dateLe ∈ (buildWhere qy).1 ↔ Supplied qy.dateTo) ∧
    (Cond.userEmailLike ∈ (buildWhere qy).1 ↔ Supplied qy.clientEmail) ∧
    (Cond.leaderEmailLike ∈ (buildWhere qy).1 ↔ Supplied qy.leaderEmail) ∧
    (Cond.searchLike ∈ (buildWhere qy).1 ↔ SuppliedText qy.search) ∧
    (buildWhere qy).1.Sublist
      [Cond.dateGe, Cond.dateLe, Cond.userEmailLike, Cond.leaderEmailLike, Cond.searchLike] ∧
    (∀ r : HiveRow,
      evalWhere dateOf (buildWhere qy).1 (buildWhere qy).2 r = true ↔
        RowSatisfies dateOf qy r) ∧
    ((buildSql qy).whereClause = none ↔
      ¬ Supplied qy.dateFrom ∧ ¬ Supplied qy.dateTo ∧ ¬ Supplied qy.clientEmail ∧
        ¬ Supplied qy.leaderEmail ∧ ¬ SuppliedText qy.search) ∧
    ((buildSql qy).whereClause ≠ none → (buildSql qy).whereClause = some (buildWhere qy).1) ∧
    ¬ Supplied none ∧ ¬ Supplied (some []) ∧ ¬ SuppliedText none ∧
    (∀ s : Str, (∀ c ∈ s, isWhiteSpace c = true) → ¬ SuppliedText (some s)) := by
  obtain ⟨m1, m2, m3, m4, m5, hsub⟩ := mem_buildWhere qy
  refine ⟨m1.trans (truthy_iff _), m2.trans (truthy_iff _), m3.trans (truthy_iff _),
    m4.trans (truthy_iff _), m5.trans (nonBlank_iff _), hsub, ?_, ?_, ?_, ?_, ?_, ?_, ?_⟩
  · intro r
    rw [evalWhere_buildWhere]
    exact rowMatches_iff dateOf qy r
  · rw [← truthy_iff, ← truthy_iff, ← truthy_iff, ← truthy_iff, ← nonBlank_iff]
    unfold buildSql
    simp only [buildWhere_conds]
    cases truthy qy.dateFrom <;> cases truthy qy.dateTo <;> cases truthy qy.clientEmail <;>
      cases truthy qy.leaderEmail <;> cases nonBlank qy.search <;> simp
  · unfold buildSql
    simp only
    split
    · intro h; exact absurd rfl h
    · intro _; rfl
  · rintro ⟨f, hf, -⟩
    cases hf
  · rintro ⟨f, hf, hne⟩
    exact hne (Option.some.inj hf).symm
  · rintro ⟨f, hf, -⟩
    cases hf
  · rintro s hs ⟨f, hf, c, hc, hcw⟩
    obtain rfl := Option.some.inj hf
    rw [hs c hc] at hcw
    cases hcw

/-- C5 (witness): the filters `from=101`, `clientEmail=ANN` and `q=lee` are
supplied and give the three conditions on the date, the owner email and the
six columns; the sample row of day 101 satisfies them and the one of day 100
does not. -/
theorem c5_where_is_conjunction_of_supplied_filters_witness :
    Supplied threeFilters.dateFrom ∧ Supplied threeFilters.clientEmail ∧
    SuppliedText threeFilters.search ∧
    (buildWhere threeFilters).1 = [Cond.dateGe, Cond.userEmailLike, Cond.searchLike] ∧
    Cond.searchLike ∈ (buildWhere threeFilters).1 ∧
    RowSatisfies digitsValue threeFilters (sampleRowOn 101) ∧
    ¬ RowSatisfies digitsValue threeFilters (sampleRowOn 100) :=
  ⟨⟨_, rfl, by decide⟩, ⟨_, rfl, by decide⟩, ⟨_, rfl, 'l', by decide, by decide⟩, by decide,
    (c5_where_is_conjunction_of_supplied_filters digitsValue threeFilters).2.2.2.2.1.mpr
      ⟨_, rfl, 'l', by decide, by decide⟩,
    ((c5_where_is_conjunction_of_supplied_filters digitsValue threeFilters).2.2.2.2.2.2.1
      (sampleRowOn 101)).mp (by decide),
    fun h =>
      absurd (((c5_where_is_conjunction_of_supplied_filters digitsValue threeFilters).2.2.2.2.2.2.1
        (sampleRowOn 100)).mpr h) (by decide)⟩

/-! ## The names the splitter meets (C19) -/

theorem insertFileCreations_users (u : ReqUser) (id : Nat) (rows : List PayloadRow) (db : Db) :
    (insertFileCreations u id rows db).2.users = db.users := by
  induction rows generalizing db with
  | nil => rfl
  | cons r rs ih =>
    unfold insertFileCreations
    cases r.checks with
    | none => rfl
    | some c => exact ih _

theorem insertAttachments_users (u : ReqUser) (id : Nat) (rows : List PayloadRow) (db : Db) :
    (insertAttachments u id rows db).2.users = db.users := by
  induction rows generalizing db with
  | nil => rfl
  | cons r rs ih =>
    unfold insertAttachments
    cases r.checks with
    | none => rfl
    | some c => exact ih _

theorem insertReasons_users (u : ReqUser) (rejectId : Nat) (value : Int) (reasons : List Str)
    (db : Db) : (insertReasons u rejectId value reasons db).users = db.users := by
  induction reasons generalizing db with
  | nil => rfl
  | cons r rs ih =>
    unfold insertReasons
    exact ih _

theorem insertRejects_users (u : ReqUser) (id : Nat) (rows : List PayloadRow) (db : Db) :
    (insertRejects u id rows db).2.users = db.users := by
  induction rows generalizing db with
  | nil => rfl
  | cons r rs ih =>
    unfold insertRejects
    cases r.checks with
    | none => rfl
    | some c =>
      simp only
      rw [ih, insertReasons_users]

theorem upsertProcessed_users (now : Int) (id date startTime endTime : Nat)
    (t : ProcessedTotals) (db : Db) :
    (upsertProcessed now id date startTime endTime t db).users = db.users := by
  unfold upsertProcessed
  simp only
  split <;> rfl

theorem writeChildren_users (now : Int) (u : ReqUser) (id date startTime endTime : Nat)
    (b : StatBody) (msg : String) (db : Db) :
    (writeChildren now u id date startTime endTime b msg db).2.users = db.users := by
  unfold writeChildren
  split
  · rename_i heq
    have := insertFileCreations_users u id b.fileCreationRows db
    rw [heq] at this
    exact this
  · rename_i db1 heq1
    have e1 := insertFileCreations_users u id b.fileCreationRows db
    rw [heq1] at e1
    split
    · rename_i heq
      have := insertAttachments_users u id b.attachmentsRows db1
      rw [heq] at this
      exact this.trans e1
    · rename_i db2 heq2
      have e2 := insertAttachments_users u id b.attachmentsRows db1
      rw [heq2] at e2
      split
      · rename_i heq
        have := insertRejects_users u id b.rejectRows db2
        rw [heq] at this
        exact this.trans (e2.trans e1)
      · rename_i db3 heq3
        have e3 := insertRejects_users u id b.rejectRows db2
        rw [heq3] at e3
        simp only [upsertProcessed_users]
        exact e3.trans (e2.trans e1)

theorem postStat_users (now : Int) (u : ReqUser) (b : StatBody) (db : Db) :
    (postStat now u b db).2.users = db.users := by
  unfold postStat
  split
  · rename_i id date startTime endTime _ _ _ _
    split
    · rfl
    · split
      · rfl
      · cases hins : insertStat now db id u.id date startTime endTime with
        | none => rfl
        | some db1 =>
          unfold insertStat at hins
          split at hins
          · cases hins
          · simp only [Option.some.injEq] at hins
            subst hins
            simp only
            split
            · rw [writeChildren_users]
            · rfl
  · rfl

theorem putStat_users (now : Int) (u : ReqUser) (id : Nat) (b : StatBody) (db : Db) :
    (putStat now u id b db).2.users = db.users := by
  unfold putStat
  split
  · rfl
  · split
    · split
      · rfl
      · split
        · rfl
        · split
          · rfl
          · split
            · simp only
              split
              · rename_i heq
                have e1 := congrArg (fun p : Bool × Db => p.2.users) heq
                simp only [insertFileCreations_users] at e1
                exact e1.symm
              · rename_i heq1
                have e1 := congrArg (fun p : Bool × Db => p.2.users) heq1
                simp only [insertFileCreations_users] at e1
                split
                · rename_i heq
                  have e2 := congrArg (fun p : Bool × Db => p.2.users) heq
                  simp only [insertAttachments_users] at e2
                  exact e2.symm.trans e1.symm
                · rename_i heq2
                  have e2 := congrArg (fun p : Bool × Db => p.2.users) heq2
                  simp only [insertAttachments_users] at e2
                  split
                  · rename_i heq
                    have e3 := congrArg (fun p : Bool × Db => p.2.users) heq
                    simp only [insertRejects_users] at e3
                    exact e3.symm.trans (e2.symm.trans e1.symm)
                  · rename_i heq3
                    have e3 := congrArg (fun p : Bool × Db => p.2.users) heq3
                    simp only [insertRejects_users] at e3
                    simp only [upsertProcessed_users]
                    exact e3.symm.trans (e2.symm.trans e1.symm)
            · rfl
    · rfl

theorem deleteStat_users (now : Int) (u : ReqUser) (id : Nat) (db : Db) :
    (deleteStat now u id db).2.users = db.users := by
  unfold deleteStat
  split <;> rfl

theorem respondInvite_users (userId inviteId : Nat) (status : Str) (db : Db) :
    (respondInvite userId inviteId status db).2.users = db.users := by
  unfold respondInvite
  simp only
  split
  · split <;> rfl
  · rfl

theorem strOf_ne_nil (v : Option Str) (h : truthy v = true) : strOf v ≠ [] := by
  cases v with
  | none => cases h
  | some f =>
    cases f with
    | nil => cases h
    | cons a l => exact List.cons_ne_nil a l

theorem registerUser_named (newId : Nat) (body : RegisterBody) (db : Db)
    (h : NamedUsers db) : NamedUsers (registerUser newId body db).2 := by
  unfold registerUser
  split
  · exact h
  · rename_i hok
    split
    · exact h
    · intro u hu
      simp only [List.mem_append, List.mem_singleton] at hu
      rcases hu with hu | hu
      · exact h u hu
      · subst hu
        simp only [Bool.or_eq_true, Bool.not_eq_true', not_or, Bool.not_eq_false] at hok
        exact ⟨strOf_ne_nil _ hok.1.2, strOf_ne_nil _ hok.2⟩

theorem putTeamLeader_named (u : ReqUser) (leaderUserId : Option Nat) (db : Db)
    (h : NamedUsers db) : NamedUsers (putTeamLeader u leaderUserId db).2 := by
  unfold putTeamLeader
  split
  · exact h
  · split
    · exact h
    · split
      · exact h
      · split
        · exact h
        · intro x hx
          simp only [List.mem_map] at hx
          obtain ⟨y, hy, rfl⟩ := hx
          split
          · exact h y hy
          · exact h y hy

theorem named_of_users_eq (db db' : Db) (he : db'.users = db.users) (h : NamedUsers db) :
    NamedUsers db' := by
  unfold NamedUsers
  rw [he]
  exact h

theorem reachable_named (db : Db) (h : Reachable db) : NamedUsers db := by
  induction h with
  | empty => intro u hu; cases hu
  | register newId body db _ ih => exact registerUser_named newId body db ih
  | teamLeader u l db _ ih => exact putTeamLeader_named u l db ih
  | post now u b db _ ih => exact named_of_users_eq db _ (postStat_users now u b db) ih
  | put now u id b db _ ih => exact named_of_users_eq db _ (putStat_users now u id b db) ih
  | delete now u id db _ ih => exact named_of_users_eq db _ (deleteStat_users now u id db) ih
  | respond userId inviteId status db _ ih =>
    exact named_of_users_eq db _ (respondInvite_users userId inviteId status db) ih

/-- C19: the Excel `split` and the PDF `splitName` agree on every name; for
every name they return first = the first white-space-delimited token of the
trimmed name (the empty string for a blank name) and surname = the remaining
tokens joined by single spaces; hence for every user of a store the routes can
produce (registration refuses an empty first name or surname and no other
route writes a name) whose first_name and surname contain no white space,
splitting the shaped name returns exactly (first_name, surname). -/
theorem c19_name_splitter_recovers_names (n : Str) :
    split n = splitName n ∧
    splitName n = ((tokens (trim n)).headD [], joinSpace (tokens (trim n)).tail) ∧
    ∀ (db : Db) (u : UserRow), Reachable db → u ∈ db.users →
      (∀ c ∈ u.first_name, isWhiteSpace c = false) →
      (∀ c ∈ u.surname, isWhiteSpace c = false) →
      splitName (fullName u.first_name u.surname) = (u.first_name, u.surname) := by
  refine ⟨rfl, ?_, fun db u hdb hu hf hs =>
    splitName_fullName u.first_name u.surname hf hs (reachable_named db hdb u hu).1⟩
  obtain ⟨h1, h2⟩ := splitWs_trim n
  unfold splitName
  simp only
  rw [h1, h2]

/-- C19 (witness): `Ann Lee` registers in the empty store; her names are
recovered from the shaped name `Ann Lee`, and the name `  Mary  Ann   Lee `
splits into `Mary` and `Ann Lee`. -/
theorem c19_name_splitter_recovers_names_witness :
    Reachable (registerUser 7 annBody emptyDb).2 ∧
    (registerUser 7 annBody emptyDb).2.users =
      [{ id := 7, email := "Ann.Lee@x.org".toList, first_name := "Ann".toList,
         surname := "Lee".toList, team_leader_user_id := none }] ∧
    splitName (fullName "Ann".toList "Lee".toList) = ("Ann".toList, "Lee".toList) ∧
    splitName "  Mary  Ann   Lee ".toList = ("Mary".toList, "Ann Lee".toList) :=
  ⟨Reachable.register 7 annBody emptyDb Reachable.empty, by decide,
    (c19_name_splitter_recovers_names []).2.2 (registerUser 7 annBody emptyDb).2
      { id := 7, email := "Ann.Lee@x.org".toList, first_name := "Ann".toList,
        surname := "Lee".toList, team_leader_user_id := none }
      (Reachable.register 7 annBody emptyDb Reachable.empty) (by decide) (by decide)
      (by decide),
    by decide⟩

end QMStats
